import Mathlib

/-!
Reverse Polish Notation calculator: converter and evaluator.

A shallow embedding of `parser.cpp` (the infix to postfix converter),
`RPNEvaluator.cpp` (the postfix evaluator), the operator and function catalogue of
`operator.hpp` / `function.hpp`, and the operand arithmetic of `operand.cpp`,
`integer.cpp`, `boolean.cpp` and `real.cpp`.

Conventions of the embedding:

* a `std::stack` is a `List` whose head is the top of the stack;
* a `TokenList` (`std::vector`) is a `List` in index order, `push_back` appends;
* a C++ routine either returns, throws an exception whose `what()` is a given text
  (`std::runtime_error` in the sources, `std::overflow_error` from boost), or steps into
  undefined behaviour (reading the top of an empty stack, dereferencing the null result
  of a failed `dynamic_pointer_cast`): the three constructors of `Outcome`;
* `boost::multiprecision::cpp_int` is `Int`.
-/

namespace RPN

/-! ## Outcomes of a C++ routine -/

/-- How a call ends: with a value, with a thrown exception carrying the text `what`, or in
undefined behaviour. -/
inductive Outcome (α : Type) where
  | returned (value : α)
  | thrown (what : String)
  | undefined
  deriving DecidableEq, Repr

/-- Sequencing: the continuation runs only after a normal return. -/
def Outcome.bind {α β : Type} : Outcome α → (α → Outcome β) → Outcome β
  | .returned a, f => f a
  | .thrown w, _ => .thrown w
  | .undefined, _ => .undefined

/-! ## Operation catalogue (operator.hpp, function.hpp) -/

/-- The `enum class Precedence` of operator.hpp. -/
inductive Precedence where
  | MIN | ASSIGNMENT | LOGOR | LOGXOR | LOGAND | BITOR
  | BITXOR | BITAND | EQUALITY | RELATIONAL | BITSHIFT
  | ADDITIVE | MULTIPLICATIVE | UNARY | POWER | POSTFIX
  | MAX
  deriving DecidableEq, Repr

/-- The enumerator value (`MIN = 0`, then counting up); the comparisons `<` and `<=` of the
converter compare these values. -/
def Precedence.toNat : Precedence → Nat
  | .MIN => 0 | .ASSIGNMENT => 1 | .LOGOR => 2 | .LOGXOR => 3 | .LOGAND => 4 | .BITOR => 5
  | .BITXOR => 6 | .BITAND => 7 | .EQUALITY => 8 | .RELATIONAL => 9 | .BITSHIFT => 10
  | .ADDITIVE => 11 | .MULTIPLICATIVE => 12 | .UNARY => 13 | .POWER => 14 | .POSTFIX => 15
  | .MAX => 16

/-- The concrete operator classes of operator.hpp. -/
inductive OperatorKind where
  | Power | Assignment
  | Addition | And | Division | Equality | Greater | GreaterEqual | Inequality | Less
  | LessEqual | Multiplication | Modulus | Nand | Nor | Or | Subtraction | Xor | Xnor
  | Identity | Negation | Not
  | Factorial
  deriving DecidableEq, Repr

/-- The `precedence()` override of each operator class (`DEF_PRECEDENCE`); the unary
operators and `Factorial` inherit `UnaryOperator`'s `DEF_PRECEDENCE(UNARY)`. -/
def OperatorKind.precedence : OperatorKind → Precedence
  | .Power => .POWER
  | .Assignment => .ASSIGNMENT
  | .Addition => .ADDITIVE
  | .And => .LOGAND
  | .Division => .MULTIPLICATIVE
  | .Equality => .EQUALITY
  | .Greater => .RELATIONAL
  | .GreaterEqual => .RELATIONAL
  | .Inequality => .EQUALITY
  | .Less => .RELATIONAL
  | .LessEqual => .RELATIONAL
  | .Multiplication => .MULTIPLICATIVE
  | .Modulus => .MULTIPLICATIVE
  | .Nand => .LOGAND
  | .Nor => .LOGOR
  | .Or => .LOGOR
  | .Subtraction => .ADDITIVE
  | .Xor => .LOGOR
  | .Xnor => .LOGOR
  | .Identity => .UNARY
  | .Negation => .UNARY
  | .Not => .UNARY
  | .Factorial => .UNARY

/-- The `associativeType()` override of each operator class. -/
def OperatorKind.associativeType : OperatorKind → String
  | .Power => "Right"
  | .Assignment => "Right"
  | .Identity => "None"
  | .Negation => "None"
  | .Not => "None"
  | .Factorial => "None"
  | _ => "Left"

/-- The `number_of_args()` of each operator class: 2 for `BinaryOperator`, 1 for
`UnaryOperator` and `PostfixOperator`. -/
def OperatorKind.number_of_args : OperatorKind → Nat
  | .Identity => 1
  | .Negation => 1
  | .Not => 1
  | .Factorial => 1
  | _ => 2

/-- The concrete function classes of function.hpp. -/
inductive FunctionKind where
  | Abs | Arccos | Arcsin | Arctan | Ceil | Cos | Exp | Floor | Lb | Ln | Log | Result
  | Sin | Sqrt | Tan
  | Arctan2 | Max | Min | Pow
  deriving DecidableEq, Repr

/-- The `number_of_args()` of each function class. -/
def FunctionKind.number_of_args : FunctionKind → Nat
  | .Arctan2 => 2
  | .Max => 2
  | .Min => 2
  | .Pow => 2
  | _ => 1

/-! ## Converter dispatch table (parser.cpp, `get_infix_eval`) -/

/-- The distinct callables stored in the table of `get_infix_eval`: the four lambdas and
`push_operation`. -/
inductive InfixEval where
  | LeftParenthesis | RightParenthesis | Not | And | push_operation
  deriving DecidableEq, Repr

/-- The table of `get_infix_eval`, key by key. -/
def get_infix_eval : List (String × InfixEval) :=
  [ ("<LeftParenthesis>", .LeftParenthesis),
    ("<RightParenthesis>", .RightParenthesis),
    ("<Not>", .Not),
    ("<And>", .And),
    ("<Addition>", .push_operation),
    ("<Subtraction>", .push_operation),
    ("<Multiplication>", .push_operation),
    ("<Division>", .push_operation),
    ("<Factorial>", .push_operation),
    ("<Modulus>", .push_operation),
    ("<Power>", .push_operation),
    ("<Negation>", .push_operation),
    ("<Abs>", .push_operation),
    ("<Min>", .push_operation),
    ("<Max>", .push_operation),
    ("<Identity>", .push_operation),
    ("<ArgumentSeparator>", .push_operation),
    ("True", .push_operation),
    ("False", .push_operation),
    ("<Or>", .push_operation),
    ("<Xor>", .push_operation),
    ("<Nand>", .push_operation),
    ("<Nor>", .push_operation),
    ("<Xnor>", .push_operation),
    ("<Sin>", .push_operation),
    ("<Cos>", .push_operation),
    ("<Tan>", .push_operation),
    ("<Arctan2>", .push_operation),
    ("<Pow>", .push_operation),
    ("<Arccos>", .push_operation),
    ("<Arcsin>", .push_operation),
    ("<Arctan>", .push_operation),
    ("<Floor>", .push_operation),
    ("<Ceil>", .push_operation),
    ("<Exp>", .push_operation),
    ("<Lb>", .push_operation),
    ("<Ln>", .push_operation),
    ("<Sqrt>", .push_operation),
    ("<Equality>", .push_operation),
    ("<Inequality>", .push_operation),
    ("<Less>", .push_operation),
    ("<LessEqual>", .push_operation),
    ("<Greater>", .push_operation),
    ("<GreaterEqual>", .push_operation),
    ("<Assignment>", .push_operation) ]

/-! ## Tokens -/

/-- The operand classes: `Integer` (a `cpp_int`), `Real`, `Boolean` and `Variable`.
`Real::value_type` is a 1000-digit decimal float; the embedding carries the rational value
a `Real` holds, and the rounding of the decimal-float arithmetic is left to the runtime. A
`Variable` is a shared object; the embedding names it and keeps its binding in a store. -/
inductive Operand where
  | Integer (value : Int)
  | Real (value : Rat)
  | Boolean (value : Bool)
  | Variable (name : String)
  deriving DecidableEq, Repr

/-- A token of a class outside the catalogue: neither an operand, an operator, a function
nor a pseudo-operation. Its `str()` is a name the converter's table does not hold. -/
structure UnknownToken where
  name : String
  unregistered : get_infix_eval.lookup name = none
  deriving DecidableEq

/-- The token classes the converter and the evaluator distinguish by
`dynamic_pointer_cast`. -/
inductive Token where
  | operand (o : Operand)
  | operator (k : OperatorKind)
  | function (f : FunctionKind)
  | LeftParenthesis
  | RightParenthesis
  | ArgumentSeparator
  | other (t : UnknownToken)
  deriving DecidableEq

abbrev TokenList := List Token

/-- Digits of `Real::str`: `fixed << setprecision(digits10)` prints the value with
`digits10 = 1000` digits after the decimal point. -/
def Real.str (value : Rat) : String :=
  let scaled : Int := Rat.floor (|value| * 10 ^ 1000 + 1 / 2)
  let whole := scaled / 10 ^ 1000
  let fraction := toString (scaled % 10 ^ 1000)
  (if value < 0 then "-" else "") ++ toString whole ++ "." ++
    String.mk (List.replicate (1000 - fraction.length) '0') ++ fraction

/-- The `str()` of an operand: `Integer::str` is the decimal text of the value,
`Boolean::str` is `"True"` or `"False"`, `Real::str` is fixed-point text.
Modelled from the spec: `Variable::str` (variable.hpp is not among the sources); a Variable
is a name plus an optional binding, and its text is taken to be the name. The converter
never consults the text of an operand. -/
def Operand.str : Operand → String
  | .Integer value => toString value
  | .Real value => Real.str value
  | .Boolean value => if value then "True" else "False"
  | .Variable name => name

/-- Modelled from the spec: `Token::str` of the operation and pseudo-operation classes
(token.hpp is not among the sources). Every token has a stable symbolic name used for
catalogue lookup; the names are the keys of `get_infix_eval` and the entries of
`functionList`, the class name in angle brackets. -/
def Token.str : Token → String
  | .operand o => o.str
  | .operator .Power => "<Power>"
  | .operator .Assignment => "<Assignment>"
  | .operator .Addition => "<Addition>"
  | .operator .And => "<And>"
  | .operator .Division => "<Division>"
  | .operator .Equality => "<Equality>"
  | .operator .Greater => "<Greater>"
  | .operator .GreaterEqual => "<GreaterEqual>"
  | .operator .Inequality => "<Inequality>"
  | .operator .Less => "<Less>"
  | .operator .LessEqual => "<LessEqual>"
  | .operator .Multiplication => "<Multiplication>"
  | .operator .Modulus => "<Modulus>"
  | .operator .Nand => "<Nand>"
  | .operator .Nor => "<Nor>"
  | .operator .Or => "<Or>"
  | .operator .Subtraction => "<Subtraction>"
  | .operator .Xor => "<Xor>"
  | .operator .Xnor => "<Xnor>"
  | .operator .Identity => "<Identity>"
  | .operator .Negation => "<Negation>"
  | .operator .Not => "<Not>"
  | .operator .Factorial => "<Factorial>"
  | .function .Abs => "<Abs>"
  | .function .Arccos => "<Arccos>"
  | .function .Arcsin => "<Arcsin>"
  | .function .Arctan => "<Arctan>"
  | .function .Ceil => "<Ceil>"
  | .function .Cos => "<Cos>"
  | .function .Exp => "<Exp>"
  | .function .Floor => "<Floor>"
  | .function .Lb => "<Lb>"
  | .function .Ln => "<Ln>"
  | .function .Log => "<Log>"
  | .function .Result => "<Result>"
  | .function .Sin => "<Sin>"
  | .function .Sqrt => "<Sqrt>"
  | .function .Tan => "<Tan>"
  | .function .Arctan2 => "<Arctan2>"
  | .function .Max => "<Max>"
  | .function .Min => "<Min>"
  | .function .Pow => "<Pow>"
  | .LeftParenthesis => "<LeftParenthesis>"
  | .RightParenthesis => "<RightParenthesis>"
  | .ArgumentSeparator => "<ArgumentSeparator>"
  | .other t => t.name

/-- The result of `std::dynamic_pointer_cast<Operator>`: the operator class, or nothing
for a null pointer. -/
def Token.asOperator : Token → Option OperatorKind
  | .operator k => some k
  | _ => none

/-- The `functionList` of `isFunction` (function.cpp). -/
def functionList : List String :=
  [ "<Min>", "<Max>", "<Abs>", "<Pow>", "<Arccos>", "<Arcsin>", "<Arctan>", "<Ceil>",
    "<Cos>", "<Sin>", "<Tan>", "<Exp>", "<Floor>", "<Lb>", "<Ln>", "<Log>", "<Result>",
    "<Sqrt>", "<Arctan2>" ]

/-- The `isFunction` of function.cpp: is the token's name in `functionList`? -/
def isFunction (token : Token) : Bool :=
  functionList.contains token.str

/-! ## Converter (parser.cpp) -/

/-- The loop of the `"<RightParenthesis>"` lambda: while the stack is not empty and its
top is not named `"<LeftParenthesis>"`, move the top to the output. -/
def popToLeftParenthesis : TokenList → List Token → TokenList × List Token
  | tokenList, [] => (tokenList, [])
  | tokenList, top :: rest =>
    if top.str ≠ "<LeftParenthesis>" then popToLeftParenthesis (tokenList ++ [top]) rest
    else (tokenList, top :: rest)

/-- The `"<LeftParenthesis>"` lambda: push the token. -/
def evalLeftParenthesis (tokenList : TokenList) (operator_stack : List Token)
    (token : Token) : Outcome (TokenList × List Token) :=
  .returned (tokenList, token :: operator_stack)

/-- The `"<RightParenthesis>"` lambda: unwind to the left parenthesis, throw when there
is none, discard it, then emit a function found on top. -/
def evalRightParenthesis (tokenList : TokenList) (operator_stack : List Token)
    (_token : Token) : Outcome (TokenList × List Token) :=
  match popToLeftParenthesis tokenList operator_stack with
  | (_, []) => .thrown "Mismatched parentheses"
  | (tokenList, _ :: []) => .returned (tokenList, [])
  | (tokenList, _ :: topToken :: rest) =>
    if isFunction topToken then .returned (tokenList ++ [topToken], rest)
    else .returned (tokenList, topToken :: rest)

/-- The body shared by the `"<Not>"` and `"<And>"` lambdas: pop while the top is an
operator whose precedence is not below the token's, then push the token. The cast of the
token itself is dereferenced unchecked. -/
def evalByPrecedence : TokenList → List Token → Token → Outcome (TokenList × List Token)
  | tokenList, [], token => .returned (tokenList, [token])
  | tokenList, top :: rest, token =>
    match top.asOperator with
    | none => .returned (tokenList, token :: top :: rest)
    | some stack_top =>
      match token.asOperator with
      | none => .undefined
      | some op =>
        if stack_top.precedence.toNat < op.precedence.toNat then
          .returned (tokenList, token :: top :: rest)
        else evalByPrecedence (tokenList ++ [top]) rest token

/-- The operator loop of `push_operation`: pop while the top is an operator and the
associativity test against `op` holds. -/
def popOperators (op : OperatorKind) : TokenList → List Token → TokenList × List Token
  | tokenList, [] => (tokenList, [])
  | tokenList, top :: rest =>
    match top.asOperator with
    | none => (tokenList, top :: rest)
    | some stack_top =>
      if (op.associativeType = "Left" ∧ op.precedence.toNat ≤ stack_top.precedence.toNat) ∨
          (op.associativeType = "Right" ∧ op.precedence.toNat < stack_top.precedence.toNat)
      then popOperators op (tokenList ++ [top]) rest
      else (tokenList, top :: rest)

/-- The argument-separator loop of `push_operation`: `operator_stack.top()` is read
without an emptiness test. -/
def popToLeftParenthesisUnchecked : TokenList → List Token → Outcome (TokenList × List Token)
  | _, [] => .undefined
  | tokenList, top :: rest =>
    if top.str ≠ "<LeftParenthesis>" then popToLeftParenthesisUnchecked (tokenList ++ [top]) rest
    else .returned (tokenList, top :: rest)

/-- The `push_operation` of parser.cpp. -/
def push_operation (tokenList : TokenList) (operator_stack : List Token)
    (token : Token) : Outcome (TokenList × List Token) :=
  match token with
  | .operator op =>
    .returned ((popOperators op tokenList operator_stack).1,
      token :: (popOperators op tokenList operator_stack).2)
  | .function _ => .returned (tokenList, token :: operator_stack)
  | .ArgumentSeparator => popToLeftParenthesisUnchecked tokenList operator_stack
  | _ => .returned (tokenList, operator_stack)

/-- The callable behind each entry of the table. -/
def InfixEval.run : InfixEval → TokenList → List Token → Token →
    Outcome (TokenList × List Token)
  | .LeftParenthesis => evalLeftParenthesis
  | .RightParenthesis => evalRightParenthesis
  | .Not => evalByPrecedence
  | .And => evalByPrecedence
  | .push_operation => RPN.push_operation

/-- One iteration of the `for` loop of `Parser::parse`. -/
def parseToken (tokenList : TokenList) (operator_stack : List Token)
    (tok : Token) : Outcome (TokenList × List Token) :=
  match tok with
  | .operand _ => .returned (tokenList ++ [tok], operator_stack)
  | .function _ => push_operation tokenList operator_stack tok
  | _ =>
    match get_infix_eval.lookup tok.str with
    | some eval_it => eval_it.run tokenList operator_stack tok
    | none => .thrown ("Unknown token: " ++ tok.str)

/-- The `for` loop of `Parser::parse` over the input tokens. -/
def parseLoop : List Token → TokenList → List Token → Outcome (TokenList × List Token)
  | [], tokenList, operator_stack => .returned (tokenList, operator_stack)
  | tok :: rest, tokenList, operator_stack =>
    (parseToken tokenList operator_stack tok).bind fun s => parseLoop rest s.1 s.2

/-- The final `while` loop of `Parser::parse`: empty the stack into the output, throwing
on a left parenthesis. -/
def drainStack : TokenList → List Token → Outcome TokenList
  | tokenList, [] => .returned tokenList
  | tokenList, top :: rest =>
    if top.str = "<LeftParenthesis>" then .thrown "Missing right parenthesis"
    else drainStack (tokenList ++ [top]) rest

/-- The `Parser::parse` of parser.cpp. -/
def Parser.parse (infixTokens : TokenList) : Outcome TokenList :=
  (parseLoop infixTokens [] []).bind fun s => drainStack s.1 s.2

/-! ## What the embedding takes from outside the repository -/

/-- The significant decimal digits `Real::value_type`, a `cpp_dec_float<1000>`, keeps. -/
def Real.digits10 : Nat := 1000

/-- A bound for decimal exponents that stays far inside the range of the `int32_t`
exponent of `Real::value_type`. -/
def Real.exponent_bound : Nat := 1000000

/-- A value the decimal float holds exactly: a whole number of at most `digits10` digits
times a power of ten whose exponent is within `exponent_bound`. -/
def Real.representable (q : Rat) : Prop :=
  ∃ m k : Int, |m| < 10 ^ Real.digits10 ∧ |k| ≤ Real.exponent_bound ∧
    q = m * (10 : Rat) ^ k

/-- The routines of boost.multiprecision and `<cmath>` the operand classes call on `Real`
values, and the depth of recursion the call stack can hold. They are parameters of the
evaluator: the embedding fixes none of them. `convert` is the cast of a `cpp_int` to
`Real::value_type`, and `add`, `sub`, `mul`, `div` are the arithmetic of the decimal float,
each of which rounds its result to the working precision; all the embedding takes about
the rounding is that a result the decimal float holds exactly is returned as it is (the
four `_exact` fields). `std_sin`, `std_cos`, `std_tan` and `std_atan2` stand for the
`<cmath>` routines together with the casts to and from `double` around them;
`divide_by_zero` is the non-finite quotient a decimal float division by zero produces,
which the rational payload cannot hold. -/
structure Runtime where
  convert : Int → Rat
  add : Rat → Rat → Rat
  sub : Rat → Rat → Rat
  mul : Rat → Rat → Rat
  div : Rat → Rat → Rat
  convert_exact : ∀ n : Int, Real.representable n → convert n = n
  add_exact : ∀ x y : Rat, Real.representable x → Real.representable y →
    Real.representable (x + y) → add x y = x + y
  sub_exact : ∀ x y : Rat, Real.representable x → Real.representable y →
    Real.representable (x - y) → sub x y = x - y
  mul_exact : ∀ x y : Rat, Real.representable x → Real.representable y →
    Real.representable (x * y) → mul x y = x * y
  sin : Rat → Rat
  cos : Rat → Rat
  tan : Rat → Rat
  asin : Rat → Rat
  acosh : Rat → Rat
  atan : Rat → Rat
  atan2 : Rat → Rat → Rat
  exp : Rat → Rat
  log : Rat → Rat
  log2 : Rat → Rat
  sqrt : Rat → Rat
  pow : Rat → Rat → Rat
  std_sin : Rat → Rat
  std_cos : Rat → Rat
  std_tan : Rat → Rat
  std_atan2 : Rat → Rat → Rat
  divide_by_zero : Rat → Rat
  call_depth : Nat

/-- Modelled from the spec: the binding of each `Variable` (variable.hpp is not among the
sources). A Variable is a name plus an optional currently-bound value; the store lists the
bindings made so far, the newest first. -/
abbrev Store := List (String × Operand)

/-- Modelled from the spec: `Variable::value`, the operand currently bound to the
Variable, or a null pointer when it is unbound. -/
def Store.value (store : Store) (name : String) : Option Operand :=
  store.lookup name

/-- Modelled from the spec: `Variable::set`, which replaces the payload of the Variable
wholesale. -/
def Store.set (store : Store) (name : String) (value : Operand) : Store :=
  (name, value) :: store

/-! ## Operand arithmetic -/

/-- The `dynamic_pointer_cast<Integer>` of an operand. -/
def Operand.asInteger : Operand → Option Int
  | .Integer value => some value
  | _ => none

/-- The `dynamic_pointer_cast<Real>` of an operand. -/
def Operand.asReal : Operand → Option Rat
  | .Real value => some value
  | _ => none

/-- The `dynamic_pointer_cast<Boolean>` of an operand. -/
def Operand.asBoolean : Operand → Option Bool
  | .Boolean value => some value
  | _ => none

/-- The `toRealValue` of real.cpp: a `Real` gives its value, an `Integer` is cast to
`Real::value_type`, which keeps the leading digits the working precision has room for. -/
def toRealValue (rt : Runtime) : Operand → Outcome Rat
  | .Real value => .returned value
  | .Integer value => .returned (rt.convert value)
  | _ => .thrown "Unsupported operand type"

/-- The `int_fast_power` of integer.cpp; `/` and `%` of `cpp_int` truncate toward zero. -/
def int_fast_power (base exponent : Int) : Int :=
  if exponent = 0 then 1
  else
    let x := int_fast_power base (exponent.tdiv 2)
    if exponent.tmod 2 = 0 then x * x else x * x * base
termination_by exponent.natAbs
decreasing_by
  rcases exponent with n | n
  · have hn : n ≠ 0 := by rintro rfl; simp_all
    simp only [Int.ofNat_eq_coe]
    have : (n : Int).tdiv 2 = ((n / 2 : Nat) : Int) := rfl
    rw [this]
    simp only [Int.natAbs_ofNat]
    omega
  · have : (Int.negSucc n).tdiv 2 = -(((n + 1) / 2 : Nat) : Int) := rfl
    rw [this]
    simp only [Int.natAbs_neg, Int.natAbs_ofNat, Int.natAbs_negSucc]
    omega

/-- The loop of `int_simple_power`: `count` further rounds of `product *= base`. -/
def int_simple_power.loop (base : Int) : Nat → Int → Int
  | 0, product => product
  | count + 1, product => int_simple_power.loop base count (product * base)

/-- The `int_simple_power` of integer.cpp: the body runs for `i = 0, 1, ...` while
`i < exponent`, that is `exponent` times, and not at all for an exponent below 1. -/
def int_simple_power (base exponent : Int) : Int :=
  int_simple_power.loop base exponent.toNat 1

/-- The `fmod` of two decimal floats: what is left of `x` after taking away the whole
number of `y` that fits, rounded toward zero. -/
def fmod (x y : Rat) : Rat :=
  x - (if 0 ≤ x / y then ((x / y).floor : Rat) else ((x / y).ceil : Rat)) * y

/-- The `fast_power` of real.cpp, with the depth of recursion still available; the
exponent is halved as a `Real`. -/
def fast_power (base : Rat) : Nat → Rat → Outcome Rat
  | 0, _ => .undefined
  | depth + 1, exponent =>
    if exponent = 0 then .returned 1
    else
      (fast_power base depth (exponent / 2)).bind fun x =>
        if fmod exponent 2 = 0 then .returned (x * x) else .returned (x * x * base)

/-- The loop of `simple_power`: `count` further rounds of `product *= base`, each a
multiplication of the decimal float. -/
def simple_power.loop (rt : Runtime) (base : Rat) : Nat → Rat → Rat
  | 0, product => product
  | count + 1, product => simple_power.loop rt base count (rt.mul product base)

/-- The `simple_power` of real.cpp: the counter `i` runs over `0, 1, 2, ...` while
`i < exponent`, one round for each whole number below the exponent (the callers pass an
exponent of at most 8, for which the counter is exact). -/
def simple_power (rt : Runtime) (base exponent : Rat) : Rat :=
  simple_power.loop rt base exponent.ceil.toNat 1

/-- The quotient of two `Real` values. -/
def Real.divide (rt : Runtime) (left right : Rat) : Rat :=
  if right = 0 then rt.divide_by_zero left else rt.div left right

/-- Two `top()`/`pop()` pairs, each operand put through the same `dynamic_pointer_cast`
and then dereferenced: the shape of the two-operand routines of operand.cpp and
boolean.cpp. `arg2` is the top of the stack. -/
def castTwo {α : Type} (cast : Operand → Option α) (f : α → α → Outcome Operand) :
    List Operand → Outcome (List Operand)
  | top :: second :: rest =>
    match cast top, cast second with
    | some arg2, some arg1 => (f arg1 arg2).bind fun result => .returned (result :: rest)
    | _, _ => .undefined
  | _ => .undefined

/-- One `top()`/`pop()` pair with a `dynamic_pointer_cast` that is dereferenced. -/
def castOne {α : Type} (cast : Operand → Option α) (f : α → Outcome Operand) :
    List Operand → Outcome (List Operand)
  | top :: rest =>
    match cast top with
    | some arg => (f arg).bind fun result => .returned (result :: rest)
    | none => .undefined
  | _ => .undefined

/-- The shape of the mixed-type routines of integer.cpp and of the comparisons of
real.cpp: pop `right` then `left`; when `left` casts to the class, push a result only if
`right` casts too; otherwise convert both with `toRealValue`. -/
def castOrReal {α : Type} (rt : Runtime) (cast : Operand → Option α)
    (same : α → α → Outcome Operand)
    (real : Rat → Rat → Outcome Operand) : List Operand → Outcome (List Operand)
  | right :: left :: rest =>
    match cast left with
    | some left_value =>
      match cast right with
      | some right_value =>
        (same left_value right_value).bind fun result => .returned (result :: rest)
      | none => .returned rest
    | none =>
      (toRealValue rt right).bind fun right_value =>
        (toRealValue rt left).bind fun left_value =>
          (real left_value right_value).bind fun result => .returned (result :: rest)
  | _ => .undefined

/-- The shape of the arithmetic routines of real.cpp: pop `right` then `left`, convert
both with `toRealValue`, push the `Real` result. -/
def realTwo (rt : Runtime) (f : Rat → Rat → Outcome Rat) :
    List Operand → Outcome (List Operand)
  | right :: left :: rest =>
    (toRealValue rt right).bind fun right_value =>
      (toRealValue rt left).bind fun left_value =>
        (f left_value right_value).bind fun result => .returned (Operand.Real result :: rest)
  | _ => .undefined

/-- The conversion `static_cast<int>(std::floor(static_cast<long double>(value)))` of
`perform_Floor` and `perform_Ceil`: defined only for a value an `int` can hold. -/
def toIntViaLongDouble (value : Int) : Outcome Operand :=
  if -2147483648 ≤ value ∧ value ≤ 2147483647 then .returned (.Integer value)
  else .undefined

/-- The loop of `perform_factorial`: `factorialValue *= i` for `i`, `i + 1`, ... over
`count` rounds. -/
def factorialLoop : Nat → Int → Int → Int
  | 0, _, factorialValue => factorialValue
  | count + 1, i, factorialValue => factorialLoop count (i + 1) (factorialValue * i)

/-- The quotient of two `cpp_int` values: truncation toward zero; boost throws
`std::overflow_error` on a zero divisor. -/
def Integer.divide (left right : Int) : Outcome Int :=
  if right = 0 then .thrown "Integer Division by zero." else .returned (left.tdiv right)

/-- The remainder of two `cpp_int` values: the sign follows the dividend; boost throws
`std::overflow_error` on a zero divisor. -/
def Integer.modulus (left right : Int) : Outcome Int :=
  if right = 0 then .thrown "Integer Division by zero." else .returned (left.tmod right)

/-! ### The base class (operand.cpp) -/

/-- The `Operand::perform_addition` of operand.cpp. -/
def Operand.perform_addition : List Operand → Outcome (List Operand) :=
  castTwo Operand.asInteger fun arg1 arg2 => .returned (.Integer (arg1 + arg2))

/-- The `Operand::perform_subtraction` of operand.cpp. -/
def Operand.perform_subtraction : List Operand → Outcome (List Operand) :=
  castTwo Operand.asInteger fun arg1 arg2 => .returned (.Integer (arg1 - arg2))

/-- The `Operand::perform_multiplication` of operand.cpp. -/
def Operand.perform_multiplication : List Operand → Outcome (List Operand) :=
  castTwo Operand.asInteger fun arg1 arg2 => .returned (.Integer (arg1 * arg2))

/-- The `Operand::perform_division` of operand.cpp. -/
def Operand.perform_division : List Operand → Outcome (List Operand) :=
  castTwo Operand.asInteger fun arg1 arg2 =>
    (Integer.divide arg1 arg2).bind fun result => .returned (.Integer result)

/-- The `Operand::perform_factorial` of operand.cpp. The test `arg < 0` compares the
smart pointer with a null pointer and never holds; the counter `i` is an `int`, which
overflows when the operand is `INT_MAX` or more. -/
def Operand.perform_factorial : List Operand → Outcome (List Operand) :=
  castOne Operand.asInteger fun arg =>
    if 2147483647 ≤ arg then .undefined
    else .returned (.Integer (factorialLoop arg.toNat 1 1))

/-- The `Operand::perform_Identity` of operand.cpp. -/
def Operand.perform_Identity : List Operand → Outcome (List Operand) :=
  castOne Operand.asInteger fun arg => .returned (.Integer arg)

/-- The `Operand::perform_Negation` of operand.cpp: the cast of the `Integer` pointer to
`Variable` is null, so the routine throws once the operand is popped. -/
def Operand.perform_Negation : List Operand → Outcome (List Operand)
  | _ :: _ => .thrown "Error: variable not initialized"
  | [] => .undefined

/-- The loop of `Operand::perform_Power`: square and multiply while the exponent is
positive. -/
def Operand.perform_Power.loop : Nat → Int → Int → Int → Int
  | 0, result, _, _ => result
  | fuel + 1, result, base, exponent =>
    if 0 < exponent then
      Operand.perform_Power.loop fuel (if exponent.tmod 2 = 1 then result * base else result)
        (base * base) (exponent.tdiv 2)
    else result

/-- The `Operand::perform_Power` of operand.cpp; the loop halves a positive exponent, so
it ends within `exponent` rounds. -/
def Operand.perform_Power : List Operand → Outcome (List Operand) :=
  castTwo Operand.asInteger fun arg1 arg2 =>
    .returned (.Integer (Operand.perform_Power.loop arg2.toNat 1 arg1 arg2))

/-- The `Operand::perform_Modulus` of operand.cpp. -/
def Operand.perform_Modulus : List Operand → Outcome (List Operand) :=
  castTwo Operand.asInteger fun arg1 arg2 =>
    (Integer.modulus arg1 arg2).bind fun result => .returned (.Integer result)

/-- The `Operand::perform_Abs` of operand.cpp. -/
def Operand.perform_Abs : List Operand → Outcome (List Operand) :=
  castOne Operand.asInteger fun arg => .returned (.Integer |arg|)

/-- The `Operand::perform_Min` of operand.cpp. -/
def Operand.perform_Min : List Operand → Outcome (List Operand) :=
  castTwo Operand.asInteger fun arg1 arg2 => .returned (.Integer (min arg1 arg2))

/-- The `Operand::perform_Max` of operand.cpp. -/
def Operand.perform_Max : List Operand → Outcome (List Operand) :=
  castTwo Operand.asInteger fun arg1 arg2 => .returned (.Integer (max arg1 arg2))

/-- The `Operand::perform_Not` of operand.cpp: the top is cast to `Variable`, and `!` of
the pointer `var_arg->value()` tells whether the Variable is unbound. -/
def Operand.perform_Not (store : Store) : List Operand → Outcome (List Operand)
  | .Variable name :: rest => .returned (.Boolean (store.value name).isNone :: rest)
  | _ => .undefined

/-- The `Operand::perform_And` of operand.cpp. -/
def Operand.perform_And : List Operand → Outcome (List Operand) :=
  castTwo Operand.asBoolean fun arg1 arg2 => .returned (.Boolean (arg1 && arg2))

/-- The `1` or `0` the logical and comparison routines of operand.cpp push. -/
def Integer.ofBool (result : Bool) : Operand :=
  .Integer (if result then 1 else 0)

/-- The `Operand::perform_Nand` of operand.cpp, on `Integer` casts. -/
def Operand.perform_Nand : List Operand → Outcome (List Operand) :=
  castTwo Operand.asInteger fun arg1 arg2 =>
    .returned (Integer.ofBool (!(decide (arg1 ≠ 0) && decide (arg2 ≠ 0))))

/-- The `Operand::perform_Nor` of operand.cpp. -/
def Operand.perform_Nor : List Operand → Outcome (List Operand) :=
  castTwo Operand.asInteger fun arg1 arg2 =>
    .returned (Integer.ofBool (!(decide (arg1 ≠ 0) || decide (arg2 ≠ 0))))

/-- The `Operand::perform_Or` of operand.cpp. -/
def Operand.perform_Or : List Operand → Outcome (List Operand) :=
  castTwo Operand.asInteger fun arg1 arg2 =>
    .returned (Integer.ofBool (decide (arg1 ≠ 0) || decide (arg2 ≠ 0)))

/-- The `Operand::perform_Xnor` of operand.cpp. -/
def Operand.perform_Xnor : List Operand → Outcome (List Operand) :=
  castTwo Operand.asInteger fun arg1 arg2 =>
    .returned (Integer.ofBool (!(xor (decide (arg1 ≠ 0)) (decide (arg2 ≠ 0)))))

/-- The `Operand::perform_Xor` of operand.cpp. -/
def Operand.perform_Xor : List Operand → Outcome (List Operand) :=
  castTwo Operand.asInteger fun arg1 arg2 =>
    .returned (Integer.ofBool (xor (decide (arg1 ≠ 0)) (decide (arg2 ≠ 0))))

/-- The `Operand::perform_Equality` of operand.cpp. -/
def Operand.perform_Equality : List Operand → Outcome (List Operand) :=
  castTwo Operand.asInteger fun arg1 arg2 => .returned (Integer.ofBool (decide (arg1 = arg2)))

/-- The `Operand::perform_Inequality` of operand.cpp. -/
def Operand.perform_Inequality : List Operand → Outcome (List Operand) :=
  castTwo Operand.asInteger fun arg1 arg2 => .returned (Integer.ofBool (decide (arg1 ≠ arg2)))

/-- The `Operand::perform_Greater` of operand.cpp. -/
def Operand.perform_Greater : List Operand → Outcome (List Operand) :=
  castTwo Operand.asInteger fun arg1 arg2 => .returned (Integer.ofBool (decide (arg1 > arg2)))

/-- The `Operand::perform_GreaterEqual` of operand.cpp. -/
def Operand.perform_GreaterEqual : List Operand → Outcome (List Operand) :=
  castTwo Operand.asInteger fun arg1 arg2 => .returned (Integer.ofBool (decide (arg1 ≥ arg2)))

/-- The `Operand::perform_Less` of operand.cpp. -/
def Operand.perform_Less : List Operand → Outcome (List Operand) :=
  castTwo Operand.asInteger fun arg1 arg2 => .returned (Integer.ofBool (decide (arg1 < arg2)))

/-- The `Operand::perform_LessEqual` of operand.cpp. -/
def Operand.perform_LessEqual : List Operand → Outcome (List Operand) :=
  castTwo Operand.asInteger fun arg1 arg2 => .returned (Integer.ofBool (decide (arg1 ≤ arg2)))

/-- The `Operand::perform_Sin` of operand.cpp, through `double` and `std::sin`. -/
def Operand.perform_Sin (rt : Runtime) : List Operand → Outcome (List Operand) :=
  castOne Operand.asReal fun arg => .returned (.Real (rt.std_sin arg))

/-- The `Operand::perform_Tan` of operand.cpp. -/
def Operand.perform_Tan (rt : Runtime) : List Operand → Outcome (List Operand) :=
  castOne Operand.asReal fun arg => .returned (.Real (rt.std_tan arg))

/-- The `Operand::perform_Cos` of operand.cpp. -/
def Operand.perform_Cos (rt : Runtime) : List Operand → Outcome (List Operand) :=
  castOne Operand.asReal fun arg => .returned (.Real (rt.std_cos arg))

/-- The `Operand::perform_Arctan2` of operand.cpp: `y` is the top, `x` the one below. -/
def Operand.perform_Arctan2 (rt : Runtime) : List Operand → Outcome (List Operand) :=
  castTwo Operand.asReal fun x y => .returned (.Real (rt.std_atan2 y x))

/-- The `Operand::perform_Floor` of operand.cpp. -/
def Operand.perform_Floor : List Operand → Outcome (List Operand) :=
  castOne Operand.asInteger toIntViaLongDouble

/-- The `Operand::perform_Ceil` of operand.cpp, which also calls `std::floor`. -/
def Operand.perform_Ceil : List Operand → Outcome (List Operand) :=
  castOne Operand.asInteger toIntViaLongDouble

/-- The `Operand::perform_Arctan` of operand.cpp. -/
def Operand.perform_Arctan (rt : Runtime) : List Operand → Outcome (List Operand) :=
  castOne Operand.asReal fun y => .returned (.Real (rt.atan y))

/-- The `Operand::perform_Arcsin` of operand.cpp. -/
def Operand.perform_Arcsin (rt : Runtime) : List Operand → Outcome (List Operand) :=
  castOne Operand.asReal fun y => .returned (.Real (rt.asin y))

/-- The `Operand::perform_Exp` of operand.cpp. -/
def Operand.perform_Exp (rt : Runtime) : List Operand → Outcome (List Operand) :=
  castOne Operand.asReal fun y => .returned (.Real (rt.exp y))

/-- The `Operand::perform_Ln` of operand.cpp. -/
def Operand.perform_Ln (rt : Runtime) : List Operand → Outcome (List Operand) :=
  castOne Operand.asReal fun arg1 => .returned (.Real (rt.log arg1))

/-- The `Operand::perform_Lb` of operand.cpp. -/
def Operand.perform_Lb (rt : Runtime) : List Operand → Outcome (List Operand) :=
  castOne Operand.asReal fun arg1 => .returned (.Real (rt.log2 arg1))

/-- The `Operand::perform_Sqrt` of operand.cpp. -/
def Operand.perform_Sqrt (rt : Runtime) : List Operand → Outcome (List Operand) :=
  castOne Operand.asReal fun arg1 => .returned (.Real (rt.sqrt arg1))

/-- The `Operand::perform_Arccos` of operand.cpp, which calls `boost::math::acosh`. -/
def Operand.perform_Arccos (rt : Runtime) : List Operand → Outcome (List Operand) :=
  castOne Operand.asReal fun y => .returned (.Real (rt.acosh y))

/-! ### `Integer` (integer.cpp) -/

/-- The power both branches of `Integer::perform_Power` compute on `Real` values. -/
def realPowerByThreshold (rt : Runtime) (base exponent : Rat) : Outcome Operand :=
  if exponent > 8 then
    (fast_power base rt.call_depth exponent).bind fun result => .returned (.Real result)
  else .returned (.Real (simple_power rt base exponent))

/-- The `Integer::perform_addition` of integer.cpp. -/
def Integer.perform_addition (rt : Runtime) : List Operand → Outcome (List Operand) :=
  castOrReal rt Operand.asInteger (fun left right => .returned (.Integer (left + right)))
    (fun left right => .returned (.Real (rt.add left right)))

/-- The `Integer::perform_subtraction` of integer.cpp. -/
def Integer.perform_subtraction (rt : Runtime) : List Operand → Outcome (List Operand) :=
  castOrReal rt Operand.asInteger (fun left right => .returned (.Integer (left - right)))
    (fun left right => .returned (.Real (rt.sub left right)))

/-- The `Integer::perform_multiplication` of integer.cpp. -/
def Integer.perform_multiplication (rt : Runtime) : List Operand → Outcome (List Operand) :=
  castOrReal rt Operand.asInteger (fun left right => .returned (.Integer (left * right)))
    (fun left right => .returned (.Real (rt.mul left right)))

/-- The `Integer::perform_division` of integer.cpp. -/
def Integer.perform_division (rt : Runtime) : List Operand → Outcome (List Operand) :=
  castOrReal rt Operand.asInteger
    (fun left right => (Integer.divide left right).bind fun result => .returned (.Integer result))
    (fun left right => .returned (.Real (Real.divide rt left right)))

/-- The `Integer::perform_Identity` of integer.cpp. -/
def Integer.perform_Identity : List Operand → Outcome (List Operand) :=
  castOne Operand.asInteger fun arg => .returned (.Integer arg)

/-- The `Integer::perform_Negation` of integer.cpp. -/
def Integer.perform_Negation : List Operand → Outcome (List Operand) :=
  castOne Operand.asInteger fun arg => .returned (.Integer (arg * -1))

/-- The `Integer::perform_Power` of integer.cpp. -/
def Integer.perform_Power (rt : Runtime) : List Operand → Outcome (List Operand) :=
  castOrReal rt Operand.asInteger
    (fun base exponent =>
      if exponent ≤ 8 then .returned (.Integer (int_simple_power base exponent))
      else .returned (.Integer (int_fast_power base exponent)))
    (fun base exponent => realPowerByThreshold rt base exponent)

/-- The `Integer::perform_Equality` of integer.cpp. -/
def Integer.perform_Equality (rt : Runtime) : List Operand → Outcome (List Operand) :=
  castOrReal rt Operand.asInteger (fun left right => .returned (.Boolean (decide (left = right))))
    (fun left right => .returned (.Boolean (decide (left = right))))

/-- The `Integer::perform_Inequality` of integer.cpp. -/
def Integer.perform_Inequality (rt : Runtime) : List Operand → Outcome (List Operand) :=
  castOrReal rt Operand.asInteger (fun left right => .returned (.Boolean (decide (left ≠ right))))
    (fun left right => .returned (.Boolean (decide (left ≠ right))))

/-- The `Integer::perform_Greater` of integer.cpp. -/
def Integer.perform_Greater (rt : Runtime) : List Operand → Outcome (List Operand) :=
  castOrReal rt Operand.asInteger (fun left right => .returned (.Boolean (decide (left > right))))
    (fun left right => .returned (.Boolean (decide (left > right))))

/-- The `Integer::perform_GreaterEqual` of integer.cpp. -/
def Integer.perform_GreaterEqual (rt : Runtime) : List Operand → Outcome (List Operand) :=
  castOrReal rt Operand.asInteger (fun left right => .returned (.Boolean (decide (left ≥ right))))
    (fun left right => .returned (.Boolean (decide (left ≥ right))))

/-- The `Integer::perform_Less` of integer.cpp. -/
def Integer.perform_Less (rt : Runtime) : List Operand → Outcome (List Operand) :=
  castOrReal rt Operand.asInteger (fun left right => .returned (.Boolean (decide (left < right))))
    (fun left right => .returned (.Boolean (decide (left < right))))

/-- The `Integer::perform_LessEqual` of integer.cpp. -/
def Integer.perform_LessEqual (rt : Runtime) : List Operand → Outcome (List Operand) :=
  castOrReal rt Operand.asInteger (fun left right => .returned (.Boolean (decide (left ≤ right))))
    (fun left right => .returned (.Boolean (decide (left ≤ right))))

/-- The `Integer::perform_Floor` of integer.cpp. -/
def Integer.perform_Floor : List Operand → Outcome (List Operand) :=
  castOne Operand.asInteger toIntViaLongDouble

/-- The `Integer::perform_Ceil` of integer.cpp, which also calls `std::floor`. -/
def Integer.perform_Ceil : List Operand → Outcome (List Operand) :=
  castOne Operand.asInteger toIntViaLongDouble

/-- The `Integer::perform_Abs` of integer.cpp. -/
def Integer.perform_Abs : List Operand → Outcome (List Operand) :=
  castOne Operand.asInteger fun arg => .returned (.Integer |arg|)

/-- The `Integer::perform_Arctan` of integer.cpp: the top is cast to `Real`. -/
def Integer.perform_Arctan (rt : Runtime) : List Operand → Outcome (List Operand) :=
  castOne Operand.asReal fun y => .returned (.Real (rt.atan y))

/-- The `Integer::perform_Arcsin` of integer.cpp. -/
def Integer.perform_Arcsin (rt : Runtime) : List Operand → Outcome (List Operand) :=
  castOne Operand.asReal fun y => .returned (.Real (rt.asin y))

/-- The `Integer::perform_Exp` of integer.cpp. -/
def Integer.perform_Exp (rt : Runtime) : List Operand → Outcome (List Operand) :=
  castOne Operand.asReal fun y => .returned (.Real (rt.exp y))

/-- The `Integer::perform_Ln` of integer.cpp. -/
def Integer.perform_Ln (rt : Runtime) : List Operand → Outcome (List Operand) :=
  castOne Operand.asReal fun arg1 => .returned (.Real (rt.log arg1))

/-- The `Integer::perform_Lb` of integer.cpp. -/
def Integer.perform_Lb (rt : Runtime) : List Operand → Outcome (List Operand) :=
  castOne Operand.asReal fun arg1 => .returned (.Real (rt.log2 arg1))

/-- The `Integer::perform_Sqrt` of integer.cpp. -/
def Integer.perform_Sqrt (rt : Runtime) : List Operand → Outcome (List Operand) :=
  castOne Operand.asReal fun arg1 => .returned (.Real (rt.sqrt arg1))

/-- The `Integer::perform_Cos` of integer.cpp. -/
def Integer.perform_Cos (rt : Runtime) : List Operand → Outcome (List Operand) :=
  castOne Operand.asReal fun arg => .returned (.Real (rt.cos arg))

/-- The `Integer::perform_Arccos` of integer.cpp, which calls `boost::math::acosh`. -/
def Integer.perform_Arccos (rt : Runtime) : List Operand → Outcome (List Operand) :=
  castOne Operand.asReal fun y => .returned (.Real (rt.acosh y))

/-- The `Integer::perform_Arctan2` of integer.cpp. -/
def Integer.perform_Arctan2 (rt : Runtime) : List Operand → Outcome (List Operand) :=
  castTwo Operand.asReal fun x y => .returned (.Real (rt.std_atan2 y x))

/-- The `Integer::perform_Min` of integer.cpp. -/
def Integer.perform_Min (rt : Runtime) : List Operand → Outcome (List Operand) :=
  castOrReal rt Operand.asInteger (fun left right => .returned (.Integer (min left right)))
    (fun left right => .returned (.Real (min left right)))

/-- The `Integer::perform_Max` of integer.cpp. -/
def Integer.perform_Max (rt : Runtime) : List Operand → Outcome (List Operand) :=
  castOrReal rt Operand.asInteger (fun left right => .returned (.Integer (max left right)))
    (fun left right => .returned (.Real (max left right)))

/-! ### `Real` (real.cpp) -/

/-- The `0.0` or `1.0` the logical routines of real.cpp push. -/
def Real.ofBool (result : Bool) : Operand :=
  .Real (if result then 1 else 0)

/-- The `Real::perform_Identity` of real.cpp. -/
def Real.perform_Identity : List Operand → Outcome (List Operand) :=
  castOne Operand.asReal fun arg => .returned (.Real arg)

/-- The `Real::perform_Negation` of real.cpp. -/
def Real.perform_Negation : List Operand → Outcome (List Operand) :=
  castOne Operand.asReal fun arg => .returned (.Real (arg * -1))

/-- The `Real::perform_Sin` of real.cpp. -/
def Real.perform_Sin (rt : Runtime) : List Operand → Outcome (List Operand) :=
  castOne Operand.asReal fun arg => .returned (.Real (rt.sin arg))

/-- The `Real::perform_Tan` of real.cpp. -/
def Real.perform_Tan (rt : Runtime) : List Operand → Outcome (List Operand) :=
  castOne Operand.asReal fun arg => .returned (.Real (rt.tan arg))

/-- The `Real::perform_Cos` of real.cpp. -/
def Real.perform_Cos (rt : Runtime) : List Operand → Outcome (List Operand) :=
  castOne Operand.asReal fun arg => .returned (.Real (rt.cos arg))

/-- The `Real::perform_Arctan2` of real.cpp: `y` is the top, `x` the one below, and the
call is `atan2(double_x, double_y)`. -/
def Real.perform_Arctan2 (rt : Runtime) : List Operand → Outcome (List Operand) :=
  castTwo Operand.asReal fun x y => .returned (.Real (rt.atan2 x y))

/-- The `Real::perform_addition` of real.cpp. -/
def Real.perform_addition (rt : Runtime) : List Operand → Outcome (List Operand) :=
  realTwo rt fun left right => .returned (rt.add left right)

/-- The `Real::perform_subtraction` of real.cpp. -/
def Real.perform_subtraction (rt : Runtime) : List Operand → Outcome (List Operand) :=
  realTwo rt fun left right => .returned (rt.sub left right)

/-- The `Real::perform_multiplication` of real.cpp. -/
def Real.perform_multiplication (rt : Runtime) : List Operand → Outcome (List Operand) :=
  realTwo rt fun left right => .returned (rt.mul left right)

/-- The `Real::perform_division` of real.cpp. The test `right == 0` compares the smart
pointer with a null pointer, and the pointer just read from the stack is not null. -/
def Real.perform_division (rt : Runtime) : List Operand → Outcome (List Operand) :=
  realTwo rt fun left right => .returned (Real.divide rt left right)

/-- The `Real::perform_Not` of real.cpp. -/
def Real.perform_Not : List Operand → Outcome (List Operand) :=
  castOne Operand.asReal fun arg1 => .returned (Real.ofBool (decide (arg1 = 0)))

/-- The `Real::perform_And` of real.cpp. -/
def Real.perform_And : List Operand → Outcome (List Operand) :=
  castTwo Operand.asReal fun arg1 arg2 =>
    .returned (Real.ofBool (decide (arg1 ≠ 0) && decide (arg2 ≠ 0)))

/-- The `Real::perform_Nand` of real.cpp. -/
def Real.perform_Nand : List Operand → Outcome (List Operand) :=
  castTwo Operand.asReal fun arg1 arg2 =>
    .returned (Real.ofBool (!(decide (arg1 ≠ 0) && decide (arg2 ≠ 0))))

/-- The `Real::perform_Nor` of real.cpp. -/
def Real.perform_Nor : List Operand → Outcome (List Operand) :=
  castTwo Operand.asReal fun arg1 arg2 =>
    .returned (Real.ofBool (!(decide (arg1 ≠ 0) || decide (arg2 ≠ 0))))

/-- The `Real::perform_Or` of real.cpp. -/
def Real.perform_Or : List Operand → Outcome (List Operand) :=
  castTwo Operand.asReal fun arg1 arg2 =>
    .returned (Real.ofBool (decide (arg1 ≠ 0) || decide (arg2 ≠ 0)))

/-- The `Real::perform_Xnor` of real.cpp. -/
def Real.perform_Xnor : List Operand → Outcome (List Operand) :=
  castTwo Operand.asReal fun arg1 arg2 =>
    .returned (Real.ofBool (!(xor (decide (arg1 ≠ 0)) (decide (arg2 ≠ 0)))))

/-- The `Real::perform_Xor` of real.cpp. -/
def Real.perform_Xor : List Operand → Outcome (List Operand) :=
  castTwo Operand.asReal fun arg1 arg2 =>
    .returned (Real.ofBool (xor (decide (arg1 ≠ 0)) (decide (arg2 ≠ 0))))

/-- The `Real::perform_Equality` of real.cpp. -/
def Real.perform_Equality (rt : Runtime) : List Operand → Outcome (List Operand) :=
  castOrReal rt Operand.asReal (fun left right => .returned (.Boolean (decide (left = right))))
    (fun left right => .returned (.Boolean (decide (left = right))))

/-- The `Real::perform_Inequality` of real.cpp. -/
def Real.perform_Inequality (rt : Runtime) : List Operand → Outcome (List Operand) :=
  castOrReal rt Operand.asReal (fun left right => .returned (.Boolean (decide (left ≠ right))))
    (fun left right => .returned (.Boolean (decide (left ≠ right))))

/-- The `Real::perform_Greater` of real.cpp. -/
def Real.perform_Greater (rt : Runtime) : List Operand → Outcome (List Operand) :=
  castOrReal rt Operand.asReal (fun left right => .returned (.Boolean (decide (left > right))))
    (fun left right => .returned (.Boolean (decide (left > right))))

/-- The `Real::perform_GreaterEqual` of real.cpp. -/
def Real.perform_GreaterEqual (rt : Runtime) : List Operand → Outcome (List Operand) :=
  castOrReal rt Operand.asReal (fun left right => .returned (.Boolean (decide (left ≥ right))))
    (fun left right => .returned (.Boolean (decide (left ≥ right))))

/-- The `Real::perform_Less` of real.cpp. -/
def Real.perform_Less (rt : Runtime) : List Operand → Outcome (List Operand) :=
  castOrReal rt Operand.asReal (fun left right => .returned (.Boolean (decide (left < right))))
    (fun left right => .returned (.Boolean (decide (left < right))))

/-- The `Real::perform_LessEqual` of real.cpp. -/
def Real.perform_LessEqual (rt : Runtime) : List Operand → Outcome (List Operand) :=
  castOrReal rt Operand.asReal (fun left right => .returned (.Boolean (decide (left ≤ right))))
    (fun left right => .returned (.Boolean (decide (left ≤ right))))

/-- The `Real::perform_Power` of real.cpp. -/
def Real.perform_Power (rt : Runtime) : List Operand → Outcome (List Operand) :=
  realTwo rt fun base exponent =>
    if (exponent.floor : Rat) = exponent then
      if exponent > 8 then fast_power base rt.call_depth exponent
      else .returned (simple_power rt base exponent)
    else .returned (rt.pow base exponent)

/-- The `Real::perform_Floor` of real.cpp. -/
def Real.perform_Floor : List Operand → Outcome (List Operand) :=
  castOne Operand.asReal fun arg1 => .returned (.Real (arg1.floor : Rat))

/-- The `Real::perform_Ceil` of real.cpp. -/
def Real.perform_Ceil : List Operand → Outcome (List Operand) :=
  castOne Operand.asReal fun arg1 => .returned (.Real (arg1.ceil : Rat))

/-- The `Real::perform_Ln` of real.cpp. -/
def Real.perform_Ln (rt : Runtime) : List Operand → Outcome (List Operand) :=
  castOne Operand.asReal fun arg1 => .returned (.Real (rt.log arg1))

/-- The `Real::perform_Lb` of real.cpp. -/
def Real.perform_Lb (rt : Runtime) : List Operand → Outcome (List Operand) :=
  castOne Operand.asReal fun arg1 => .returned (.Real (rt.log2 arg1))

/-- The `Real::perform_Sqrt` of real.cpp. -/
def Real.perform_Sqrt (rt : Runtime) : List Operand → Outcome (List Operand) :=
  castOne Operand.asReal fun arg1 => .returned (.Real (rt.sqrt arg1))

/-- The `Real::perform_Min` of real.cpp. -/
def Real.perform_Min (rt : Runtime) : List Operand → Outcome (List Operand) :=
  realTwo rt fun left right => .returned (min left right)

/-- The `Real::perform_Max` of real.cpp. -/
def Real.perform_Max (rt : Runtime) : List Operand → Outcome (List Operand) :=
  realTwo rt fun left right => .returned (max left right)

/-- The `Real::perform_Abs` of real.cpp. -/
def Real.perform_Abs : List Operand → Outcome (List Operand) :=
  castOne Operand.asReal fun arg => .returned (.Real |arg|)

/-- The `Real::perform_Arccos` of real.cpp, which calls `boost::math::acosh`. -/
def Real.perform_Arccos (rt : Runtime) : List Operand → Outcome (List Operand) :=
  castOne Operand.asReal fun y => .returned (.Real (rt.acosh y))

/-- The `Real::perform_Arctan` of real.cpp. -/
def Real.perform_Arctan (rt : Runtime) : List Operand → Outcome (List Operand) :=
  castOne Operand.asReal fun y => .returned (.Real (rt.atan y))

/-- The `Real::perform_Arcsin` of real.cpp. -/
def Real.perform_Arcsin (rt : Runtime) : List Operand → Outcome (List Operand) :=
  castOne Operand.asReal fun y => .returned (.Real (rt.asin y))

/-- The `Real::perform_Exp` of real.cpp. -/
def Real.perform_Exp (rt : Runtime) : List Operand → Outcome (List Operand) :=
  castOne Operand.asReal fun y => .returned (.Real (rt.exp y))

/-! ### `Boolean` (boolean.cpp) -/

/-- The `Boolean::perform_Equality` of boolean.cpp, the one routine that tests the stack
size and its casts. -/
def Boolean.perform_Equality : List Operand → Outcome (List Operand)
  | top :: second :: rest =>
    match top.asBoolean with
    | none => .thrown "Error: Operand 2 is not a Boolean"
    | some arg2 =>
      match second.asBoolean with
      | none => .thrown "Error: Operand 1 is not a Boolean"
      | some arg1 => .returned (.Boolean (decide (arg1 = arg2)) :: rest)
  | _ => .thrown "Error: Insufficient operands for equality operation"

/-- The `Boolean::perform_Inequality` of boolean.cpp. -/
def Boolean.perform_Inequality : List Operand → Outcome (List Operand) :=
  castTwo Operand.asBoolean fun arg1 arg2 => .returned (.Boolean (decide (arg1 ≠ arg2)))

/-- The `Boolean::perform_Greater` of boolean.cpp. -/
def Boolean.perform_Greater : List Operand → Outcome (List Operand) :=
  castTwo Operand.asBoolean fun arg1 arg2 => .returned (.Boolean (decide (arg1 > arg2)))

/-- The `Boolean::perform_GreaterEqual` of boolean.cpp. -/
def Boolean.perform_GreaterEqual : List Operand → Outcome (List Operand) :=
  castTwo Operand.asBoolean fun arg1 arg2 => .returned (.Boolean (decide (arg1 ≥ arg2)))

/-- The `Boolean::perform_Less` of boolean.cpp. -/
def Boolean.perform_Less : List Operand → Outcome (List Operand) :=
  castTwo Operand.asBoolean fun arg1 arg2 => .returned (.Boolean (decide (arg1 < arg2)))

/-- The `Boolean::perform_LessEqual` of boolean.cpp. -/
def Boolean.perform_LessEqual : List Operand → Outcome (List Operand) :=
  castTwo Operand.asBoolean fun arg1 arg2 => .returned (.Boolean (decide (arg1 ≤ arg2)))

/-- The `Boolean::perform_Not` of boolean.cpp. -/
def Boolean.perform_Not : List Operand → Outcome (List Operand) :=
  castOne Operand.asBoolean fun arg1 => .returned (.Boolean (!arg1))

/-- The `Boolean::perform_And` of boolean.cpp. -/
def Boolean.perform_And : List Operand → Outcome (List Operand) :=
  castTwo Operand.asBoolean fun arg1 arg2 => .returned (.Boolean (arg1 && arg2))

/-- The `Boolean::perform_Nand` of boolean.cpp. -/
def Boolean.perform_Nand : List Operand → Outcome (List Operand) :=
  castTwo Operand.asBoolean fun arg1 arg2 => .returned (.Boolean (!(arg1 && arg2)))

/-- The `Boolean::perform_Nor` of boolean.cpp. -/
def Boolean.perform_Nor : List Operand → Outcome (List Operand) :=
  castTwo Operand.asBoolean fun arg1 arg2 => .returned (.Boolean (!(arg1 || arg2)))

/-- The `Boolean::perform_Or` of boolean.cpp. -/
def Boolean.perform_Or : List Operand → Outcome (List Operand) :=
  castTwo Operand.asBoolean fun arg1 arg2 => .returned (.Boolean (arg1 || arg2))

/-- The `Boolean::perform_Xnor` of boolean.cpp. -/
def Boolean.perform_Xnor : List Operand → Outcome (List Operand) :=
  castTwo Operand.asBoolean fun arg1 arg2 => .returned (.Boolean (!(xor arg1 arg2)))

/-- The `Boolean::perform_Xor` of boolean.cpp. -/
def Boolean.perform_Xor : List Operand → Outcome (List Operand) :=
  castTwo Operand.asBoolean fun arg1 arg2 => .returned (.Boolean (xor arg1 arg2))

/-! ### Virtual dispatch on the top of the stack -/

/-- The call `operandList.top()->perform_X(operandList)` of a virtual routine: the
override of the dynamic class of the top runs. A `Variable` on top runs the routine of
the base class (variable.hpp is not among the sources; the casts to `Variable` in
operand.cpp are where the sources treat one). -/
def virtualCall (onInteger onReal onBoolean onVariable : List Operand → Outcome (List Operand))
    (operandList : List Operand) : Outcome (List Operand) :=
  match operandList with
  | .Integer _ :: _ => onInteger operandList
  | .Real _ :: _ => onReal operandList
  | .Boolean _ :: _ => onBoolean operandList
  | .Variable _ :: _ => onVariable operandList
  | [] => .undefined

/-- The size test at the head of the `perform` of an operator or function class: with
fewer than `n` operands it writes to `std::cerr` and returns, the stack untouched. -/
def unlessShort (n : Nat) (body : List Operand → Outcome (List Operand))
    (operandList : List Operand) : Outcome (List Operand) :=
  if operandList.length < n then .returned operandList else body operandList

/-! ## Operators and functions (operator.hpp, function.hpp) -/

/-- The `Assignment::perform` of operator.hpp. -/
def Assignment.perform (operandList : List Operand) (store : Store) :
    Outcome (List Operand × Store) :=
  match operandList with
  | value :: target :: rest =>
    match target with
    | .Variable name => .returned (.Variable name :: rest, store.set name value)
    | _ => .thrown "Error: assignment to a non-variable."
  | _ => .undefined

/-- The `perform` of every operator class but `Assignment`: the size test, then the
routine of the top operand. `perform_factorial` and `perform_Modulus` are not virtual. -/
def OperatorKind.performOnStack (rt : Runtime) (store : Store) :
    OperatorKind → List Operand → Outcome (List Operand)
  | .Power => unlessShort 2 (virtualCall (Integer.perform_Power rt) (Real.perform_Power rt)
      Operand.perform_Power Operand.perform_Power)
  | .Assignment => fun operandList => .returned operandList
  | .Addition => unlessShort 1 (virtualCall (Integer.perform_addition rt) (Real.perform_addition rt)
      Operand.perform_addition Operand.perform_addition)
  | .And => unlessShort 2 (virtualCall Operand.perform_And Real.perform_And
      Boolean.perform_And Operand.perform_And)
  | .Division => unlessShort 2 (virtualCall (Integer.perform_division rt)
      (Real.perform_division rt) Operand.perform_division Operand.perform_division)
  | .Equality => unlessShort 2 (virtualCall (Integer.perform_Equality rt) (Real.perform_Equality rt)
      Boolean.perform_Equality Operand.perform_Equality)
  | .Greater => unlessShort 2 (virtualCall (Integer.perform_Greater rt) (Real.perform_Greater rt)
      Boolean.perform_Greater Operand.perform_Greater)
  | .GreaterEqual => unlessShort 2 (virtualCall (Integer.perform_GreaterEqual rt)
      (Real.perform_GreaterEqual rt) Boolean.perform_GreaterEqual Operand.perform_GreaterEqual)
  | .Inequality => unlessShort 2 (virtualCall (Integer.perform_Inequality rt)
      (Real.perform_Inequality rt) Boolean.perform_Inequality Operand.perform_Inequality)
  | .Less => unlessShort 2 (virtualCall (Integer.perform_Less rt) (Real.perform_Less rt)
      Boolean.perform_Less Operand.perform_Less)
  | .LessEqual => unlessShort 2 (virtualCall (Integer.perform_LessEqual rt)
      (Real.perform_LessEqual rt) Boolean.perform_LessEqual Operand.perform_LessEqual)
  | .Multiplication => unlessShort 2 (virtualCall (Integer.perform_multiplication rt)
      (Real.perform_multiplication rt) Operand.perform_multiplication
      Operand.perform_multiplication)
  | .Modulus => unlessShort 2 Operand.perform_Modulus
  | .Nand => unlessShort 2 (virtualCall Operand.perform_Nand Real.perform_Nand
      Boolean.perform_Nand Operand.perform_Nand)
  | .Nor => unlessShort 2 (virtualCall Operand.perform_Nor Real.perform_Nor
      Boolean.perform_Nor Operand.perform_Nor)
  | .Or => unlessShort 2 (virtualCall Operand.perform_Or Real.perform_Or
      Boolean.perform_Or Operand.perform_Or)
  | .Subtraction => unlessShort 2 (virtualCall (Integer.perform_subtraction rt)
      (Real.perform_subtraction rt) Operand.perform_subtraction Operand.perform_subtraction)
  | .Xor => unlessShort 2 (virtualCall Operand.perform_Xor Real.perform_Xor
      Boolean.perform_Xor Operand.perform_Xor)
  | .Xnor => unlessShort 2 (virtualCall Operand.perform_Xnor Real.perform_Xnor
      Boolean.perform_Xnor Operand.perform_Xnor)
  | .Identity => unlessShort 1 (virtualCall Integer.perform_Identity Real.perform_Identity
      Operand.perform_Identity Operand.perform_Identity)
  | .Negation => unlessShort 1 (virtualCall Integer.perform_Negation Real.perform_Negation
      Operand.perform_Negation Operand.perform_Negation)
  | .Not => unlessShort 1 (virtualCall (Operand.perform_Not store) Real.perform_Not
      Boolean.perform_Not (Operand.perform_Not store))
  | .Factorial => unlessShort 1 Operand.perform_factorial

/-- The `perform` of an operator token: only `Assignment` touches the bindings. -/
def OperatorKind.perform (rt : Runtime) (op : OperatorKind) (operandList : List Operand)
    (store : Store) : Outcome (List Operand × Store) :=
  match op with
  | .Assignment => Assignment.perform operandList store
  | _ => (op.performOnStack rt store operandList).bind fun result => .returned (result, store)

/-- The `perform` of each function class of function.hpp; `Log` and `Result` have an
empty body. -/
def FunctionKind.perform (rt : Runtime) : FunctionKind → List Operand → Outcome (List Operand)
  | .Abs => unlessShort 1 (virtualCall Integer.perform_Abs Real.perform_Abs
      Operand.perform_Abs Operand.perform_Abs)
  | .Arccos => unlessShort 1 (virtualCall (Integer.perform_Arccos rt) (Real.perform_Arccos rt)
      (Operand.perform_Arccos rt) (Operand.perform_Arccos rt))
  | .Arcsin => unlessShort 1 (virtualCall (Integer.perform_Arcsin rt) (Real.perform_Arcsin rt)
      (Operand.perform_Arcsin rt) (Operand.perform_Arcsin rt))
  | .Arctan => unlessShort 1 (virtualCall (Integer.perform_Arctan rt) (Real.perform_Arctan rt)
      (Operand.perform_Arctan rt) (Operand.perform_Arctan rt))
  | .Ceil => unlessShort 1 (virtualCall Integer.perform_Ceil Real.perform_Ceil
      Operand.perform_Ceil Operand.perform_Ceil)
  | .Cos => unlessShort 1 (virtualCall (Integer.perform_Cos rt) (Real.perform_Cos rt)
      (Operand.perform_Cos rt) (Operand.perform_Cos rt))
  | .Exp => unlessShort 1 (virtualCall (Integer.perform_Exp rt) (Real.perform_Exp rt)
      (Operand.perform_Exp rt) (Operand.perform_Exp rt))
  | .Floor => unlessShort 1 (virtualCall Integer.perform_Floor Real.perform_Floor
      Operand.perform_Floor Operand.perform_Floor)
  | .Lb => unlessShort 1 (virtualCall (Integer.perform_Lb rt) (Real.perform_Lb rt)
      (Operand.perform_Lb rt) (Operand.perform_Lb rt))
  | .Ln => unlessShort 1 (virtualCall (Integer.perform_Ln rt) (Real.perform_Ln rt)
      (Operand.perform_Ln rt) (Operand.perform_Ln rt))
  | .Log => fun operandList => .returned operandList
  | .Result => fun operandList => .returned operandList
  | .Sin => unlessShort 1 (virtualCall (Operand.perform_Sin rt) (Real.perform_Sin rt)
      (Operand.perform_Sin rt) (Operand.perform_Sin rt))
  | .Sqrt => unlessShort 1 (virtualCall (Integer.perform_Sqrt rt) (Real.perform_Sqrt rt)
      (Operand.perform_Sqrt rt) (Operand.perform_Sqrt rt))
  | .Tan => unlessShort 1 (virtualCall (Operand.perform_Tan rt) (Real.perform_Tan rt)
      (Operand.perform_Tan rt) (Operand.perform_Tan rt))
  | .Arctan2 => unlessShort 2 (virtualCall (Integer.perform_Arctan2 rt)
      (Real.perform_Arctan2 rt) (Operand.perform_Arctan2 rt) (Operand.perform_Arctan2 rt))
  | .Max => unlessShort 2 (virtualCall (Integer.perform_Max rt) (Real.perform_Max rt)
      Operand.perform_Max Operand.perform_Max)
  | .Min => unlessShort 2 (virtualCall (Integer.perform_Min rt) (Real.perform_Min rt)
      Operand.perform_Min Operand.perform_Min)
  | .Pow => unlessShort 2 (virtualCall (Integer.perform_Power rt) (Real.perform_Power rt)
      Operand.perform_Power Operand.perform_Power)

/-! ## Evaluator (RPNEvaluator.cpp) -/

/-- The `for` loop of `RPNEvaluator::evaluate` over the postfix tokens. -/
def evaluateLoop (rt : Runtime) :
    List Token → List Operand → Store → Outcome (List Operand × Store)
  | [], operandStack, store => .returned (operandStack, store)
  | token :: rest, operandStack, store =>
    match token with
    | .operand operandToken => evaluateLoop rt rest (operandToken :: operandStack) store
    | .operator operatorToken =>
      (operatorToken.perform rt operandStack store).bind fun s => evaluateLoop rt rest s.1 s.2
    | .function functionToken =>
      if operandStack.length < functionToken.number_of_args then
        .thrown "Error: insufficient operands for operator"
      else
        (functionToken.perform rt operandStack).bind fun s => evaluateLoop rt rest s store
    | _ => .thrown "Error: Unsupported token type"

/-- The `RPNEvaluator::evaluate` of RPNEvaluator.cpp: the value left on the stack, and
the bindings after the run. -/
def RPNEvaluator.evaluate (rt : Runtime) (rpnExpression : TokenList) (store : Store) :
    Outcome (Operand × Store) :=
  if rpnExpression.isEmpty then .thrown "Error: insufficient operands"
  else
    (evaluateLoop rt rpnExpression [] store).bind fun s =>
      match s.1 with
      | [final_result] => .returned (final_result, s.2)
      | _ => .thrown "Error: too many operands"

/-! ## Vocabulary of the properties -/

/-- The three operators of integer arithmetic that stay within `Integer`. -/
inductive ArithmeticOperator where
  | Addition | Subtraction | Multiplication
  deriving DecidableEq, Repr

/-- The operator class behind an arithmetic operator. -/
def ArithmeticOperator.toOperator : ArithmeticOperator → OperatorKind
  | .Addition => .Addition
  | .Subtraction => .Subtraction
  | .Multiplication => .Multiplication

/-- The arithmetic meaning of an arithmetic operator. -/
def ArithmeticOperator.apply : ArithmeticOperator → Int → Int → Int
  | .Addition, x, y => x + y
  | .Subtraction, x, y => x - y
  | .Multiplication, x, y => x * y

/-- An expression tree with `Integer` leaves and `Addition`, `Subtraction` or
`Multiplication` at the inner nodes. -/
inductive IntegerExpression where
  | leaf (value : Int)
  | node (op : ArithmeticOperator) (left right : IntegerExpression)
  deriving Repr

/-- The arithmetic value of the tree. -/
def IntegerExpression.value : IntegerExpression → Int
  | .leaf value => value
  | .node op left right => op.apply left.value right.value

/-- The post-order token sequence of the tree. -/
def IntegerExpression.postorder : IntegerExpression → TokenList
  | .leaf value => [.operand (.Integer value)]
  | .node op left right => left.postorder ++ right.postorder ++ [.operator op.toOperator]

/-- An expression tree with operand leaves and a binary operator at each inner node. -/
inductive BinaryExpression where
  | leaf (o : Operand)
  | node (op : OperatorKind) (binary : op.number_of_args = 2) (left right : BinaryExpression)

/-- The fully parenthesised infix token sequence: each inner node is written
`(` left op right `)`. -/
def BinaryExpression.parenthesised : BinaryExpression → TokenList
  | .leaf o => [.operand o]
  | .node op _ left right =>
    [.LeftParenthesis] ++ left.parenthesised ++ [.operator op] ++ right.parenthesised ++
      [.RightParenthesis]

/-- The post-order token sequence of the tree. -/
def BinaryExpression.postorder : BinaryExpression → TokenList
  | .leaf o => [.operand o]
  | .node op _ left right => left.postorder ++ right.postorder ++ [.operator op]

/-- The test of the operator loop of `push_operation`, as a predicate on the top of the
stack: the top is an operator and the associativity test holds. -/
def pushRule (op : OperatorKind) (top : Token) : Bool :=
  match top.asOperator with
  | none => false
  | some stack_top =>
    decide ((op.associativeType = "Left" ∧ op.precedence.toNat ≤ stack_top.precedence.toNat) ∨
      (op.associativeType = "Right" ∧ op.precedence.toNat < stack_top.precedence.toNat))

/-- The test of the loop of the `"<Not>"` and `"<And>"` lambdas, as a predicate on the top
of the stack: the top is an operator whose precedence is not below the token's. -/
def precedenceRule (op : OperatorKind) (top : Token) : Bool :=
  match top.asOperator with
  | none => false
  | some stack_top => !decide (stack_top.precedence.toNat < op.precedence.toNat)

/-- The test that decides what an operator token pops: the lambda's for `Not` and `And`,
the one of `push_operation` for the others. -/
def popRule (op : OperatorKind) : Token → Bool :=
  if op = .Not ∨ op = .And then precedenceRule op else pushRule op

/-- The stack has no function on top (it is empty, or `isFunction` rejects its top). -/
def noFunctionOnTop : List Token → Prop
  | [] => True
  | top :: _ => isFunction top = false

/-- A token the evaluator executes: an operand, an operator or a function. -/
def Token.isExecutable : Token → Bool
  | .operand _ => true
  | .operator _ => true
  | .function _ => true
  | _ => false

/-- A token that can wait on the pending stack of the converter: an operator, a function
or a left parenthesis. -/
def Token.isPending : Token → Bool
  | .operator _ => true
  | .function _ => true
  | .LeftParenthesis => true
  | _ => false

/-- A token of an expression without argument lists: an operand, an operator, a function
or a parenthesis. -/
def Token.isExpressionToken : Token → Bool
  | .operand _ => true
  | .operator _ => true
  | .function _ => true
  | .LeftParenthesis => true
  | .RightParenthesis => true
  | _ => false

/-- Scanning the parentheses of a token sequence from `depth` open ones: `none` as soon as
a right parenthesis has no left parenthesis pending, otherwise the number of left
parentheses still unmatched at the end. -/
def pendingLeft : Nat → List Token → Option Nat
  | depth, [] => some depth
  | depth, .LeftParenthesis :: rest => pendingLeft (depth + 1) rest
  | 0, .RightParenthesis :: _ => none
  | depth + 1, .RightParenthesis :: rest => pendingLeft depth rest
  | depth, _ :: rest => pendingLeft depth rest

/-- A token of an expression without grouping: an operand or an operator. -/
def Token.isOperandOrOperator : Token → Bool
  | .operand _ => true
  | .operator _ => true
  | _ => false

/-- A token of a class the catalogue no longer has: operator.hpp records that the bitwise
operators, `BitAnd` among them, were removed, and the converter's table has no `"<BitAnd>"`
key. -/
def bitAndToken : UnknownToken :=
  ⟨"<BitAnd>", by decide⟩

/-- A rounding for the closed examples: truncation toward zero at the decimal position
`digits10` places below the leading digit of the numerator over that of the denominator,
which keeps `digits10` or `digits10 + 1` significant digits. -/
def Real.truncate (q : Rat) : Rat :=
  let shift : Int := (Real.digits10 : Int) + Nat.log 10 q.den - Nat.log 10 q.num.natAbs
  (if 0 ≤ q then ((q * (10 : Rat) ^ shift).floor : Rat)
    else ((q * (10 : Rat) ^ shift).ceil : Rat)) / (10 : Rat) ^ shift

/-- The truncation, with the fact a runtime asks of its rounding: a value of at most
`digits10` significant digits is kept as it is. -/
def Real.truncation : { round : Rat → Rat // ∀ q, Real.representable q → round q = q } :=
  ⟨Real.truncate, by
    intro q h
    obtain ⟨m, k, hm, _, hq⟩ := h
    have hten : (10 : Rat) ≠ 0 := by norm_num
    have hwhole : ∀ shift : Int, 0 ≤ k + shift → ∃ z : Int, q * (10 : Rat) ^ shift = z := by
      intro shift hshift
      obtain ⟨n, hn⟩ := Int.eq_ofNat_of_zero_le hshift
      refine ⟨m * 10 ^ n, ?_⟩
      rw [hq, mul_assoc, ← zpow_add₀ hten, hn]
      simp
    have key : ∃ z : Int,
        q * (10 : Rat) ^
            ((Real.digits10 : Int) + Nat.log 10 q.den - Nat.log 10 q.num.natAbs) = z := by
      by_cases hm0 : m = 0
      · exact ⟨0, by simp [hq, hm0]⟩
      · apply hwhole
        have hq0 : q ≠ 0 := by
          rw [hq]
          exact mul_ne_zero (by exact_mod_cast hm0) (zpow_ne_zero _ hten)
        have hnum : q.num.natAbs ≠ 0 := by
          simpa using Rat.num_ne_zero.mpr hq0
        have ha : (10 : Nat) ^ Nat.log 10 q.num.natAbs ≤ q.num.natAbs :=
          Nat.pow_log_le_self 10 hnum
        have hb : q.den < 10 ^ (Nat.log 10 q.den + 1) :=
          Nat.lt_pow_succ_log_self (by norm_num) q.den
        have hden : (0 : Rat) < q.den := by exact_mod_cast q.den_pos
        have habs : (q.num.natAbs : Rat) = |q| * q.den := by
          have : |q| = |(q.num : Rat)| / q.den := by
            conv_lhs => rw [← Rat.num_div_den q]
            rw [abs_div, abs_of_pos hden]
          rw [this, div_mul_cancel₀ _ hden.ne']
          simp [Nat.cast_natAbs]
        have hk : (0 : Rat) < (10 : Rat) ^ k := by positivity
        have hqabs : |q| = |(m : Rat)| * (10 : Rat) ^ k := by
          rw [hq, abs_mul, abs_of_pos hk]
        have hmlt : |(m : Rat)| < (10 : Rat) ^ ((Real.digits10 : Nat) : Int) := by
          rw [zpow_natCast]
          exact_mod_cast hm
        have hup : (q.den : Rat) < (10 : Rat) ^ ((Nat.log 10 q.den + 1 : Nat) : Int) := by
          rw [zpow_natCast]
          exact_mod_cast hb
        have hlow : (10 : Rat) ^ ((Nat.log 10 q.num.natAbs : Nat) : Int) ≤ q.num.natAbs := by
          rw [zpow_natCast]
          exact_mod_cast ha
        have hlt : (10 : Rat) ^ ((Nat.log 10 q.num.natAbs : Nat) : Int) <
            (10 : Rat) ^ ((Real.digits10 : Int) + k +
              ((Nat.log 10 q.den + 1 : Nat) : Int)) := by
          calc (10 : Rat) ^ ((Nat.log 10 q.num.natAbs : Nat) : Int)
              ≤ (q.num.natAbs : Rat) := hlow
            _ = |(m : Rat)| * (10 : Rat) ^ k * q.den := by rw [habs, hqabs]
            _ < (10 : Rat) ^ (Real.digits10 : Int) * (10 : Rat) ^ k *
                  (10 : Rat) ^ ((Nat.log 10 q.den + 1 : Nat) : Int) := by
                have h1 : |(m : Rat)| * (10 : Rat) ^ k <
                    (10 : Rat) ^ (Real.digits10 : Int) * (10 : Rat) ^ k :=
                  mul_lt_mul_of_pos_right hmlt hk
                exact mul_lt_mul h1 hup.le hden (by positivity)
            _ = (10 : Rat) ^ ((Real.digits10 : Int) + k +
                  ((Nat.log 10 q.den + 1 : Nat) : Int)) := by
                rw [zpow_add₀ hten, zpow_add₀ hten]
        have hexp : ((Nat.log 10 q.num.natAbs : Nat) : Int) <
            (Real.digits10 : Int) + k + ((Nat.log 10 q.den + 1 : Nat) : Int) :=
          (zpow_lt_zpow_iff_right₀ (by norm_num : (1 : Rat) < 10)).mp hlt
        push_cast at hexp
        omega
    obtain ⟨z, hz⟩ := key
    have hfloor : (z : Rat).floor = z := by simp [Rat.floor]
    have hceil : (z : Rat).ceil = z := by simp [Rat.ceil]
    simp only [Real.truncate, hz, hfloor, hceil, ite_self]
    rw [← hz]
    exact mul_div_cancel_right₀ _ (zpow_ne_zero _ hten)⟩

/-- A runtime for the closed examples: the cast of an `Integer` and the arithmetic of the
decimal float truncate the exact result with `Real.truncate`; none of the examples reaches
another routine of the library or recurses, so each of those answers 0 and the call stack
holds 1000 frames. -/
def exampleRuntime : Runtime where
  convert := fun n => Real.truncate n
  add := fun x y => Real.truncate (x + y)
  sub := fun x y => Real.truncate (x - y)
  mul := fun x y => Real.truncate (x * y)
  div := fun x y => Real.truncate (x / y)
  convert_exact := fun n h => Real.truncation.property n h
  add_exact := fun x y _ _ h => Real.truncation.property (x + y) h
  sub_exact := fun x y _ _ h => Real.truncation.property (x - y) h
  mul_exact := fun x y _ _ h => Real.truncation.property (x * y) h
  sin := fun _ => 0
  cos := fun _ => 0
  tan := fun _ => 0
  asin := fun _ => 0
  acosh := fun _ => 0
  atan := fun _ => 0
  atan2 := fun _ _ => 0
  exp := fun _ => 0
  log := fun _ => 0
  log2 := fun _ => 0
  sqrt := fun _ => 0
  pow := fun _ _ => 0
  std_sin := fun _ => 0
  std_cos := fun _ => 0
  std_tan := fun _ => 0
  std_atan2 := fun _ _ => 0
  divide_by_zero := fun _ => 0
  call_depth := 1000

/-- The meaning of an arithmetic operator on `Real` values. -/
def ArithmeticOperator.applyReal : ArithmeticOperator → Rat → Rat → Rat
  | .Addition, x, y => x + y
  | .Subtraction, x, y => x - y
  | .Multiplication, x, y => x * y

/-- The operation of the decimal float behind an arithmetic operator. -/
def ArithmeticOperator.applyRounded (rt : Runtime) : ArithmeticOperator → Rat → Rat → Rat
  | .Addition, x, y => rt.add x y
  | .Subtraction, x, y => rt.sub x y
  | .Multiplication, x, y => rt.mul x y

/-- A numeric operand: an `Integer` or a `Real`. -/
inductive Numeric where
  | Integer (value : Int)
  | Real (value : Rat)
  deriving DecidableEq, Repr

/-- The operand token payload of a numeric operand. -/
def Numeric.toOperand : Numeric → Operand
  | .Integer value => .Integer value
  | .Real value => .Real value

/-- The numeric value of a numeric operand. -/
def Numeric.value : Numeric → Rat
  | .Integer value => (value : Rat)
  | .Real value => value

/-- The value of a numeric operand as a `Real`, the way `toRealValue` gives it: an
`Integer` goes through the cast to the decimal float. -/
def Numeric.toReal (rt : Runtime) : Numeric → Rat
  | .Integer value => rt.convert value
  | .Real value => value

/-- The six comparison operators. -/
inductive ComparisonOperator where
  | Less | LessEqual | Greater | GreaterEqual | Equality | Inequality
  deriving DecidableEq, Repr

/-- The operator class behind a comparison operator. -/
def ComparisonOperator.toOperator : ComparisonOperator → OperatorKind
  | .Less => .Less
  | .LessEqual => .LessEqual
  | .Greater => .Greater
  | .GreaterEqual => .GreaterEqual
  | .Equality => .Equality
  | .Inequality => .Inequality

/-- The truth value of a comparison, the first argument on the left. -/
def ComparisonOperator.holds : ComparisonOperator → Rat → Rat → Bool
  | .Less, x, y => decide (x < y)
  | .LessEqual, x, y => decide (x ≤ y)
  | .Greater, x, y => decide (x > y)
  | .GreaterEqual, x, y => decide (x ≥ y)
  | .Equality, x, y => decide (x = y)
  | .Inequality, x, y => decide (x ≠ y)

/-- The six two-operand logical operators. -/
inductive LogicalOperator where
  | And | Or | Xor | Nand | Nor | Xnor
  deriving DecidableEq, Repr

/-- The operator class behind a logical operator. -/
def LogicalOperator.toOperator : LogicalOperator → OperatorKind
  | .And => .And
  | .Or => .Or
  | .Xor => .Xor
  | .Nand => .Nand
  | .Nor => .Nor
  | .Xnor => .Xnor

/-- The truth table of a logical operator. -/
def LogicalOperator.apply : LogicalOperator → Bool → Bool → Bool
  | .And, p, q => p && q
  | .Or, p, q => p || q
  | .Xor, p, q => xor p q
  | .Nand, p, q => !(p && q)
  | .Nor, p, q => !(p || q)
  | .Xnor, p, q => !(xor p q)

/-- The one-argument functions of real analysis the catalogue offers on a `Real`. -/
inductive TranscendentalFunction where
  | Sin | Cos | Tan | Arcsin | Arctan | Exp | Ln | Lb | Sqrt
  deriving DecidableEq, Repr

/-- The function class behind a transcendental function. -/
def TranscendentalFunction.toFunction : TranscendentalFunction → FunctionKind
  | .Sin => .Sin
  | .Cos => .Cos
  | .Tan => .Tan
  | .Arcsin => .Arcsin
  | .Arctan => .Arctan
  | .Exp => .Exp
  | .Ln => .Ln
  | .Lb => .Lb
  | .Sqrt => .Sqrt


/-- The prefix unary operators of the catalogue. -/
inductive PrefixOperator where
  | Identity | Negation | Not
  deriving DecidableEq, Repr

/-- The operator class behind a prefix unary operator. -/
def PrefixOperator.toOperator : PrefixOperator → OperatorKind
  | .Identity => .Identity
  | .Negation => .Negation
  | .Not => .Not

/-- An operand token. -/
def Token.isOperand : Token → Bool
  | .operand _ => true
  | _ => false

/-- A structural token: a parenthesis or an argument separator. -/
def Token.isStructural : Token → Bool
  | .LeftParenthesis => true
  | .RightParenthesis => true
  | .ArgumentSeparator => true
  | _ => false

/-- Balanced parentheses: every prefix of the sequence has at least as many left as right
parentheses, and the totals are equal. -/
def balancedParentheses (tokens : List Token) : Prop :=
  (∀ start ∈ tokens.inits,
      start.count .RightParenthesis ≤ start.count .LeftParenthesis) ∧
    tokens.count .LeftParenthesis = tokens.count .RightParenthesis

instance (tokens : List Token) : Decidable (balancedParentheses tokens) := by
  unfold balancedParentheses
  infer_instance

/-- The `int_fast_power` of integer.cpp with the depth of recursion made explicit:
`depth` is the number of nested recursive calls still available, and the result is `none`
when the call would need more. -/
def int_fast_power.within (base : Int) : Nat → Int → Option Int
  | 0, exponent => if exponent = 0 then some 1 else none
  | depth + 1, exponent =>
    if exponent = 0 then some 1
    else
      (int_fast_power.within base depth (exponent.tdiv 2)).map fun x =>
        if exponent.tmod 2 = 0 then x * x else x * x * base


/-! ## Sequencing lemmas -/

@[simp] theorem Outcome.bind_returned {α β : Type} (a : α) (f : α → Outcome β) :
    (Outcome.returned a).bind f = f a := rfl

@[simp] theorem Outcome.bind_thrown {α β : Type} (w : String) (f : α → Outcome β) :
    (Outcome.thrown w : Outcome α).bind f = .thrown w := rfl

@[simp] theorem Outcome.bind_undefined {α β : Type} (f : α → Outcome β) :
    (Outcome.undefined : Outcome α).bind f = .undefined := rfl

/-! ## The converter, loop by loop -/

theorem popOperators_eq (op : OperatorKind) (st : List Token) :
    ∀ tl : TokenList, popOperators op tl st =
      (tl ++ st.takeWhile (pushRule op), st.dropWhile (pushRule op)) := by
  induction st with
  | nil => intro tl; simp [popOperators]
  | cons top rest ih =>
    intro tl
    cases h : top.asOperator with
    | none => simp [popOperators, pushRule, h, List.takeWhile, List.dropWhile]
    | some k =>
      by_cases hc : (op.associativeType = "Left" ∧ op.precedence.toNat ≤ k.precedence.toNat) ∨
          (op.associativeType = "Right" ∧ op.precedence.toNat < k.precedence.toNat)
      · simp [popOperators, pushRule, h, hc, ih, List.takeWhile, List.dropWhile]
      · simp [popOperators, pushRule, h, hc, List.takeWhile, List.dropWhile]

theorem evalByPrecedence_eq (op : OperatorKind) (st : List Token) :
    ∀ tl : TokenList, evalByPrecedence tl st (.operator op) =
      .returned (tl ++ st.takeWhile (precedenceRule op),
        .operator op :: st.dropWhile (precedenceRule op)) := by
  induction st with
  | nil => intro tl; simp [evalByPrecedence]
  | cons top rest ih =>
    intro tl
    cases top with
    | operator k =>
      by_cases hc : k.precedence.toNat < op.precedence.toNat
      · simp [evalByPrecedence, precedenceRule, hc, Token.asOperator, List.takeWhile,
          List.dropWhile]
      · simp [evalByPrecedence, precedenceRule, hc, ih, Token.asOperator, List.takeWhile,
          List.dropWhile]
    | _ => simp [evalByPrecedence, precedenceRule, Token.asOperator, List.takeWhile,
        List.dropWhile]

/-- What one operator token does to the converter's state: the longest run of stack tops
that pass `popRule` moves to the output, then the operator is pushed. -/
theorem parseToken_operator (op : OperatorKind) (tl : TokenList) (st : List Token) :
    parseToken tl st (.operator op) =
      .returned (tl ++ st.takeWhile (popRule op), .operator op :: st.dropWhile (popRule op)) := by
  cases op <;>
    simp [parseToken, Token.str, get_infix_eval, List.lookup, InfixEval.run, push_operation,
      popOperators_eq, evalByPrecedence_eq, popRule]

theorem parseToken_operand (o : Operand) (tl : TokenList) (st : List Token) :
    parseToken tl st (.operand o) = .returned (tl ++ [.operand o], st) := rfl

theorem parseToken_function (f : FunctionKind) (tl : TokenList) (st : List Token) :
    parseToken tl st (.function f) = .returned (tl, .function f :: st) := rfl

theorem parseToken_LeftParenthesis (tl : TokenList) (st : List Token) :
    parseToken tl st .LeftParenthesis = .returned (tl, .LeftParenthesis :: st) := rfl

theorem parseToken_RightParenthesis (tl : TokenList) (st : List Token) :
    parseToken tl st .RightParenthesis = evalRightParenthesis tl st .RightParenthesis := rfl

theorem parseToken_ArgumentSeparator (tl : TokenList) (st : List Token) :
    parseToken tl st .ArgumentSeparator = popToLeftParenthesisUnchecked tl st := rfl

theorem parseToken_other (t : UnknownToken) (tl : TokenList) (st : List Token) :
    parseToken tl st (.other t) = .thrown ("Unknown token: " ++ t.name) := by
  simp [parseToken, Token.str, t.unregistered]

theorem str_operator_ne (op : OperatorKind) : (Token.operator op).str ≠ "<LeftParenthesis>" := by
  cases op <;> decide

theorem str_function_ne (f : FunctionKind) : (Token.function f).str ≠ "<LeftParenthesis>" := by
  cases f <;> decide

theorem isFunction_operator (op : OperatorKind) : isFunction (.operator op) = false := by
  cases op <;> rfl

theorem isFunction_function (f : FunctionKind) : isFunction (.function f) = true := by
  cases f <;> rfl

theorem popRule_LeftParenthesis (op : OperatorKind) : popRule op .LeftParenthesis = false := by
  unfold popRule; split <;> rfl

@[simp] theorem parseLoop_nil (tl : TokenList) (st : List Token) :
    parseLoop [] tl st = .returned (tl, st) := rfl

@[simp] theorem parseLoop_cons (tok : Token) (rest : List Token) (tl : TokenList)
    (st : List Token) :
    parseLoop (tok :: rest) tl st =
      (parseToken tl st tok).bind fun s => parseLoop rest s.1 s.2 := rfl

theorem parseLoop_append (xs ys : List Token) :
    ∀ (tl : TokenList) (st : List Token),
      parseLoop (xs ++ ys) tl st = (parseLoop xs tl st).bind fun s => parseLoop ys s.1 s.2 := by
  induction xs with
  | nil => intro tl st; simp
  | cons x xs ih =>
    intro tl st
    simp only [List.cons_append, parseLoop_cons]
    cases parseToken tl st x <;> simp [ih]

/-! ## The right-parenthesis lambda, case by case -/

theorem popToLeftParenthesis_operator (op : OperatorKind) (tl : TokenList) (st : List Token) :
    popToLeftParenthesis tl (.operator op :: st) =
      popToLeftParenthesis (tl ++ [.operator op]) st := by
  simp [popToLeftParenthesis, str_operator_ne op]

theorem popToLeftParenthesis_function (f : FunctionKind) (tl : TokenList) (st : List Token) :
    popToLeftParenthesis tl (.function f :: st) =
      popToLeftParenthesis (tl ++ [.function f]) st := by
  simp [popToLeftParenthesis, str_function_ne f]

theorem popToLeftParenthesis_LeftParenthesis (tl : TokenList) (st : List Token) :
    popToLeftParenthesis tl (.LeftParenthesis :: st) = (tl, .LeftParenthesis :: st) := by
  simp [popToLeftParenthesis, Token.str]

theorem evalRightParenthesis_operator (op : OperatorKind) (tl : TokenList) (st : List Token)
    (tok : Token) :
    evalRightParenthesis tl (.operator op :: st) tok =
      evalRightParenthesis (tl ++ [.operator op]) st tok := by
  simp only [evalRightParenthesis, popToLeftParenthesis_operator]

theorem evalRightParenthesis_function (f : FunctionKind) (tl : TokenList) (st : List Token)
    (tok : Token) :
    evalRightParenthesis tl (.function f :: st) tok =
      evalRightParenthesis (tl ++ [.function f]) st tok := by
  simp only [evalRightParenthesis, popToLeftParenthesis_function]

theorem evalRightParenthesis_nil (tl : TokenList) (tok : Token) :
    evalRightParenthesis tl [] tok = .thrown "Mismatched parentheses" := rfl

theorem evalRightParenthesis_LeftParenthesis (tl : TokenList) (st : List Token) (tok : Token)
    (h : noFunctionOnTop st) :
    evalRightParenthesis tl (.LeftParenthesis :: st) tok = .returned (tl, st) := by
  cases st with
  | nil => simp [evalRightParenthesis, popToLeftParenthesis_LeftParenthesis]
  | cons top rest =>
    have : isFunction top = false := h
    simp [evalRightParenthesis, popToLeftParenthesis_LeftParenthesis, this]

theorem evalRightParenthesis_call (f : FunctionKind) (tl : TokenList) (st : List Token)
    (tok : Token) :
    evalRightParenthesis tl (.LeftParenthesis :: .function f :: st) tok =
      .returned (tl ++ [.function f], st) := by
  simp [evalRightParenthesis, popToLeftParenthesis_LeftParenthesis, isFunction_function]

/-! ## Fully parenthesised input -/

theorem parseLoop_parenthesised (t : BinaryExpression) :
    ∀ (rest : List Token) (tl : TokenList) (st : List Token), noFunctionOnTop st →
      parseLoop (t.parenthesised ++ rest) tl st = parseLoop rest (tl ++ t.postorder) st := by
  induction t with
  | leaf o =>
    intro rest tl st _
    simp [BinaryExpression.parenthesised, BinaryExpression.postorder, parseToken_operand]
  | node op binary left right ihl ihr =>
    intro rest tl st hst
    have hpop : popRule op .LeftParenthesis = false := popRule_LeftParenthesis op
    simp only [BinaryExpression.parenthesised, BinaryExpression.postorder, List.append_assoc,
      List.cons_append, List.nil_append, parseLoop_cons, parseToken_LeftParenthesis,
      Outcome.bind_returned]
    rw [ihl _ _ _ (by simp [noFunctionOnTop]; rfl)]
    simp only [parseLoop_cons, parseToken_operator, Outcome.bind_returned, List.takeWhile,
      List.dropWhile, hpop, List.append_nil]
    rw [ihr _ _ _ (by simp [noFunctionOnTop, isFunction_operator])]
    simp only [parseLoop_cons, parseToken_RightParenthesis, evalRightParenthesis_operator,
      evalRightParenthesis_LeftParenthesis _ _ _ hst, Outcome.bind_returned, List.append_assoc]

/-! ## Evaluation of integer arithmetic -/

@[simp] theorem evaluateLoop_nil (rt : Runtime) (stack : List Operand) (store : Store) :
    evaluateLoop rt [] stack store = .returned (stack, store) := rfl

theorem evaluateLoop_append (rt : Runtime) (xs ys : List Token) :
    ∀ (stack : List Operand) (store : Store),
      evaluateLoop rt (xs ++ ys) stack store =
        (evaluateLoop rt xs stack store).bind fun s => evaluateLoop rt ys s.1 s.2 := by
  induction xs with
  | nil => intro stack store; simp
  | cons x xs ih =>
    intro stack store
    cases x with
    | operand o => simp [evaluateLoop, ih]
    | operator k =>
      simp only [List.cons_append, evaluateLoop]
      cases k.perform rt stack store <;> simp [ih]
    | function f =>
      simp only [List.cons_append, evaluateLoop]
      split
      · simp
      · cases f.perform rt stack <;> simp [ih]
    | _ => simp [evaluateLoop]

theorem perform_arithmetic (rt : Runtime) (op : ArithmeticOperator) (x y : Int)
    (stack : List Operand) (store : Store) :
    op.toOperator.perform rt (.Integer y :: .Integer x :: stack) store =
      .returned (.Integer (op.apply x y) :: stack, store) := by
  cases op <;> rfl

theorem evaluateLoop_postorder (rt : Runtime) (t : IntegerExpression) :
    ∀ (stack : List Operand) (store : Store),
      evaluateLoop rt t.postorder stack store = .returned (.Integer t.value :: stack, store) := by
  induction t with
  | leaf value => intro stack store; rfl
  | node op left right ihl ihr =>
    intro stack store
    simp only [IntegerExpression.postorder, evaluateLoop_append, ihl, ihr, Outcome.bind_returned,
      IntegerExpression.value]
    simp [evaluateLoop, perform_arithmetic]

theorem postorder_ne_nil (t : IntegerExpression) : t.postorder ≠ [] := by
  cases t <;> simp [IntegerExpression.postorder]

/-- C1: for every expression tree with Integer leaves and Addition, Subtraction or
Multiplication at the inner nodes, evaluating its post-order token sequence succeeds: the
loop ends with exactly one value on the stack, the Integer holding the arithmetic value of
the tree, and `evaluate` returns that Integer, the bindings untouched. -/
theorem C1_evaluate_postorder (rt : Runtime) (store : Store) (t : IntegerExpression) :
    evaluateLoop rt t.postorder [] store = .returned ([.Integer t.value], store) ∧
      RPNEvaluator.evaluate rt t.postorder store = .returned (.Integer t.value, store) := by
  refine ⟨evaluateLoop_postorder rt t [] store, ?_⟩
  have hne : t.postorder.isEmpty = false := by
    cases h : t.postorder with
    | nil => exact absurd h (postorder_ne_nil t)
    | cons _ _ => rfl
  simp [RPNEvaluator.evaluate, hne, evaluateLoop_postorder]

/-- C2: for every expression tree with operand leaves and binary operators at the inner
nodes, `Parser::parse` of the fully parenthesised infix sequence returns exactly the
post-order sequence of the tree. -/
theorem C2_parse_parenthesised (t : BinaryExpression) :
    Parser.parse t.parenthesised = .returned t.postorder := by
  have h := parseLoop_parenthesised t [] [] [] trivial
  simp only [List.append_nil, List.nil_append, parseLoop_nil] at h
  simp [Parser.parse, h, drainStack]

/-! ## Which tops an operator pops -/

theorem popRule_of_lt (op top : OperatorKind)
    (h : top.precedence.toNat < op.precedence.toNat) : popRule op (.operator top) = false := by
  cases op <;>
    simp [popRule, pushRule, precedenceRule, Token.asOperator, OperatorKind.associativeType,
      OperatorKind.precedence, Precedence.toNat] at h ⊢ <;> omega

theorem popRule_of_gt (op top : OperatorKind) (hop : op.number_of_args = 2)
    (h : op.precedence.toNat < top.precedence.toNat) : popRule op (.operator top) = true := by
  cases op <;>
    simp [popRule, pushRule, precedenceRule, Token.asOperator, OperatorKind.associativeType,
      OperatorKind.precedence, Precedence.toNat, OperatorKind.number_of_args] at hop h ⊢ <;> omega

theorem popRule_of_eq_left (op top : OperatorKind) (hop : op.associativeType = "Left")
    (h : op.precedence.toNat = top.precedence.toNat) : popRule op (.operator top) = true := by
  cases op <;>
    simp [popRule, pushRule, precedenceRule, Token.asOperator, OperatorKind.associativeType,
      OperatorKind.precedence, Precedence.toNat] at hop h ⊢ <;> omega

theorem popRule_of_eq_right (op top : OperatorKind) (hop : op.associativeType = "Right")
    (h : op.precedence.toNat = top.precedence.toNat) : popRule op (.operator top) = false := by
  cases op <;>
    simp [popRule, pushRule, precedenceRule, Token.asOperator, OperatorKind.associativeType,
      OperatorKind.precedence, Precedence.toNat] at hop h ⊢ <;> omega

/-! ## The final loop of the converter -/

theorem drainStack_nil (tl : TokenList) : drainStack tl [] = .returned tl := rfl

theorem drainStack_operator (op : OperatorKind) (tl : TokenList) (st : List Token) :
    drainStack tl (.operator op :: st) = drainStack (tl ++ [.operator op]) st := by
  simp [drainStack, str_operator_ne op]

theorem drainStack_function (f : FunctionKind) (tl : TokenList) (st : List Token) :
    drainStack tl (.function f :: st) = drainStack (tl ++ [.function f]) st := by
  simp [drainStack, str_function_ne f]

theorem drainStack_LeftParenthesis (tl : TokenList) (st : List Token) :
    drainStack tl (.LeftParenthesis :: st) = .thrown "Missing right parenthesis" := by
  simp [drainStack, Token.str]

/-! ## Integer powers -/

theorem tmod_two_eq_zero_iff (e : Int) : e.tmod 2 = 0 ↔ e.natAbs % 2 = 0 := by
  rcases e with n | n
  · show ((n % 2 : Nat) : Int) = 0 ↔ _
    simp
    omega
  · show -(((n + 1) % 2 : Nat) : Int) = 0 ↔ _
    simp [Int.natAbs_negSucc]
    omega

/-- Exponentiation by squaring yields the power by the magnitude of the exponent. -/
theorem int_fast_power_eq_pow (base : Int) :
    ∀ (n : Nat) (exponent : Int), exponent.natAbs = n →
      int_fast_power base exponent = base ^ n := by
  intro n
  induction n using Nat.strong_induction_on with
  | _ n ih =>
    intro exponent hn
    rw [int_fast_power]
    by_cases h0 : exponent = 0
    · subst h0
      simp at hn
      simp [← hn]
    · have hpos : 0 < n := by
        rw [← hn]; exact Int.natAbs_pos.mpr h0
      have hhalf : (exponent.tdiv 2).natAbs = n / 2 := by
        rw [Int.natAbs_tdiv, hn]; rfl
      have hx := ih (n / 2) (by omega) (exponent.tdiv 2) hhalf
      simp only [h0, if_false, hx]
      by_cases hpar : exponent.tmod 2 = 0
      · have : n % 2 = 0 := by rw [← hn]; exact (tmod_two_eq_zero_iff exponent).mp hpar
        simp only [hpar, if_true]
        rw [← pow_add]
        congr 1
        omega
      · have : n % 2 ≠ 0 := by
          rw [← hn]; exact fun h => hpar ((tmod_two_eq_zero_iff exponent).mpr h)
        simp only [hpar, if_false]
        rw [← pow_add, ← pow_succ]
        congr 1
        omega

/-- What `Power` does to two `Integer` operands. -/
theorem perform_Power_Integer (rt : Runtime) (base exponent : Int) (stack : List Operand)
    (store : Store) :
    OperatorKind.Power.perform rt (.Integer exponent :: .Integer base :: stack) store =
      .returned (.Integer (if exponent ≤ 8 then int_simple_power base exponent
        else int_fast_power base exponent) :: stack, store) := by
  have hlen : ¬ (stack.length + 1 + 1 < 2) := by omega
  simp only [OperatorKind.perform, OperatorKind.performOnStack, unlessShort, virtualCall,
    Integer.perform_Power, castOrReal, Operand.asInteger, List.length_cons, hlen, if_false]
  by_cases h : exponent ≤ 8 <;> simp [h]

/-! ## Precedence, associativity, parentheses -/

/-- C3: precedence. For operands a, b, c and binary operators lo, hi with
precedence(lo) < precedence(hi), the converter turns `a lo b hi c` into `a b c hi lo` and
`a hi b lo c` into `a b hi c lo`; converting and evaluating `2 + 3 * 4` yields Integer 14. -/
theorem C3_precedence (a b c : Operand) (lo hi : OperatorKind)
    (hlo : lo.number_of_args = 2) (_hhi : hi.number_of_args = 2)
    (h : lo.precedence.toNat < hi.precedence.toNat) :
    Parser.parse [.operand a, .operator lo, .operand b, .operator hi, .operand c] =
        .returned [.operand a, .operand b, .operand c, .operator hi, .operator lo] ∧
      Parser.parse [.operand a, .operator hi, .operand b, .operator lo, .operand c] =
        .returned [.operand a, .operand b, .operator hi, .operand c, .operator lo] ∧
      ∀ (rt : Runtime) (store : Store),
        (Parser.parse [.operand (.Integer 2), .operator .Addition, .operand (.Integer 3),
            .operator .Multiplication, .operand (.Integer 4)]).bind
          (fun rpn => RPNEvaluator.evaluate rt rpn store) = .returned (.Integer 14, store) := by
  refine ⟨?_, ?_, fun rt store => rfl⟩
  · simp [Parser.parse, parseToken_operand, parseToken_operator, popRule_of_lt hi lo h,
      drainStack_operator, drainStack_nil]
  · simp [Parser.parse, parseToken_operand, parseToken_operator, popRule_of_gt lo hi hlo h,
      drainStack_operator, drainStack_nil]

/-- C3 at `+` and `*` on the operands 2, 3, 4. -/
theorem C3_precedence_witness :
    OperatorKind.Addition.number_of_args = 2 ∧ OperatorKind.Multiplication.number_of_args = 2 ∧
      OperatorKind.Addition.precedence.toNat < OperatorKind.Multiplication.precedence.toNat ∧
      Parser.parse [.operand (.Integer 2), .operator .Addition, .operand (.Integer 3),
          .operator .Multiplication, .operand (.Integer 4)] =
        .returned [.operand (.Integer 2), .operand (.Integer 3), .operand (.Integer 4),
          .operator .Multiplication, .operator .Addition] :=
  ⟨rfl, rfl, by decide,
    (C3_precedence (.Integer 2) (.Integer 3) (.Integer 4) .Addition .Multiplication rfl rfl
      (by decide)).1⟩

/-- C4: left associativity. For operands a, b, c and left-associative binary operators
op1, op2 of equal precedence, the converter turns `a op1 b op2 c` into `a b op1 c op2`;
converting and evaluating `2 - 3 - 4` yields Integer -5. -/
theorem C4_left_associativity (a b c : Operand) (op1 op2 : OperatorKind)
    (_h1 : op1.associativeType = "Left") (h2 : op2.associativeType = "Left")
    (h : op1.precedence.toNat = op2.precedence.toNat) :
    Parser.parse [.operand a, .operator op1, .operand b, .operator op2, .operand c] =
        .returned [.operand a, .operand b, .operator op1, .operand c, .operator op2] ∧
      ∀ (rt : Runtime) (store : Store),
        (Parser.parse [.operand (.Integer 2), .operator .Subtraction, .operand (.Integer 3),
            .operator .Subtraction, .operand (.Integer 4)]).bind
          (fun rpn => RPNEvaluator.evaluate rt rpn store) = .returned (.Integer (-5), store) := by
  refine ⟨?_, fun rt store => rfl⟩
  simp [Parser.parse, parseToken_operand, parseToken_operator,
    popRule_of_eq_left op2 op1 h2 h.symm, drainStack_operator, drainStack_nil]

/-- C4 at `-` and `-` on the operands 2, 3, 4. -/
theorem C4_left_associativity_witness :
    OperatorKind.Subtraction.associativeType = "Left" ∧
      Parser.parse [.operand (.Integer 2), .operator .Subtraction, .operand (.Integer 3),
          .operator .Subtraction, .operand (.Integer 4)] =
        .returned [.operand (.Integer 2), .operand (.Integer 3), .operator .Subtraction,
          .operand (.Integer 4), .operator .Subtraction] :=
  ⟨rfl,
    (C4_left_associativity (.Integer 2) (.Integer 3) (.Integer 4) .Subtraction .Subtraction
      rfl rfl rfl).1⟩

/-- C5: right associativity. The right-associative operators are Power and Assignment;
for each of them and operands a, b, c the converter turns `a op b op c` into
`a b c op op`; converting and evaluating `2 ^ 3 ^ 2` yields Integer 512. -/
theorem C5_right_associativity (a b c : Operand) (op : OperatorKind)
    (hop : op = .Power ∨ op = .Assignment) :
    op.associativeType = "Right" ∧
      Parser.parse [.operand a, .operator op, .operand b, .operator op, .operand c] =
        .returned [.operand a, .operand b, .operand c, .operator op, .operator op] ∧
      ∀ (rt : Runtime) (store : Store),
        (Parser.parse [.operand (.Integer 2), .operator .Power, .operand (.Integer 3),
            .operator .Power, .operand (.Integer 2)]).bind
          (fun rpn => RPNEvaluator.evaluate rt rpn store) = .returned (.Integer 512, store) := by
  have hright : op.associativeType = "Right" := by
    rcases hop with rfl | rfl <;> rfl
  refine ⟨hright, ?_, fun rt store => ?_⟩
  · simp [Parser.parse, parseToken_operand, parseToken_operator,
      popRule_of_eq_right op op hright rfl, drainStack_operator, drainStack_nil]
  · have hparse : Parser.parse [.operand (.Integer 2), .operator .Power, .operand (.Integer 3),
        .operator .Power, .operand (.Integer 2)] =
        .returned [.operand (.Integer 2), .operand (.Integer 3), .operand (.Integer 2),
          .operator .Power, .operator .Power] := rfl
    rw [hparse]
    simp only [Outcome.bind_returned, RPNEvaluator.evaluate, List.isEmpty_cons, evaluateLoop,
      perform_Power_Integer, evaluateLoop_nil]
    have h9 : int_simple_power 2 3 = 8 ∧ int_simple_power 3 2 = 9 := ⟨rfl, rfl⟩
    simp [h9.2, int_fast_power_eq_pow 2 9 9 rfl]

/-- C5 at Power on the operands 2, 3, 2. -/
theorem C5_right_associativity_witness :
    Parser.parse [.operand (.Integer 2), .operator .Power, .operand (.Integer 3),
        .operator .Power, .operand (.Integer 2)] =
      .returned [.operand (.Integer 2), .operand (.Integer 3), .operand (.Integer 2),
        .operator .Power, .operator .Power] :=
  (C5_right_associativity (.Integer 2) (.Integer 3) (.Integer 2) .Power (Or.inl rfl)).2.1

/-- C6: parentheses override precedence. For operands a, b, c, d and binary operators
op1, op2, op3 of any precedence, the converter turns `( a op1 b ) op2 ( c op3 d )` into
`a b op1 c d op3 op2`; converting and evaluating `(1+2)*(3+4)` yields Integer 21. -/
theorem C6_parentheses (a b c d : Operand) (op1 op2 op3 : OperatorKind)
    (_h1 : op1.number_of_args = 2) (_h2 : op2.number_of_args = 2)
    (_h3 : op3.number_of_args = 2) :
    Parser.parse [.LeftParenthesis, .operand a, .operator op1, .operand b, .RightParenthesis,
        .operator op2, .LeftParenthesis, .operand c, .operator op3, .operand d,
        .RightParenthesis] =
        .returned [.operand a, .operand b, .operator op1, .operand c, .operand d,
          .operator op3, .operator op2] ∧
      ∀ (rt : Runtime) (store : Store),
        (Parser.parse [.LeftParenthesis, .operand (.Integer 1), .operator .Addition,
            .operand (.Integer 2), .RightParenthesis, .operator .Multiplication,
            .LeftParenthesis, .operand (.Integer 3), .operator .Addition,
            .operand (.Integer 4), .RightParenthesis]).bind
          (fun rpn => RPNEvaluator.evaluate rt rpn store) = .returned (.Integer 21, store) := by
  refine ⟨?_, fun rt store => rfl⟩
  simp [Parser.parse, parseToken_operand, parseToken_operator, parseToken_LeftParenthesis,
    parseToken_RightParenthesis, popRule_LeftParenthesis, evalRightParenthesis_operator,
    evalRightParenthesis_LeftParenthesis, noFunctionOnTop, isFunction_operator,
    drainStack_operator, drainStack_nil]

/-- C6 at `(1+2)*(3+4)`. -/
theorem C6_parentheses_witness :
    OperatorKind.Addition.number_of_args = 2 ∧ OperatorKind.Multiplication.number_of_args = 2 ∧
      Parser.parse [.LeftParenthesis, .operand (.Integer 1), .operator .Addition,
          .operand (.Integer 2), .RightParenthesis, .operator .Multiplication,
          .LeftParenthesis, .operand (.Integer 3), .operator .Addition,
          .operand (.Integer 4), .RightParenthesis] =
        .returned [.operand (.Integer 1), .operand (.Integer 2), .operator .Addition,
          .operand (.Integer 3), .operand (.Integer 4), .operator .Addition,
          .operator .Multiplication] :=
  ⟨rfl, rfl,
    (C6_parentheses (.Integer 1) (.Integer 2) (.Integer 3) (.Integer 4) .Addition
      .Multiplication .Addition rfl rfl rfl).1⟩

/-! ## What the converter keeps on its stack and in its output -/

theorem popRule_operator_of_true (op : OperatorKind) (t : Token) (h : popRule op t = true) :
    ∃ k, t = .operator k := by
  cases t with
  | operator k => exact ⟨k, rfl⟩
  | _ => revert h; unfold popRule; split <;> simp [pushRule, precedenceRule, Token.asOperator]

theorem isExecutable_of_mem_takeWhile (op : OperatorKind) (st : List Token) (t : Token)
    (h : t ∈ st.takeWhile (popRule op)) : t.isExecutable = true := by
  obtain ⟨k, rfl⟩ := popRule_operator_of_true op t (List.mem_takeWhile_imp h)
  rfl

theorem isPending_of_mem_dropWhile (p : Token → Bool) (st : List Token)
    (hst : ∀ t ∈ st, t.isPending = true) (t : Token) (h : t ∈ st.dropWhile p) :
    t.isPending = true :=
  hst t ((List.dropWhile_suffix p).subset h)

/-- A right parenthesis keeps executable tokens in the output and pending tokens on the
stack. -/
theorem evalRightParenthesis_keeps (tok : Token) (st : List Token) :
    ∀ (tl tl' : TokenList) (st' : List Token),
      (∀ t ∈ tl, t.isExecutable = true) → (∀ t ∈ st, t.isPending = true) →
      evalRightParenthesis tl st tok = .returned (tl', st') →
      (∀ t ∈ tl', t.isExecutable = true) ∧ (∀ t ∈ st', t.isPending = true) := by
  induction st with
  | nil => intro tl tl' st' _ _ h; simp [evalRightParenthesis_nil] at h
  | cons top rest ih =>
    intro tl tl' st' htl hst h
    have hrest : ∀ t ∈ rest, t.isPending = true := fun t ht => hst t (List.mem_cons_of_mem _ ht)
    have htop : top.isPending = true := hst top (List.mem_cons_self _ _)
    cases top with
    | operator k =>
      rw [evalRightParenthesis_operator] at h
      refine ih _ _ _ ?_ hrest h
      intro t ht
      rcases List.mem_append.mp ht with ht | ht
      · exact htl t ht
      · simp at ht; subst ht; rfl
    | function f =>
      rw [evalRightParenthesis_function] at h
      refine ih _ _ _ ?_ hrest h
      intro t ht
      rcases List.mem_append.mp ht with ht | ht
      · exact htl t ht
      · simp at ht; subst ht; rfl
    | LeftParenthesis =>
      cases rest with
      | nil =>
        simp [evalRightParenthesis, popToLeftParenthesis_LeftParenthesis] at h
        obtain ⟨rfl, rfl⟩ := h
        exact ⟨htl, by simp⟩
      | cons next rest' =>
        have hnext : next.isPending = true := hrest next (List.mem_cons_self _ _)
        have hrest' : ∀ t ∈ rest', t.isPending = true :=
          fun t ht => hrest t (List.mem_cons_of_mem _ ht)
        cases next with
        | function f =>
          rw [evalRightParenthesis_call] at h
          simp only [Outcome.returned.injEq, Prod.mk.injEq] at h
          obtain ⟨rfl, rfl⟩ := h
          refine ⟨?_, hrest'⟩
          intro t ht
          rcases List.mem_append.mp ht with ht | ht
          · exact htl t ht
          · simp at ht; subst ht; rfl
        | operator k =>
          rw [evalRightParenthesis_LeftParenthesis tl (.operator k :: rest') _
            (isFunction_operator k)] at h
          simp only [Outcome.returned.injEq, Prod.mk.injEq] at h
          obtain ⟨rfl, rfl⟩ := h
          exact ⟨htl, hrest⟩
        | LeftParenthesis =>
          have hno : noFunctionOnTop (.LeftParenthesis :: rest') := by
            show isFunction .LeftParenthesis = false
            rfl
          rw [evalRightParenthesis_LeftParenthesis tl (.LeftParenthesis :: rest') _ hno] at h
          simp only [Outcome.returned.injEq, Prod.mk.injEq] at h
          obtain ⟨rfl, rfl⟩ := h
          exact ⟨htl, hrest⟩
        | _ => simp [Token.isPending] at hnext
    | _ => simp [Token.isPending] at htop

theorem popToLeftParenthesisUnchecked_operator (op : OperatorKind) (tl : TokenList)
    (st : List Token) :
    popToLeftParenthesisUnchecked tl (.operator op :: st) =
      popToLeftParenthesisUnchecked (tl ++ [.operator op]) st := by
  simp [popToLeftParenthesisUnchecked, str_operator_ne op]

theorem popToLeftParenthesisUnchecked_function (f : FunctionKind) (tl : TokenList)
    (st : List Token) :
    popToLeftParenthesisUnchecked tl (.function f :: st) =
      popToLeftParenthesisUnchecked (tl ++ [.function f]) st := by
  simp [popToLeftParenthesisUnchecked, str_function_ne f]

theorem popToLeftParenthesisUnchecked_LeftParenthesis (tl : TokenList) (st : List Token) :
    popToLeftParenthesisUnchecked tl (.LeftParenthesis :: st) =
      .returned (tl, .LeftParenthesis :: st) := by
  simp [popToLeftParenthesisUnchecked, Token.str]

/-- An argument separator keeps executable tokens in the output and pending tokens on the
stack. -/
theorem popToLeftParenthesisUnchecked_keeps (st : List Token) :
    ∀ (tl tl' : TokenList) (st' : List Token),
      (∀ t ∈ tl, t.isExecutable = true) → (∀ t ∈ st, t.isPending = true) →
      popToLeftParenthesisUnchecked tl st = .returned (tl', st') →
      (∀ t ∈ tl', t.isExecutable = true) ∧ (∀ t ∈ st', t.isPending = true) := by
  induction st with
  | nil => intro tl tl' st' _ _ h; simp [popToLeftParenthesisUnchecked] at h
  | cons top rest ih =>
    intro tl tl' st' htl hst h
    have hrest : ∀ t ∈ rest, t.isPending = true := fun t ht => hst t (List.mem_cons_of_mem _ ht)
    have htop : top.isPending = true := hst top (List.mem_cons_self _ _)
    cases top with
    | operator k =>
      rw [popToLeftParenthesisUnchecked_operator] at h
      refine ih _ _ _ ?_ hrest h
      intro t ht
      rcases List.mem_append.mp ht with ht | ht
      · exact htl t ht
      · simp at ht; subst ht; rfl
    | function f =>
      rw [popToLeftParenthesisUnchecked_function] at h
      refine ih _ _ _ ?_ hrest h
      intro t ht
      rcases List.mem_append.mp ht with ht | ht
      · exact htl t ht
      · simp at ht; subst ht; rfl
    | LeftParenthesis =>
      rw [popToLeftParenthesisUnchecked_LeftParenthesis] at h
      simp only [Outcome.returned.injEq, Prod.mk.injEq] at h
      obtain ⟨rfl, rfl⟩ := h
      exact ⟨htl, hst⟩
    | _ => simp [Token.isPending] at htop

/-- One input token keeps executable tokens in the output and pending tokens on the
stack. -/
theorem parseToken_keeps (tok : Token) (tl tl' : TokenList) (st st' : List Token)
    (htl : ∀ t ∈ tl, t.isExecutable = true) (hst : ∀ t ∈ st, t.isPending = true)
    (h : parseToken tl st tok = .returned (tl', st')) :
    (∀ t ∈ tl', t.isExecutable = true) ∧ (∀ t ∈ st', t.isPending = true) := by
  cases tok with
  | operand o =>
    rw [parseToken_operand] at h
    simp only [Outcome.returned.injEq, Prod.mk.injEq] at h
    obtain ⟨rfl, rfl⟩ := h
    refine ⟨?_, hst⟩
    intro t ht
    rcases List.mem_append.mp ht with ht | ht
    · exact htl t ht
    · simp at ht; subst ht; rfl
  | operator op =>
    rw [parseToken_operator] at h
    simp only [Outcome.returned.injEq, Prod.mk.injEq] at h
    obtain ⟨rfl, rfl⟩ := h
    constructor
    · intro t ht
      rcases List.mem_append.mp ht with ht | ht
      · exact htl t ht
      · exact isExecutable_of_mem_takeWhile op st t ht
    · intro t ht
      rcases List.mem_cons.mp ht with rfl | ht
      · rfl
      · exact isPending_of_mem_dropWhile _ st hst t ht
  | function f =>
    rw [parseToken_function] at h
    simp only [Outcome.returned.injEq, Prod.mk.injEq] at h
    obtain ⟨rfl, rfl⟩ := h
    refine ⟨htl, ?_⟩
    intro t ht
    rcases List.mem_cons.mp ht with rfl | ht
    · rfl
    · exact hst t ht
  | LeftParenthesis =>
    rw [parseToken_LeftParenthesis] at h
    simp only [Outcome.returned.injEq, Prod.mk.injEq] at h
    obtain ⟨rfl, rfl⟩ := h
    refine ⟨htl, ?_⟩
    intro t ht
    rcases List.mem_cons.mp ht with rfl | ht
    · rfl
    · exact hst t ht
  | RightParenthesis =>
    rw [parseToken_RightParenthesis] at h
    exact evalRightParenthesis_keeps _ st tl tl' st' htl hst h
  | ArgumentSeparator =>
    rw [parseToken_ArgumentSeparator] at h
    exact popToLeftParenthesisUnchecked_keeps st tl tl' st' htl hst h
  | other u =>
    rw [parseToken_other] at h
    simp at h

theorem parseLoop_keeps (ts : List Token) :
    ∀ (tl tl' : TokenList) (st st' : List Token),
      (∀ t ∈ tl, t.isExecutable = true) → (∀ t ∈ st, t.isPending = true) →
      parseLoop ts tl st = .returned (tl', st') →
      (∀ t ∈ tl', t.isExecutable = true) ∧ (∀ t ∈ st', t.isPending = true) := by
  induction ts with
  | nil =>
    intro tl tl' st st' htl hst h
    simp only [parseLoop_nil, Outcome.returned.injEq, Prod.mk.injEq] at h
    obtain ⟨rfl, rfl⟩ := h
    exact ⟨htl, hst⟩
  | cons tok rest ih =>
    intro tl tl' st st' htl hst h
    rw [parseLoop_cons] at h
    cases hstep : parseToken tl st tok with
    | returned s =>
      rw [hstep] at h
      obtain ⟨h1, h2⟩ := parseToken_keeps tok tl s.1 st s.2 htl hst hstep
      exact ih _ _ _ _ h1 h2 h
    | thrown w => rw [hstep] at h; simp at h
    | undefined => rw [hstep] at h; simp at h

theorem drainStack_keeps (st : List Token) :
    ∀ (tl out : TokenList),
      (∀ t ∈ tl, t.isExecutable = true) → (∀ t ∈ st, t.isPending = true) →
      drainStack tl st = .returned out → ∀ t ∈ out, t.isExecutable = true := by
  induction st with
  | nil =>
    intro tl out htl _ h
    simp only [drainStack_nil, Outcome.returned.injEq] at h
    subst h
    exact htl
  | cons top rest ih =>
    intro tl out htl hst h
    have hrest : ∀ t ∈ rest, t.isPending = true := fun t ht => hst t (List.mem_cons_of_mem _ ht)
    have htop : top.isPending = true := hst top (List.mem_cons_self _ _)
    cases top with
    | operator k =>
      rw [drainStack_operator] at h
      refine ih _ _ ?_ hrest h
      intro t ht
      rcases List.mem_append.mp ht with ht | ht
      · exact htl t ht
      · simp at ht; subst ht; rfl
    | function f =>
      rw [drainStack_function] at h
      refine ih _ _ ?_ hrest h
      intro t ht
      rcases List.mem_append.mp ht with ht | ht
      · exact htl t ht
      · simp at ht; subst ht; rfl
    | LeftParenthesis => rw [drainStack_LeftParenthesis] at h; simp at h
    | _ => simp [Token.isPending] at htop

/-- C8: whenever `Parser::parse` succeeds, every token of its output is an operand, an
operator or a function; no left parenthesis, right parenthesis or argument separator
appears in the returned postfix sequence. -/
theorem C8_output_tokens (infixTokens out : TokenList)
    (h : Parser.parse infixTokens = .returned out) :
    ∀ t ∈ out, t.isExecutable = true ∧ t ≠ .LeftParenthesis ∧ t ≠ .RightParenthesis ∧
      t ≠ .ArgumentSeparator := by
  have hexec : ∀ t ∈ out, t.isExecutable = true := by
    unfold Parser.parse at h
    cases hloop : parseLoop infixTokens [] [] with
    | returned s =>
      rw [hloop] at h
      obtain ⟨h1, h2⟩ := parseLoop_keeps infixTokens [] s.1 [] s.2 (by simp) (by simp) hloop
      exact drainStack_keeps s.2 s.1 out h1 h2 h
    | thrown w => rw [hloop] at h; simp at h
    | undefined => rw [hloop] at h; simp at h
  intro t ht
  have := hexec t ht
  refine ⟨this, ?_, ?_, ?_⟩ <;> rintro rfl <;> simp [Token.isExecutable] at this

/-- C8 on `Max(1+2, 3*4)`, which the converter accepts, at the last token of its
output. -/
theorem C8_output_tokens_witness :
    Parser.parse [.function .Max, .LeftParenthesis, .operand (.Integer 1),
        .operator .Addition, .operand (.Integer 2), .ArgumentSeparator,
        .operand (.Integer 3), .operator .Multiplication, .operand (.Integer 4),
        .RightParenthesis] =
      .returned [.operand (.Integer 1), .operand (.Integer 2), .operator .Addition,
        .operand (.Integer 3), .operand (.Integer 4), .operator .Multiplication,
        .function .Max] ∧
      ((Token.function .Max).isExecutable = true ∧
        Token.function .Max ≠ .LeftParenthesis ∧ Token.function .Max ≠ .RightParenthesis ∧
        Token.function .Max ≠ .ArgumentSeparator) :=
  ⟨by decide,
    C8_output_tokens
      [.function .Max, .LeftParenthesis, .operand (.Integer 1), .operator .Addition,
        .operand (.Integer 2), .ArgumentSeparator, .operand (.Integer 3),
        .operator .Multiplication, .operand (.Integer 4), .RightParenthesis]
      [.operand (.Integer 1), .operand (.Integer 2), .operator .Addition,
        .operand (.Integer 3), .operand (.Integer 4), .operator .Multiplication,
        .function .Max]
      (by decide) (.function .Max) (by decide)⟩

/-! ## Counting the left parentheses on the stack -/

theorem count_dropWhile_popRule (op : OperatorKind) (st : List Token) :
    (st.dropWhile (popRule op)).count .LeftParenthesis = st.count .LeftParenthesis := by
  induction st with
  | nil => rfl
  | cons top rest ih =>
    by_cases hp : popRule op top = true
    · obtain ⟨k, rfl⟩ := popRule_operator_of_true op top hp
      rw [List.dropWhile_cons_of_pos hp, ih]
      simp
    · rw [List.dropWhile_cons_of_neg hp]

/-- A right parenthesis against a stack of pending tokens: it throws when the stack holds
no left parenthesis, and otherwise returns with one left parenthesis fewer. -/
theorem evalRightParenthesis_count (tok : Token) (st : List Token) :
    ∀ tl : TokenList, (∀ t ∈ st, t.isPending = true) →
      (st.count .LeftParenthesis = 0 →
        evalRightParenthesis tl st tok = .thrown "Mismatched parentheses") ∧
      (∀ n, st.count .LeftParenthesis = n + 1 →
        ∃ tl' st', evalRightParenthesis tl st tok = .returned (tl', st') ∧
          st'.count .LeftParenthesis = n) := by
  induction st with
  | nil =>
    intro tl _
    exact ⟨fun _ => rfl, fun n hn => by simp at hn⟩
  | cons top rest ih =>
    intro tl hst
    have hrest : ∀ t ∈ rest, t.isPending = true := fun t ht => hst t (List.mem_cons_of_mem _ ht)
    have htop : top.isPending = true := hst top (List.mem_cons_self _ _)
    cases top with
    | operator k =>
      have hc : (Token.operator k :: rest).count .LeftParenthesis =
          rest.count .LeftParenthesis := by simp
      rw [hc, evalRightParenthesis_operator]
      exact ih _ hrest
    | function f =>
      have hc : (Token.function f :: rest).count .LeftParenthesis =
          rest.count .LeftParenthesis := by simp
      rw [hc, evalRightParenthesis_function]
      exact ih _ hrest
    | LeftParenthesis =>
      refine ⟨fun h0 => by simp at h0, fun n hn => ?_⟩
      have hn' : rest.count .LeftParenthesis = n := by simpa using hn
      cases rest with
      | nil => exact ⟨tl, [], by simp [evalRightParenthesis, popToLeftParenthesis_LeftParenthesis],
          by simpa using hn'⟩
      | cons next rest' =>
        have hnext : next.isPending = true := hrest next (List.mem_cons_self _ _)
        cases next with
        | function f =>
          exact ⟨tl ++ [.function f], rest', evalRightParenthesis_call f tl rest' tok,
            by simpa using hn'⟩
        | operator k =>
          exact ⟨tl, .operator k :: rest',
            evalRightParenthesis_LeftParenthesis tl (.operator k :: rest') tok
              (isFunction_operator k), hn'⟩
        | LeftParenthesis =>
          have hno : noFunctionOnTop (.LeftParenthesis :: rest') := by
            show isFunction .LeftParenthesis = false
            rfl
          exact ⟨tl, .LeftParenthesis :: rest',
            evalRightParenthesis_LeftParenthesis tl (.LeftParenthesis :: rest') tok hno, hn'⟩
        | _ => simp [Token.isPending] at hnext
    | _ => simp [Token.isPending] at htop

theorem pendingLeft_operand (d : Nat) (o : Operand) (rest : List Token) :
    pendingLeft d (.operand o :: rest) = pendingLeft d rest := by
  cases d <;> rfl

theorem pendingLeft_operator (d : Nat) (op : OperatorKind) (rest : List Token) :
    pendingLeft d (.operator op :: rest) = pendingLeft d rest := by
  cases d <;> rfl

theorem pendingLeft_function (d : Nat) (f : FunctionKind) (rest : List Token) :
    pendingLeft d (.function f :: rest) = pendingLeft d rest := by
  cases d <;> rfl

theorem pendingLeft_LeftParenthesis (d : Nat) (rest : List Token) :
    pendingLeft d (.LeftParenthesis :: rest) = pendingLeft (d + 1) rest := by
  cases d <;> rfl

/-- The loop of the converter against the scan of the parentheses: on operands,
operators, functions and parentheses it throws at the first right parenthesis without a
match, and otherwise returns with as many left parentheses pending as the scan counts. -/
theorem parseLoop_pendingLeft (ts : List Token) :
    ∀ (tl : TokenList) (st : List Token), (∀ t ∈ ts, t.isExpressionToken = true) →
      (∀ t ∈ tl, t.isExecutable = true) → (∀ t ∈ st, t.isPending = true) →
      (pendingLeft (st.count .LeftParenthesis) ts = none →
        parseLoop ts tl st = .thrown "Mismatched parentheses") ∧
      (∀ d, pendingLeft (st.count .LeftParenthesis) ts = some d →
        ∃ tl' st', parseLoop ts tl st = .returned (tl', st') ∧
          (∀ t ∈ tl', t.isExecutable = true) ∧ (∀ t ∈ st', t.isPending = true) ∧
          st'.count .LeftParenthesis = d) := by
  induction ts with
  | nil =>
    intro tl st _ htl hst
    refine ⟨fun h => by simp [pendingLeft] at h, fun d hd => ?_⟩
    simp only [pendingLeft, Option.some.injEq] at hd
    exact ⟨tl, st, rfl, htl, hst, hd⟩
  | cons tok rest ih =>
    intro tl st hts htl hst
    have hrest : ∀ t ∈ rest, t.isExpressionToken = true :=
      fun t ht => hts t (List.mem_cons_of_mem _ ht)
    have htok : tok.isExpressionToken = true := hts tok (List.mem_cons_self _ _)
    -- a token that is not a right parenthesis: the step returns, the count is known
    have key : ∀ (tl1 : TokenList) (st1 : List Token) (c : Nat),
        parseToken tl st tok = .returned (tl1, st1) →
        st1.count .LeftParenthesis = c →
        pendingLeft (st.count .LeftParenthesis) (tok :: rest) = pendingLeft c rest →
        (pendingLeft (st.count .LeftParenthesis) (tok :: rest) = none →
          parseLoop (tok :: rest) tl st = .thrown "Mismatched parentheses") ∧
        (∀ d, pendingLeft (st.count .LeftParenthesis) (tok :: rest) = some d →
          ∃ tl' st', parseLoop (tok :: rest) tl st = .returned (tl', st') ∧
            (∀ t ∈ tl', t.isExecutable = true) ∧ (∀ t ∈ st', t.isPending = true) ∧
            st'.count .LeftParenthesis = d) := by
      intro tl1 st1 c hstep hc hscan
      obtain ⟨h1, h2⟩ := parseToken_keeps tok tl tl1 st st1 htl hst hstep
      have := ih tl1 st1 hrest h1 h2
      rw [hc] at this
      rw [hscan, parseLoop_cons, hstep]
      exact this
    cases tok with
    | operand o =>
      exact key _ _ (st.count .LeftParenthesis) (parseToken_operand o tl st) rfl
        (pendingLeft_operand _ o rest)
    | operator op =>
      exact key _ _ (st.count .LeftParenthesis) (parseToken_operator op tl st)
        (by simp [count_dropWhile_popRule]) (pendingLeft_operator _ op rest)
    | function f =>
      exact key _ _ (st.count .LeftParenthesis) (parseToken_function f tl st) (by simp)
        (pendingLeft_function _ f rest)
    | LeftParenthesis =>
      exact key _ _ (st.count .LeftParenthesis + 1) (parseToken_LeftParenthesis tl st)
        (by simp) (pendingLeft_LeftParenthesis _ rest)
    | RightParenthesis =>
      obtain ⟨hzero, hsucc⟩ := evalRightParenthesis_count .RightParenthesis st tl hst
      cases hcount : st.count .LeftParenthesis with
      | zero =>
        refine ⟨fun _ => ?_, fun d hd => by simp [pendingLeft] at hd⟩
        rw [parseLoop_cons, parseToken_RightParenthesis, hzero hcount]
        rfl
      | succ n =>
        obtain ⟨tl1, st1, hstep, hc⟩ := hsucc n hcount
        have := key tl1 st1 n (by rw [parseToken_RightParenthesis]; exact hstep) hc
          (by rw [hcount]; rfl)
        rw [hcount] at this
        exact this
    | ArgumentSeparator => simp [Token.isExpressionToken] at htok
    | other u => simp [Token.isExpressionToken] at htok

/-- The final loop against a stack of pending tokens: it returns when no left parenthesis
is left, and throws otherwise. -/
theorem drainStack_count (st : List Token) :
    ∀ tl : TokenList, (∀ t ∈ st, t.isPending = true) →
      (st.count .LeftParenthesis = 0 → ∃ out, drainStack tl st = .returned out) ∧
      (0 < st.count .LeftParenthesis →
        drainStack tl st = .thrown "Missing right parenthesis") := by
  induction st with
  | nil => intro tl _; exact ⟨fun _ => ⟨tl, rfl⟩, fun h => by simp at h⟩
  | cons top rest ih =>
    intro tl hst
    have hrest : ∀ t ∈ rest, t.isPending = true := fun t ht => hst t (List.mem_cons_of_mem _ ht)
    have htop : top.isPending = true := hst top (List.mem_cons_self _ _)
    cases top with
    | operator k =>
      have hc : (Token.operator k :: rest).count .LeftParenthesis =
          rest.count .LeftParenthesis := by simp
      rw [hc, drainStack_operator]
      exact ih _ hrest
    | function f =>
      have hc : (Token.function f :: rest).count .LeftParenthesis =
          rest.count .LeftParenthesis := by simp
      rw [hc, drainStack_function]
      exact ih _ hrest
    | LeftParenthesis =>
      exact ⟨fun h => by simp at h, fun _ => drainStack_LeftParenthesis tl rest⟩
    | _ => simp [Token.isPending] at htop

/-- C7: on every sequence of operands, operators, functions and parentheses,
`Parser::parse` throws "Mismatched parentheses" when some right parenthesis has no left
parenthesis pending, and throws "Missing right parenthesis" when every right parenthesis
is matched and the sequence ends with a left parenthesis still unmatched. -/
theorem C7_mismatched_parentheses (infixTokens : TokenList)
    (h : ∀ t ∈ infixTokens, t.isExpressionToken = true) :
    (pendingLeft 0 infixTokens = none →
        Parser.parse infixTokens = .thrown "Mismatched parentheses") ∧
      (∀ d, pendingLeft 0 infixTokens = some (d + 1) →
        Parser.parse infixTokens = .thrown "Missing right parenthesis") := by
  obtain ⟨hnone, hsome⟩ :=
    parseLoop_pendingLeft infixTokens [] [] h (by simp) (by simp)
  constructor
  · intro hscan
    simp [Parser.parse, hnone (by simpa using hscan)]
  · intro d hscan
    obtain ⟨tl', st', hloop, _, hst', hc⟩ := hsome (d + 1) (by simpa using hscan)
    simp only [Parser.parse, hloop, Outcome.bind_returned]
    exact (drainStack_count st' tl' hst').2 (by omega)

/-- C7 on `( 1 + 2` and on `1 + 2 )`. -/
theorem C7_mismatched_parentheses_witness :
    Parser.parse [.LeftParenthesis, .operand (.Integer 1), .operator .Addition,
        .operand (.Integer 2)] = .thrown "Missing right parenthesis" ∧
      Parser.parse [.operand (.Integer 1), .operator .Addition, .operand (.Integer 2),
        .RightParenthesis] = .thrown "Mismatched parentheses" :=
  ⟨(C7_mismatched_parentheses [.LeftParenthesis, .operand (.Integer 1), .operator .Addition,
      .operand (.Integer 2)] (by decide)).2 0 rfl,
    (C7_mismatched_parentheses [.operand (.Integer 1), .operator .Addition,
      .operand (.Integer 2), .RightParenthesis] (by decide)).1 rfl⟩

/-! ## Operators above a marker on the stack -/

theorem popRule_of_not_operator (op : OperatorKind) (t : Token)
    (h : ∀ k, t ≠ .operator k) : popRule op t = false := by
  cases hp : popRule op t with
  | false => rfl
  | true =>
    obtain ⟨k, rfl⟩ := popRule_operator_of_true op t hp
    exact absurd rfl (h k)

theorem takeWhile_append_marker (p : Token → Bool) (base : List Token)
    (hbase : ∀ b rest, base = b :: rest → p b = false) (s : List Token) :
    (s ++ base).takeWhile p = s.takeWhile p ∧
      (s ++ base).dropWhile p = s.dropWhile p ++ base := by
  induction s with
  | nil =>
    cases base with
    | nil => simp
    | cons b rest =>
      have := hbase b rest rfl
      simp [List.takeWhile, List.dropWhile, this]
  | cons x s ih =>
    by_cases hx : p x = true
    · simp [List.takeWhile, List.dropWhile, hx, ih.1, ih.2]
    · have hx' : p x = false := by simpa using hx
      simp [List.takeWhile, List.dropWhile, hx']

theorem drainStack_operators (s : List Token) (hs : ∀ t ∈ s, ∃ k, t = Token.operator k) :
    ∀ tl : TokenList, drainStack tl s = .returned (tl ++ s) := by
  induction s with
  | nil => intro tl; simp [drainStack_nil]
  | cons x s ih =>
    intro tl
    obtain ⟨k, rfl⟩ := hs x (List.mem_cons_self _ _)
    rw [drainStack_operator, ih (fun t ht => hs t (List.mem_cons_of_mem _ ht))]
    simp

theorem evalRightParenthesis_operators (tok : Token) (rest : List Token) (s : List Token)
    (hs : ∀ t ∈ s, ∃ k, t = Token.operator k) :
    ∀ tl : TokenList,
      evalRightParenthesis tl (s ++ rest) tok = evalRightParenthesis (tl ++ s) rest tok := by
  induction s with
  | nil => intro tl; simp
  | cons x s ih =>
    intro tl
    obtain ⟨k, rfl⟩ := hs x (List.mem_cons_self _ _)
    rw [List.cons_append, evalRightParenthesis_operator,
      ih (fun t ht => hs t (List.mem_cons_of_mem _ ht))]
    simp

theorem popToLeftParenthesisUnchecked_operators (rest : List Token) (s : List Token)
    (hs : ∀ t ∈ s, ∃ k, t = Token.operator k) :
    ∀ tl : TokenList,
      popToLeftParenthesisUnchecked tl (s ++ .LeftParenthesis :: rest) =
        .returned (tl ++ s, .LeftParenthesis :: rest) := by
  induction s with
  | nil => intro tl; simp [popToLeftParenthesisUnchecked_LeftParenthesis]
  | cons x s ih =>
    intro tl
    obtain ⟨k, rfl⟩ := hs x (List.mem_cons_self _ _)
    rw [List.cons_append, popToLeftParenthesisUnchecked_operator,
      ih (fun t ht => hs t (List.mem_cons_of_mem _ ht))]
    simp

/-- Operands and operators above a marker: what the loop emits and what it leaves above
the marker depend neither on the output so far nor on what lies at and below the marker,
as long as the marker is not an operator. -/
theorem parseLoop_above_marker (ts : List Token)
    (hts : ∀ t ∈ ts, t.isOperandOrOperator = true) :
    ∀ s : List Token, (∀ t ∈ s, ∃ k, t = Token.operator k) →
      ∃ (out : TokenList) (s' : List Token), (∀ t ∈ s', ∃ k, t = Token.operator k) ∧
        ∀ (tl : TokenList) (base : List Token),
          (∀ b rest k, base = b :: rest → b ≠ .operator k) →
          parseLoop ts tl (s ++ base) = .returned (tl ++ out, s' ++ base) := by
  induction ts with
  | nil =>
    intro s hs
    exact ⟨[], s, hs, fun tl base _ => by simp⟩
  | cons tok rest ih =>
    intro s hs
    have hrest : ∀ t ∈ rest, t.isOperandOrOperator = true :=
      fun t ht => hts t (List.mem_cons_of_mem _ ht)
    have htok : tok.isOperandOrOperator = true := hts tok (List.mem_cons_self _ _)
    cases tok with
    | operand o =>
      obtain ⟨out, s', hs', hrun⟩ := ih hrest s hs
      refine ⟨.operand o :: out, s', hs', fun tl base hbase => ?_⟩
      rw [parseLoop_cons, parseToken_operand, Outcome.bind_returned, hrun _ _ hbase]
      simp
    | operator op =>
      have hs1 : ∀ t ∈ Token.operator op :: s.dropWhile (popRule op),
          ∃ k, t = Token.operator k := by
        intro t ht
        rcases List.mem_cons.mp ht with rfl | ht
        · exact ⟨op, rfl⟩
        · exact hs t ((List.dropWhile_suffix _).subset ht)
      obtain ⟨out, s', hs', hrun⟩ := ih hrest _ hs1
      refine ⟨s.takeWhile (popRule op) ++ out, s', hs', fun tl base hbase => ?_⟩
      have hmark := takeWhile_append_marker (popRule op) base
        (fun b rest' hb => popRule_of_not_operator op b (fun k => hbase b rest' k hb)) s
      rw [parseLoop_cons, parseToken_operator, Outcome.bind_returned, hmark.1, hmark.2]
      have := hrun (tl ++ s.takeWhile (popRule op)) base hbase
      simp only [List.cons_append, List.append_assoc] at this ⊢
      exact this
    | _ => simp [Token.isOperandOrOperator] at htok

/-- C9: function-call grouping. For a function token f and sequences A and B of operands
and operators, the converter accepts A and B on their own, turns `f ( A )` into the
conversion of A followed by f, and turns `f ( A , B )` into the conversion of A, the
conversion of B, then f. -/
theorem C9_function_call (f : FunctionKind) (A B : TokenList)
    (hA : ∀ t ∈ A, t.isOperandOrOperator = true)
    (hB : ∀ t ∈ B, t.isOperandOrOperator = true) :
    ∃ outA outB : TokenList,
      Parser.parse A = .returned outA ∧ Parser.parse B = .returned outB ∧
      Parser.parse ([.function f, .LeftParenthesis] ++ A ++ [.RightParenthesis]) =
        .returned (outA ++ [.function f]) ∧
      Parser.parse ([.function f, .LeftParenthesis] ++ A ++ [.ArgumentSeparator] ++ B ++
          [.RightParenthesis]) = .returned (outA ++ outB ++ [.function f]) := by
  obtain ⟨outA, sA, hsA, hrunA⟩ := parseLoop_above_marker A hA [] (by simp)
  obtain ⟨outB, sB, hsB, hrunB⟩ := parseLoop_above_marker B hB [] (by simp)
  have hmarker : ∀ (b : Token) (rest : List Token) (k : OperatorKind),
      [Token.LeftParenthesis, Token.function f] = b :: rest → b ≠ .operator k := by
    intro b rest k hb
    simp only [List.cons.injEq] at hb
    rw [← hb.1]
    simp
  have hempty : ∀ (b : Token) (rest : List Token) (k : OperatorKind),
      ([] : List Token) = b :: rest → b ≠ .operator k := by
    intro b rest k hb
    simp at hb
  refine ⟨outA ++ sA, outB ++ sB, ?_, ?_, ?_, ?_⟩
  · have := hrunA [] [] hempty
    simp only [List.nil_append, List.append_nil] at this
    simp [Parser.parse, this, drainStack_operators sA hsA]
  · have := hrunB [] [] hempty
    simp only [List.nil_append, List.append_nil] at this
    simp [Parser.parse, this, drainStack_operators sB hsB]
  · have hA' := hrunA [] [.LeftParenthesis, .function f] hmarker
    simp only [List.nil_append] at hA'
    simp only [Parser.parse, List.cons_append, List.nil_append, parseLoop_cons,
      parseToken_function, parseToken_LeftParenthesis, Outcome.bind_returned, parseLoop_append,
      hA', parseToken_RightParenthesis, evalRightParenthesis_operators _ _ sA hsA,
      evalRightParenthesis_call, parseLoop_nil, drainStack_nil, List.append_assoc]
  · have hA' := hrunA [] [.LeftParenthesis, .function f] hmarker
    have hB' := hrunB (outA ++ sA) [.LeftParenthesis, .function f] hmarker
    simp only [List.nil_append] at hA' hB'
    simp only [Parser.parse, List.cons_append, List.nil_append, parseLoop_cons,
      parseToken_function, parseToken_LeftParenthesis, Outcome.bind_returned, parseLoop_append,
      hA', hB', parseToken_ArgumentSeparator, popToLeftParenthesisUnchecked_operators _ sA hsA,
      parseToken_RightParenthesis, evalRightParenthesis_operators _ _ sB hsB,
      evalRightParenthesis_call, parseLoop_nil, drainStack_nil, List.append_assoc]

/-- C9 on `Max(1+2, 3*4)`: the conversion is `1 2 + 3 4 * Max`. -/
theorem C9_function_call_witness :
    (∃ outA outB : TokenList,
      Parser.parse [.operand (.Integer 1), .operator .Addition, .operand (.Integer 2)] =
        .returned outA ∧
      Parser.parse [.operand (.Integer 3), .operator .Multiplication, .operand (.Integer 4)] =
        .returned outB ∧
      Parser.parse ([.function .Max, .LeftParenthesis] ++
          [.operand (.Integer 1), .operator .Addition, .operand (.Integer 2)] ++
          [.RightParenthesis]) = .returned (outA ++ [.function .Max]) ∧
      Parser.parse ([.function .Max, .LeftParenthesis] ++
          [.operand (.Integer 1), .operator .Addition, .operand (.Integer 2)] ++
          [.ArgumentSeparator] ++
          [.operand (.Integer 3), .operator .Multiplication, .operand (.Integer 4)] ++
          [.RightParenthesis]) = .returned (outA ++ outB ++ [.function .Max])) ∧
      Parser.parse [.function .Max, .LeftParenthesis, .operand (.Integer 1),
          .operator .Addition, .operand (.Integer 2), .ArgumentSeparator,
          .operand (.Integer 3), .operator .Multiplication, .operand (.Integer 4),
          .RightParenthesis] =
        .returned [.operand (.Integer 1), .operand (.Integer 2), .operator .Addition,
          .operand (.Integer 3), .operand (.Integer 4), .operator .Multiplication,
          .function .Max] :=
  ⟨C9_function_call .Max
      [.operand (.Integer 1), .operator .Addition, .operand (.Integer 2)]
      [.operand (.Integer 3), .operator .Multiplication, .operand (.Integer 4)]
      (by decide) (by decide),
    by decide⟩

/-! ## Tokens outside the catalogue -/

/-- C10, as stated, fails: a right parenthesis with no left parenthesis pending comes
before the unregistered token, and the converter throws "Mismatched parentheses", not the
unknown-token error. -/
theorem C10_counterexample :
    Token.other bitAndToken ∈ [Token.RightParenthesis, Token.other bitAndToken] ∧
      Parser.parse [.RightParenthesis, .other bitAndToken] =
        .thrown "Mismatched parentheses" ∧
      Parser.parse [.RightParenthesis, .other bitAndToken] ≠
        .thrown ("Unknown token: " ++ bitAndToken.name) := by
  decide

/-- C10, amended: when the conversion loop gets through the tokens before a token that is
not an operand, not a function and has no registered name, `Parser::parse` throws the
unknown-token error naming that token; when those earlier tokens already make the loop
throw, that earlier error is what `Parser::parse` throws. -/
theorem C10_unknown_token (before after : TokenList) (u : UnknownToken) :
    (∀ (tl : TokenList) (st : List Token), parseLoop before [] [] = .returned (tl, st) →
        Parser.parse (before ++ .other u :: after) = .thrown ("Unknown token: " ++ u.name)) ∧
      (∀ what : String, parseLoop before [] [] = .thrown what →
        Parser.parse (before ++ .other u :: after) = .thrown what) := by
  constructor
  · intro tl st h
    simp [Parser.parse, parseLoop_append, h, parseToken_other]
  · intro what h
    simp [Parser.parse, parseLoop_append, h]

/-- C10, amended, on `1 + <BitAnd>` and on `) <BitAnd>`. -/
theorem C10_unknown_token_witness :
    Parser.parse [.operand (.Integer 1), .operator .Addition, .other bitAndToken] =
        .thrown "Unknown token: <BitAnd>" ∧
      Parser.parse [.RightParenthesis, .other bitAndToken] =
        .thrown "Mismatched parentheses" :=
  ⟨(C10_unknown_token [.operand (.Integer 1), .operator .Addition] [] bitAndToken).1
      [.operand (.Integer 1)] [.operator .Addition] (by decide),
    (C10_unknown_token [.RightParenthesis] [] bitAndToken).2 "Mismatched parentheses"
      (by decide)⟩

/-! ## Operators and functions reached with too few operands -/

/-- C11, the code at the failing inputs: `Subtraction` reached with one operand leaves the
stack as it is and `evaluate` returns that operand; `Addition` reached with one operand and
`Assignment` reached with none pass their size test (or have none) and read the top of an
empty stack. Nothing is thrown in any of the three, and on an empty stack the `perform` of
every operator but `Assignment` returns without an error. -/
theorem C11_short_stack (rt : Runtime) (store : Store) :
    RPNEvaluator.evaluate rt [.operand (.Integer 5), .operator .Subtraction] store =
        .returned (.Integer 5, store) ∧
      RPNEvaluator.evaluate rt [.operand (.Integer 5), .operator .Addition] store =
        .undefined ∧
      RPNEvaluator.evaluate rt [.operator .Assignment] store = .undefined ∧
      ∀ op : OperatorKind,
        op.perform rt [] store =
          if op = .Assignment then .undefined else .returned ([], store) := by
  refine ⟨rfl, rfl, rfl, ?_⟩
  intro op
  cases op <;> rfl

/-- C12: arity enforcement for functions. When a function token is reached with fewer
operands on the stack than its `number_of_args()`, the loop throws "Error: insufficient
operands for operator" in place of calling the function's `perform`, and so does
`evaluate` for every postfix sequence whose tokens before the function leave such a
stack. -/
theorem C12_function_arity (rt : Runtime) (f : FunctionKind) (before after : TokenList)
    (store store' : Store) (operandStack : List Operand)
    (hloop : evaluateLoop rt before [] store = .returned (operandStack, store'))
    (hshort : operandStack.length < f.number_of_args) :
    evaluateLoop rt (.function f :: after) operandStack store' =
        .thrown "Error: insufficient operands for operator" ∧
      RPNEvaluator.evaluate rt (before ++ .function f :: after) store =
        .thrown "Error: insufficient operands for operator" := by
  have hstep : evaluateLoop rt (.function f :: after) operandStack store' =
      .thrown "Error: insufficient operands for operator" := by
    simp [evaluateLoop, hshort]
  refine ⟨hstep, ?_⟩
  have hne : (before ++ Token.function f :: after).isEmpty = false := by
    cases before <;> rfl
  simp [RPNEvaluator.evaluate, hne, evaluateLoop_append, hloop, hstep]

/-- C12 on `5 Max`: `Max` takes two arguments and finds one. -/
theorem C12_function_arity_witness :
    evaluateLoop exampleRuntime [.function .Max] [.Integer 5] [] =
        .thrown "Error: insufficient operands for operator" ∧
      RPNEvaluator.evaluate exampleRuntime ([.operand (.Integer 5)] ++ [.function .Max]) [] =
        .thrown "Error: insufficient operands for operator" :=
  C12_function_arity exampleRuntime .Max [.operand (.Integer 5)] [] [] [] [.Integer 5] rfl
    (by decide)

/-! ## Stack balance -/

theorem evaluateLoop_operands (rt : Runtime) (operands : List Operand) :
    ∀ (operandStack : List Operand) (store : Store),
      evaluateLoop rt (operands.map Token.operand) operandStack store =
        .returned (operands.reverse ++ operandStack, store) := by
  induction operands with
  | nil => intro operandStack store; rfl
  | cons o rest ih =>
    intro operandStack store
    simp [evaluateLoop, ih]

/-- C13: stack balance. The postfix forms of two expressions (Integer leaves; Addition,
Subtraction, Multiplication nodes) one after the other make `evaluate` throw "Error: too
many operands", and so does every sequence of two or more operands with no operator. -/
theorem C13_stack_balance (rt : Runtime) (store : Store) :
    (∀ p q : IntegerExpression,
        RPNEvaluator.evaluate rt (p.postorder ++ q.postorder) store =
          .thrown "Error: too many operands") ∧
      (∀ operands : List Operand, 2 ≤ operands.length →
        RPNEvaluator.evaluate rt (operands.map Token.operand) store =
          .thrown "Error: too many operands") := by
  constructor
  · intro p q
    have hne : (p.postorder ++ q.postorder).isEmpty = false := by
      cases h : p.postorder with
      | nil => exact absurd h (postorder_ne_nil p)
      | cons _ _ => rfl
    simp [RPNEvaluator.evaluate, hne, evaluateLoop_append, evaluateLoop_postorder]
  · intro operands hlen
    match operands, hlen with
    | a :: b :: rest, _ =>
      have hrev : ∃ x y zs, (a :: b :: rest).reverse = x :: y :: zs := by
        cases h : (a :: b :: rest).reverse with
        | nil => simp at h
        | cons x tl =>
          cases tl with
          | nil =>
            have := congrArg List.length h
            simp at this
          | cons y zs => exact ⟨x, y, zs, rfl⟩
      obtain ⟨x, y, zs, hxy⟩ := hrev
      have hloop := evaluateLoop_operands rt (a :: b :: rest) [] store
      rw [hxy] at hloop
      simp only [List.append_nil] at hloop
      simp only [RPNEvaluator.evaluate, hloop, Outcome.bind_returned]
      simp

/-- C13 on `1 2 +` followed by `3`, and on the two operands `1 2`. -/
theorem C13_stack_balance_witness :
    RPNEvaluator.evaluate exampleRuntime
        ((IntegerExpression.node .Addition (.leaf 1) (.leaf 2)).postorder ++
          (IntegerExpression.leaf 3).postorder) [] = .thrown "Error: too many operands" ∧
      RPNEvaluator.evaluate exampleRuntime
        ([Operand.Integer 1, Operand.Integer 2].map Token.operand) [] =
          .thrown "Error: too many operands" :=
  ⟨(C13_stack_balance exampleRuntime []).1 (.node .Addition (.leaf 1) (.leaf 2)) (.leaf 3),
    (C13_stack_balance exampleRuntime []).2 [.Integer 1, .Integer 2] (by decide)⟩

/-! ## Numeric promotion, operand order, comparisons -/

theorem Real.digits10_bound : (1000 : Int) ≤ 10 ^ Real.digits10 := by
  have h : (10 : Int) ^ 3 ≤ 10 ^ Real.digits10 :=
    pow_le_pow_right₀ (by norm_num) (by decide)
  calc (1000 : Int) = 10 ^ 3 := by norm_num
    _ ≤ 10 ^ Real.digits10 := h

/-- A whole number below 1000 in magnitude, times a power of ten with an exponent of at
most 1000 in magnitude, is a value the decimal float holds exactly. -/
theorem Real.representable_small (m k : Int) (h : |m| < 1000) (hk : |k| ≤ 1000) :
    Real.representable (m * (10 : Rat) ^ k) :=
  ⟨m, k, lt_of_lt_of_le h Real.digits10_bound,
    le_trans hk (by simp [Real.exponent_bound]), rfl⟩

theorem Real.representable_intCast (n : Int) (h : |n| < 1000) :
    Real.representable (n : Rat) := by
  simpa using Real.representable_small n 0 h (by decide)

theorem Runtime.convert_zero (rt : Runtime) : rt.convert 0 = 0 := by
  simpa using rt.convert_exact 0 (Real.representable_intCast 0 (by decide))

/-- What an arithmetic operator does to two operands of which at least one is a `Real`:
both are converted with `toRealValue` and the `Real` the operation of the decimal float
gives is pushed. -/
theorem perform_arithmetic_real (rt : Runtime) (op : ArithmeticOperator) (x y : Numeric)
    (hreal : (∃ r, x = .Real r) ∨ (∃ s, y = .Real s)) (stack : List Operand) (store : Store) :
    op.toOperator.perform rt (y.toOperand :: x.toOperand :: stack) store =
      .returned (.Real (op.applyRounded rt (x.toReal rt) (y.toReal rt)) :: stack, store) := by
  cases op <;> cases x <;> cases y <;>
    first
    | rfl
    | (exfalso; rcases hreal with ⟨r, h⟩ | ⟨s, h⟩ <;> cases h)

/-- The cast of an `Integer` operand is exact when the decimal float holds its value. -/
theorem Numeric.toReal_eq_value (rt : Runtime) (x : Numeric)
    (hx : Real.representable x.value) (hreal : ∀ a, x = .Integer a → Real.representable a) :
    x.toReal rt = x.value := by
  cases x with
  | Integer a => exact rt.convert_exact a (hreal a rfl)
  | Real r => rfl

/-- The operation of the decimal float is exact when the operands and the exact result
are values it holds. -/
theorem ArithmeticOperator.applyRounded_exact (rt : Runtime) (op : ArithmeticOperator)
    (p q : Rat) (hp : Real.representable p) (hq : Real.representable q)
    (hresult : Real.representable (op.applyReal p q)) :
    op.applyRounded rt p q = op.applyReal p q := by
  cases op
  · exact rt.add_exact p q hp hq hresult
  · exact rt.sub_exact p q hp hq hresult
  · exact rt.mul_exact p q hp hq hresult

/-- C14: numeric promotion. For Addition, Subtraction and Multiplication, two Integer
operands give the Integer holding the exact result. An Integer with a Real, a Real with
an Integer, or two Reals give a Real, whichever side the Real is on: both operands are
converted to Real and the operation of the decimal float is applied to the converted
values; the Real is the exact result whenever the operands and the exact result have at
most 1000 significant digits. Integer 2 + Integer 3 is Integer 5 and Integer 2 + Real 3.5
is Real 5.5. -/
theorem C14_numeric_promotion (rt : Runtime) (store : Store) (op : ArithmeticOperator) :
    (∀ a b : Int,
        RPNEvaluator.evaluate rt
          [.operand (.Integer a), .operand (.Integer b), .operator op.toOperator] store =
          .returned (.Integer (op.apply a b), store)) ∧
      (∀ (a : Int) (s : Rat),
        RPNEvaluator.evaluate rt
          [.operand (.Integer a), .operand (.Real s), .operator op.toOperator] store =
          .returned (.Real (op.applyRounded rt (rt.convert a) s), store)) ∧
      (∀ (r : Rat) (b : Int),
        RPNEvaluator.evaluate rt
          [.operand (.Real r), .operand (.Integer b), .operator op.toOperator] store =
          .returned (.Real (op.applyRounded rt r (rt.convert b)), store)) ∧
      (∀ r s : Rat,
        RPNEvaluator.evaluate rt
          [.operand (.Real r), .operand (.Real s), .operator op.toOperator] store =
          .returned (.Real (op.applyRounded rt r s), store)) ∧
      (∀ x y : Numeric, ((∃ r, x = .Real r) ∨ (∃ s, y = .Real s)) →
        Real.representable x.value → Real.representable y.value →
        Real.representable (op.applyReal x.value y.value) →
        RPNEvaluator.evaluate rt
          [.operand x.toOperand, .operand y.toOperand, .operator op.toOperator] store =
          .returned (.Real (op.applyReal x.value y.value), store)) ∧
      RPNEvaluator.evaluate rt
          [.operand (.Integer 2), .operand (.Integer 3), .operator .Addition] store =
        .returned (.Integer 5, store) ∧
      RPNEvaluator.evaluate rt
          [.operand (.Integer 2), .operand (.Real 3.5), .operator .Addition] store =
        .returned (.Real 5.5, store) := by
  have hany : ∀ (op : ArithmeticOperator) (x y : Numeric),
      ((∃ r, x = .Real r) ∨ (∃ s, y = .Real s)) →
      RPNEvaluator.evaluate rt
        [.operand x.toOperand, .operand y.toOperand, .operator op.toOperator] store =
        .returned (.Real (op.applyRounded rt (x.toReal rt) (y.toReal rt)), store) := by
    intro op x y h
    simp [RPNEvaluator.evaluate, evaluateLoop, perform_arithmetic_real rt op x y h]
  have hexact : ∀ (op : ArithmeticOperator) (x y : Numeric),
      ((∃ r, x = .Real r) ∨ (∃ s, y = .Real s)) →
      Real.representable x.value → Real.representable y.value →
      Real.representable (op.applyReal x.value y.value) →
      RPNEvaluator.evaluate rt
        [.operand x.toOperand, .operand y.toOperand, .operator op.toOperator] store =
        .returned (.Real (op.applyReal x.value y.value), store) := by
    intro op x y h hx hy hresult
    rw [hany op x y h, Numeric.toReal_eq_value rt x hx (fun a ha => by rw [ha] at hx; exact hx),
      Numeric.toReal_eq_value rt y hy (fun b hb => by rw [hb] at hy; exact hy),
      ArithmeticOperator.applyRounded_exact rt op _ _ hx hy hresult]
  have hreal := hany op
  refine ⟨?_, ?_, ?_, ?_, hexact op, ?_, ?_⟩
  · intro a b
    simp [RPNEvaluator.evaluate, evaluateLoop, perform_arithmetic]
  · intro a s
    exact hreal (.Integer a) (.Real s) (Or.inr ⟨s, rfl⟩)
  · intro r b
    exact hreal (.Real r) (.Integer b) (Or.inl ⟨r, rfl⟩)
  · intro r s
    exact hreal (.Real r) (.Real s) (Or.inl ⟨r, rfl⟩)
  · rfl
  · have h2 : Real.representable (Numeric.Integer 2).value :=
      Real.representable_intCast 2 (by decide)
    have h35 : Real.representable (Numeric.Real 3.5).value := by
      have := Real.representable_small 35 (-1) (by decide) (by decide)
      have hv : ((35 : Int) : Rat) * (10 : Rat) ^ (-1 : Int) = 3.5 := by norm_num
      rw [hv] at this
      exact this
    have hsum : ArithmeticOperator.Addition.applyReal (Numeric.Integer 2).value
        (Numeric.Real 3.5).value = 5.5 := by
      simp only [ArithmeticOperator.applyReal, Numeric.value]
      norm_num
    have h55 : Real.representable
        (ArithmeticOperator.Addition.applyReal (Numeric.Integer 2).value
          (Numeric.Real 3.5).value) := by
      rw [hsum]
      have := Real.representable_small 55 (-1) (by decide) (by decide)
      have hv : ((55 : Int) : Rat) * (10 : Rat) ^ (-1 : Int) = 5.5 := by norm_num
      rw [hv] at this
      exact this
    have h := hexact .Addition (.Integer 2) (.Real 3.5) (Or.inr ⟨_, rfl⟩) h2 h35 h55
    rw [hsum] at h
    exact h

theorem Real.representable_two_times_three :
    Real.representable
      (ArithmeticOperator.Multiplication.applyReal (Numeric.Integer 2).value
        (Numeric.Real 3).value) := by
  have h := Real.representable_intCast 6 (by decide)
  have hv : ((6 : Int) : Rat) =
      ArithmeticOperator.Multiplication.applyReal (Numeric.Integer 2).value
        (Numeric.Real 3).value := by
    simp only [ArithmeticOperator.applyReal, Numeric.value]
    norm_num
  rw [hv] at h
  exact h

/-- C14 on Integer 2 and Real 3: both have one significant digit, and so has the exact
product 6, which is the Real returned. -/
theorem C14_numeric_promotion_witness :
    Real.representable (Numeric.Integer 2).value ∧
      Real.representable (Numeric.Real 3).value ∧
      Real.representable
        (ArithmeticOperator.Multiplication.applyReal (Numeric.Integer 2).value
          (Numeric.Real 3).value) ∧
      RPNEvaluator.evaluate exampleRuntime
        [.operand (Numeric.Integer 2).toOperand, .operand (Numeric.Real 3).toOperand,
          .operator ArithmeticOperator.Multiplication.toOperator] [] =
        .returned (.Real (ArithmeticOperator.Multiplication.applyReal
          (Numeric.Integer 2).value (Numeric.Real 3).value), []) :=
  ⟨Real.representable_intCast 2 (by decide),
    Real.representable_intCast 3 (by decide),
    Real.representable_two_times_three,
    (C14_numeric_promotion exampleRuntime [] .Multiplication).2.2.2.2.1
      (.Integer 2) (.Real 3) (Or.inr ⟨3, rfl⟩)
      (Real.representable_intCast 2 (by decide))
      (Real.representable_intCast 3 (by decide))
      Real.representable_two_times_three⟩

/-- C15: operand order. In `a b Subtraction` the second-pushed value is the right-hand
operand: the result is Integer (a - b); on any stack the operation removes the two top
entries, pushes one, and leaves the entries below as they were. -/
theorem C15_operand_order (rt : Runtime) (store : Store) (a b : Int) :
    RPNEvaluator.evaluate rt
        [.operand (.Integer a), .operand (.Integer b), .operator .Subtraction] store =
        .returned (.Integer (a - b), store) ∧
      ∀ below : List Operand,
        OperatorKind.Subtraction.perform rt (.Integer b :: .Integer a :: below) store =
          .returned (.Integer (a - b) :: below, store) :=
  ⟨rfl, fun _ => rfl⟩

/-- The truncation of the example runtime keeps at most `digits10 + 1` digits: of the
whole number 10^n + 1 with n above `digits10` it drops the last digit. -/
theorem Real.truncate_drops_digit (n : Nat) (hn : Real.digits10 < n) :
    Real.truncate (((10 ^ n + 1 : Int)) : Rat) = (10 : Rat) ^ n := by
  have hten : (10 : Rat) ≠ 0 := by norm_num
  have hnum : (((10 ^ n + 1 : Int)) : Rat).num = 10 ^ n + 1 := Rat.num_intCast _
  have hden : (((10 ^ n + 1 : Int)) : Rat).den = 1 := Rat.den_intCast _
  have hlog : Nat.log 10 (10 ^ n + 1 : Int).natAbs = n := by
    have : (10 ^ n + 1 : Int).natAbs = 10 ^ n + 1 := by
      have h : (10 ^ n + 1 : Int) = ((10 ^ n + 1 : Nat) : Int) := by push_cast; ring
      rw [h, Int.natAbs_ofNat]
    rw [this]
    apply Nat.log_eq_of_pow_le_of_lt_pow
    · exact Nat.le_add_right _ _
    · rw [pow_succ]
      have : 0 < 10 ^ n := by positivity
      omega
  have hneg : (Real.digits10 : Int) - n < 0 := by omega
  have hshift : ((Real.digits10 : Int) + (Nat.log 10 1 : Nat) - (n : Nat)) =
      (Real.digits10 : Int) - n := by
    simp
  have hsmall : (0 : Rat) < (10 : Rat) ^ ((Real.digits10 : Int) - n) ∧
      (10 : Rat) ^ ((Real.digits10 : Int) - n) < 1 := by
    constructor
    · positivity
    · exact zpow_lt_one_of_neg₀ (by norm_num) hneg
  have hprod : (((10 ^ n + 1 : Int)) : Rat) * (10 : Rat) ^ ((Real.digits10 : Int) - n) =
      ((10 ^ Real.digits10 : Int) : Rat) + (10 : Rat) ^ ((Real.digits10 : Int) - n) := by
    have h1 : (10 : Rat) ^ n * (10 : Rat) ^ ((Real.digits10 : Int) - n) =
        (10 : Rat) ^ Real.digits10 := by
      rw [← zpow_natCast, ← zpow_add₀ hten, ← zpow_natCast]
      congr 1
      omega
    push_cast
    rw [add_mul, h1, one_mul]
  have hfloor :
      ((((10 ^ n + 1 : Int)) : Rat) * (10 : Rat) ^ ((Real.digits10 : Int) - n)).floor =
        10 ^ Real.digits10 := by
    rw [hprod]
    show ⌊((10 ^ Real.digits10 : Int) : Rat) + (10 : Rat) ^ ((Real.digits10 : Int) - n)⌋ =
      10 ^ Real.digits10
    rw [Int.floor_eq_iff]
    constructor
    · linarith [hsmall.1]
    · linarith [hsmall.2]
  have hpos : (0 : Rat) ≤ ((10 ^ n + 1 : Int) : Rat) := by positivity
  simp only [Real.truncate, hnum, hden, hlog, hshift, hfloor, hpos, if_true]
  push_cast
  rw [div_eq_iff (zpow_ne_zero _ hten), ← zpow_natCast, ← zpow_natCast (10 : Rat) n,
    ← zpow_add₀ hten]
  congr 1
  omega

/-- What a comparison does to an Integer on the left of a Real and to a Real on the left of
an Integer: the Integer is converted with `toRealValue` and the two `Real` values are
compared. -/
theorem evaluate_comparison_mixed (rt : Runtime) (store : Store) (cmp : ComparisonOperator) :
    (∀ (a : Int) (s : Rat),
        RPNEvaluator.evaluate rt
          [.operand (.Integer a), .operand (.Real s), .operator cmp.toOperator] store =
          .returned (.Boolean (cmp.holds (rt.convert a) s), store)) ∧
      (∀ (r : Rat) (b : Int),
        RPNEvaluator.evaluate rt
          [.operand (.Real r), .operand (.Integer b), .operator cmp.toOperator] store =
          .returned (.Boolean (cmp.holds r (rt.convert b)), store)) := by
  constructor
  · intro a s
    cases cmp <;>
      simp [RPNEvaluator.evaluate, evaluateLoop, OperatorKind.perform,
        OperatorKind.performOnStack, ComparisonOperator.toOperator,
        ComparisonOperator.holds, unlessShort, virtualCall, castOrReal,
        toRealValue, Operand.asInteger, Operand.asReal,
        Real.perform_Less, Real.perform_LessEqual, Real.perform_Greater,
        Real.perform_GreaterEqual, Real.perform_Equality, Real.perform_Inequality]
  · intro r b
    cases cmp <;>
      simp [RPNEvaluator.evaluate, evaluateLoop, OperatorKind.perform,
        OperatorKind.performOnStack, ComparisonOperator.toOperator,
        ComparisonOperator.holds, unlessShort, virtualCall, castOrReal,
        toRealValue, Operand.asInteger, Operand.asReal,
        Integer.perform_Less, Integer.perform_LessEqual, Integer.perform_Greater,
        Integer.perform_GreaterEqual, Integer.perform_Equality, Integer.perform_Inequality]

/-- C16, as stated, fails: the Integer 10^1500 + 1 and the Real 10^1500 differ, but the
cast of the Integer to the decimal float drops its last digit (here with the truncation
of the example runtime, which keeps at most 1001 digits), so `Equality` compares 10^1500
with 10^1500 and `evaluate` returns Boolean true. -/
theorem C16_counterexample :
    RPNEvaluator.evaluate exampleRuntime
        [.operand (.Integer (10 ^ 1500 + 1)), .operand (.Real (10 ^ 1500)),
          .operator ComparisonOperator.Equality.toOperator] [] =
        .returned (.Boolean true, []) ∧
      ComparisonOperator.Equality.holds (Numeric.Integer (10 ^ 1500 + 1)).value
        (Numeric.Real (10 ^ 1500)).value = false := by
  constructor
  · rw [(evaluate_comparison_mixed exampleRuntime [] .Equality).1]
    have hconvert : exampleRuntime.convert (10 ^ 1500 + 1) = (10 : Rat) ^ 1500 :=
      Real.truncate_drops_digit 1500 (by decide)
    rw [hconvert]
    simp only [ComparisonOperator.holds, decide_True]
  · have hne : ((10 ^ 1500 + 1 : Int) : Rat) ≠ (10 : Rat) ^ 1500 := by
      push_cast
      exact (lt_add_one _).ne'
    simp only [ComparisonOperator.holds, Numeric.value]
    exact decide_eq_false hne

/-- C16, amended: for numeric operands x and y and each of the six comparison operators,
`x y cmp` evaluates to a Boolean. For two Integers and for two Reals it is the truth value
of the comparison of the numeric values, x on the left. For an Integer with a Real, on
either side, the Integer is first converted to Real, and the Boolean is the truth value
of the comparison of the converted value with the Real; it is the comparison of the
numeric values whenever the Integer is a value the decimal float holds exactly (at most
1000 significant digits). -/
theorem C16_comparison (rt : Runtime) (store : Store) (cmp : ComparisonOperator) :
    (∀ a b : Int,
        RPNEvaluator.evaluate rt
          [.operand (.Integer a), .operand (.Integer b), .operator cmp.toOperator] store =
          .returned (.Boolean (cmp.holds a b), store)) ∧
      (∀ r s : Rat,
        RPNEvaluator.evaluate rt
          [.operand (.Real r), .operand (.Real s), .operator cmp.toOperator] store =
          .returned (.Boolean (cmp.holds r s), store)) ∧
      (∀ (a : Int) (s : Rat),
        RPNEvaluator.evaluate rt
          [.operand (.Integer a), .operand (.Real s), .operator cmp.toOperator] store =
          .returned (.Boolean (cmp.holds (rt.convert a) s), store)) ∧
      (∀ (r : Rat) (b : Int),
        RPNEvaluator.evaluate rt
          [.operand (.Real r), .operand (.Integer b), .operator cmp.toOperator] store =
          .returned (.Boolean (cmp.holds r (rt.convert b)), store)) ∧
      (∀ (a : Int) (s : Rat), Real.representable a →
        RPNEvaluator.evaluate rt
          [.operand (.Integer a), .operand (.Real s), .operator cmp.toOperator] store =
          .returned (.Boolean (cmp.holds a s), store)) ∧
      (∀ (r : Rat) (b : Int), Real.representable b →
        RPNEvaluator.evaluate rt
          [.operand (.Real r), .operand (.Integer b), .operator cmp.toOperator] store =
          .returned (.Boolean (cmp.holds r b), store)) := by
  obtain ⟨hleft, hright⟩ := evaluate_comparison_mixed rt store cmp
  refine ⟨?_, ?_, hleft, hright, ?_, ?_⟩
  · intro a b
    cases cmp <;>
      simp [RPNEvaluator.evaluate, evaluateLoop, OperatorKind.perform,
        OperatorKind.performOnStack, ComparisonOperator.toOperator,
        ComparisonOperator.holds, unlessShort, virtualCall, castOrReal,
        Operand.asInteger,
        Integer.perform_Less, Integer.perform_LessEqual, Integer.perform_Greater,
        Integer.perform_GreaterEqual, Integer.perform_Equality, Integer.perform_Inequality]
  · intro r s
    cases cmp <;>
      simp [RPNEvaluator.evaluate, evaluateLoop, OperatorKind.perform,
        OperatorKind.performOnStack, ComparisonOperator.toOperator,
        ComparisonOperator.holds, unlessShort, virtualCall, castOrReal,
        Operand.asReal,
        Real.perform_Less, Real.perform_LessEqual, Real.perform_Greater,
        Real.perform_GreaterEqual, Real.perform_Equality, Real.perform_Inequality]
  · intro a s ha
    rw [hleft a s, rt.convert_exact a ha]
  · intro r b hb
    rw [hright r b, rt.convert_exact b hb]

/-- C16, amended, on Integer 2 against Real 3 under `Less`. -/
theorem C16_comparison_witness :
    Real.representable ((2 : Int) : Rat) ∧
      RPNEvaluator.evaluate exampleRuntime
        [.operand (.Integer 2), .operand (.Real 3),
          .operator ComparisonOperator.Less.toOperator] [] =
        .returned (.Boolean (ComparisonOperator.Less.holds ((2 : Int) : Rat) 3), []) :=
  ⟨Real.representable_intCast 2 (by decide),
    (C16_comparison exampleRuntime [] .Less).2.2.2.2.1 2 3
      (Real.representable_intCast 2 (by decide))⟩

/-! ## Logical operators on numeric operands -/

/-- C17, as stated, fails: `1 0 Or` on two Integers is not rejected; the base-class
`perform_Or` casts both operands to `Integer` and `evaluate` returns Integer 1. -/
theorem C17_counterexample :
    RPNEvaluator.evaluate exampleRuntime
        [.operand (.Integer 1), .operand (.Integer 0), .operator .Or] [] =
      .returned (.Integer 1, []) := by
  rfl

/-- C17, amended: logical operators are not rejected on numeric operands. On two Reals
each of And, Or, Xor, Nand, Nor, Xnor returns the Real 1 or 0 its truth table gives for
the truthiness of the two (non-zero is true), and Not on a Real returns Real 1 for zero
and Real 0 otherwise; on two Integers each of Or, Xor, Nand, Nor, Xnor returns the
Integer 1 or 0 its truth table gives. And on two Integers, Not on an Integer and a pair
of one Integer and one Real are left out: nothing is stated of them. -/
theorem C17_logical_on_numbers (rt : Runtime) (store : Store) :
    (∀ (op : LogicalOperator) (r s : Rat),
        RPNEvaluator.evaluate rt
          [.operand (.Real r), .operand (.Real s), .operator op.toOperator] store =
          .returned (.Real (if op.apply (decide (r ≠ 0)) (decide (s ≠ 0)) then 1 else 0),
            store)) ∧
      (∀ r : Rat,
        RPNEvaluator.evaluate rt [.operand (.Real r), .operator .Not] store =
          .returned (.Real (if r = 0 then 1 else 0), store)) ∧
      (∀ (op : LogicalOperator) (a b : Int), op ≠ .And →
        RPNEvaluator.evaluate rt
          [.operand (.Integer a), .operand (.Integer b), .operator op.toOperator] store =
          .returned (.Integer (if op.apply (decide (a ≠ 0)) (decide (b ≠ 0)) then 1 else 0),
            store)) := by
  refine ⟨?_, ?_, ?_⟩
  · intro op r s
    cases op <;> rfl
  · intro r
    simp [RPNEvaluator.evaluate, evaluateLoop, OperatorKind.perform,
      OperatorKind.performOnStack, unlessShort, virtualCall, Real.perform_Not, castOne,
      Operand.asReal, Real.ofBool]
  · intro op a b hop
    cases op
    · exact absurd rfl hop
    all_goals rfl

/-- C17, amended, on `1 0 Or` over Integers, which returns Integer 1. -/
theorem C17_logical_on_numbers_witness :
    LogicalOperator.Or ≠ LogicalOperator.And ∧
      RPNEvaluator.evaluate exampleRuntime
        [.operand (.Integer 1), .operand (.Integer 0),
          .operator LogicalOperator.Or.toOperator] [] =
        .returned (.Integer (if LogicalOperator.Or.apply (decide ((1 : Int) ≠ 0))
          (decide ((0 : Int) ≠ 0)) then 1 else 0), []) :=
  ⟨by decide, (C17_logical_on_numbers exampleRuntime []).2.2 .Or 1 0 (by decide)⟩

/-! ## Assignment -/

/-- C18: assignment effect and frame. On a stack with the operand v on top of the
Variable x, `Assignment::perform` removes the two, pushes the Variable x itself and
leaves every entry below as it was; afterwards x is bound to v and every other Variable
has the binding it had. -/
theorem C18_assignment_frame (rt : Runtime) (store : Store) (name : String) (v : Operand)
    (below : List Operand) :
    OperatorKind.Assignment.perform rt (v :: .Variable name :: below) store =
        .returned (.Variable name :: below, store.set name v) ∧
      (store.set name v).value name = some v ∧
      ∀ other : String, other ≠ name → (store.set name v).value other = store.value other := by
  refine ⟨rfl, ?_, ?_⟩
  · simp [Store.set, Store.value, List.lookup]
  · intro other hother
    have : (other == name) = false := by simpa using hother
    simp [Store.set, Store.value, List.lookup, this]

/-- C18 on the stack with Integer 5 on top of the Variable x above Integer 7, in a store
that binds y: x becomes bound to Integer 5 and y keeps its binding. -/
theorem C18_assignment_frame_witness :
    OperatorKind.Assignment.perform exampleRuntime
        [.Integer 5, .Variable "x", .Integer 7] [("y", .Integer 1)] =
        .returned ([.Variable "x", .Integer 7],
          Store.set [("y", .Integer 1)] "x" (.Integer 5)) ∧
      (Store.set [("y", .Integer 1)] "x" (.Integer 5)).value "x" = some (.Integer 5) ∧
      (Store.set [("y", .Integer 1)] "x" (.Integer 5)).value "y" =
        Store.value [("y", .Integer 1)] "y" :=
  ⟨(C18_assignment_frame exampleRuntime [("y", .Integer 1)] "x" (.Integer 5)
      [.Integer 7]).1,
    (C18_assignment_frame exampleRuntime [("y", .Integer 1)] "x" (.Integer 5)
      [.Integer 7]).2.1,
    (C18_assignment_frame exampleRuntime [("y", .Integer 1)] "x" (.Integer 5)
      [.Integer 7]).2.2 "y" (by decide)⟩

/-- C19: on a stack whose second entry from the top, the assignment target, is not a
Variable, `Assignment::perform` throws "Error: assignment to a non-variable." before any
binding is made; `3 5 Assignment` fails that way. -/
theorem C19_assignment_target (rt : Runtime) (store : Store) (value target : Operand)
    (below : List Operand) (htarget : ∀ name, target ≠ .Variable name) :
    OperatorKind.Assignment.perform rt (value :: target :: below) store =
        .thrown "Error: assignment to a non-variable." ∧
      RPNEvaluator.evaluate rt
        [.operand (.Integer 3), .operand (.Integer 5), .operator .Assignment] store =
        .thrown "Error: assignment to a non-variable." := by
  refine ⟨?_, rfl⟩
  cases target with
  | Variable name => exact absurd rfl (htarget name)
  | _ => rfl

/-- C19 on the stack of `3 5 Assignment`. -/
theorem C19_assignment_target_witness :
    OperatorKind.Assignment.perform exampleRuntime [.Integer 5, .Integer 3] [] =
        .thrown "Error: assignment to a non-variable." ∧
      RPNEvaluator.evaluate exampleRuntime
        [.operand (.Integer 3), .operand (.Integer 5), .operator .Assignment] [] =
        .thrown "Error: assignment to a non-variable." :=
  C19_assignment_target exampleRuntime [] (.Integer 5) (.Integer 3) []
    (fun name h => by cases h)

/-- C20, the code after the assignment: evaluating `x 5 Assignment` binds the Variable x
to Integer 5 and returns the Variable x itself, whose binding is then Integer 5. The
arithmetic routines do not dereference a Variable: `x 1 Addition` afterwards does not
return Integer 6, `Integer::perform_addition` hands the Variable to `toRealValue`, which
throws "Unsupported operand type"; and `1 x Addition`, with the Variable on top, casts it
to `Integer` in the base-class routine and reads through the null pointer the cast
returns. -/
theorem C20_variable_after_assignment (rt : Runtime) (store : Store) (name : String) :
    RPNEvaluator.evaluate rt
        [.operand (.Variable name), .operand (.Integer 5), .operator .Assignment] store =
        .returned (.Variable name, store.set name (.Integer 5)) ∧
      (store.set name (.Integer 5)).value name = some (.Integer 5) ∧
      RPNEvaluator.evaluate rt
        [.operand (.Variable name), .operand (.Integer 1), .operator .Addition]
        (store.set name (.Integer 5)) = .thrown "Unsupported operand type" ∧
      RPNEvaluator.evaluate rt
        [.operand (.Variable name), .operand (.Integer 1), .operator .Addition]
        (store.set name (.Integer 5)) ≠
        .returned (.Integer 6, store.set name (.Integer 5)) ∧
      RPNEvaluator.evaluate rt
        [.operand (.Integer 1), .operand (.Variable name), .operator .Addition]
        (store.set name (.Integer 5)) = .undefined := by
  have hthrown : RPNEvaluator.evaluate rt
      [.operand (.Variable name), .operand (.Integer 1), .operator .Addition]
      (store.set name (.Integer 5)) = .thrown "Unsupported operand type" := rfl
  refine ⟨rfl, ?_, hthrown, ?_, rfl⟩
  · simp [Store.set, Store.value, List.lookup]
  · rw [hthrown]
    intro h
    cases h

/-! ## Integer exponentiation -/

theorem int_simple_power_loop (base : Int) :
    ∀ (count : Nat) (product : Int),
      int_simple_power.loop base count product = product * base ^ count := by
  intro count
  induction count with
  | zero => intro product; simp [int_simple_power.loop]
  | succ n ih =>
    intro product
    rw [int_simple_power.loop, ih, pow_succ]
    ring

/-- Repeated multiplication yields the power; an exponent below 1 gives the empty product. -/
theorem int_simple_power_eq_pow (base exponent : Int) :
    int_simple_power base exponent = base ^ exponent.toNat := by
  simp [int_simple_power, int_simple_power_loop]

theorem natAbs_eq_toNat (e : Int) (he : 0 ≤ e) : e.natAbs = e.toNat := by
  omega

/-- C21: exponentiation equivalence. For every Integer base b and every Integer exponent
e >= 0, `int_fast_power` and `int_simple_power` return the same value, and that value is
b multiplied by itself e times, the power b^e; for e = 0 both return 1. -/
theorem C21_power_equivalence (b e : Int) (he : 0 ≤ e) :
    int_fast_power b e = int_simple_power b e ∧
      int_simple_power b e = b ^ e.toNat ∧
      int_fast_power b e = b ^ e.toNat ∧
      int_fast_power b 0 = 1 ∧ int_simple_power b 0 = 1 := by
  have hfast := int_fast_power_eq_pow b e.toNat e (natAbs_eq_toNat e he)
  have hsimple := int_simple_power_eq_pow b e
  have hzero := int_fast_power_eq_pow b 0 0 rfl
  refine ⟨by rw [hfast, hsimple], hsimple, hfast, by simpa using hzero, rfl⟩

/-- C21 at base 3 and exponent 10. -/
theorem C21_power_equivalence_witness :
    (0 : Int) ≤ 10 ∧ int_fast_power 3 10 = int_simple_power 3 10 ∧
      int_simple_power 3 10 = 3 ^ (10 : Int).toNat :=
  ⟨by decide, (C21_power_equivalence 3 10 (by decide)).1,
    (C21_power_equivalence 3 10 (by decide)).2.1⟩

/-- C22: for all Integers b and e >= 0, `b e Power` evaluates to the Integer b^e, an
unbounded integer; `Power` on the two Integers pushes the result of `int_simple_power`
when e <= 8 and of `int_fast_power` when e > 8, and leaves the entries below as they
were. -/
theorem C22_integer_power (rt : Runtime) (store : Store) (b e : Int) (he : 0 ≤ e) :
    RPNEvaluator.evaluate rt
        [.operand (.Integer b), .operand (.Integer e), .operator .Power] store =
        .returned (.Integer (b ^ e.toNat), store) ∧
      (∀ below : List Operand,
        OperatorKind.Power.perform rt (.Integer e :: .Integer b :: below) store =
          .returned (.Integer (if e ≤ 8 then int_simple_power b e else int_fast_power b e)
            :: below, store)) ∧
      (if e ≤ 8 then int_simple_power b e else int_fast_power b e) = b ^ e.toNat := by
  have hvalue : (if e ≤ 8 then int_simple_power b e else int_fast_power b e) = b ^ e.toNat := by
    split
    · exact int_simple_power_eq_pow b e
    · exact int_fast_power_eq_pow b e.toNat e (natAbs_eq_toNat e he)
  refine ⟨?_, fun below => perform_Power_Integer rt b e below store, hvalue⟩
  simp [RPNEvaluator.evaluate, evaluateLoop, perform_Power_Integer, hvalue]

/-- C22 on `2 10 Power`, which takes the squaring branch. -/
theorem C22_integer_power_witness :
    (0 : Int) ≤ 10 ∧
      RPNEvaluator.evaluate exampleRuntime
        [.operand (.Integer 2), .operand (.Integer 10), .operator .Power] [] =
        .returned (.Integer (2 ^ (10 : Int).toNat), []) :=
  ⟨by decide, (C22_integer_power exampleRuntime [] 2 10 (by decide)).1⟩

/-! ## Factorial -/

theorem factorialLoop_eq (count : Nat) :
    ∀ k : Nat, factorialLoop count ((k : Int) + 1) (k.factorial : Int) =
      ((k + count).factorial : Int) := by
  induction count with
  | zero => intro k; rfl
  | succ n ih =>
    intro k
    rw [factorialLoop]
    have hacc : (k.factorial : Int) * ((k : Int) + 1) = ((k + 1).factorial : Int) := by
      rw [Nat.factorial_succ]
      push_cast
      ring
    have hnext : (k : Int) + 1 + 1 = ((k + 1 : Nat) : Int) + 1 := by
      push_cast
      ring
    rw [hacc, hnext, ih (k + 1)]
    congr 2
    omega

/-- What `Factorial` does to an `Integer` operand below `INT_MAX`: the test on the pointer
never fires, and the loop runs once for each whole number from 1 to the operand. -/
theorem evaluate_Factorial (rt : Runtime) (store : Store) (n : Int) (hn : n < 2147483647) :
    RPNEvaluator.evaluate rt [.operand (.Integer n), .operator .Factorial] store =
      .returned (.Integer (n.toNat.factorial : Int), store) := by
  have hguard : ¬ (2147483647 ≤ n) := by omega
  have hloop := factorialLoop_eq n.toNat 0
  simp only [Nat.cast_zero, zero_add, Nat.factorial_zero, Nat.cast_one] at hloop
  simp [RPNEvaluator.evaluate, evaluateLoop, OperatorKind.perform,
    OperatorKind.performOnStack, unlessShort, Operand.perform_factorial, castOne,
    Operand.asInteger, hguard, hloop]

/-- C23, the code on a negative operand: for every negative Integer n, `n Factorial` is not
rejected. The test `arg < 0` of `perform_factorial` compares the pointer, not the value, so
the exception "Factorial is undefined for negative integers" is never thrown; the loop
does not run and `evaluate` returns Integer 1. -/
theorem C23_negative_factorial (rt : Runtime) (store : Store) (n : Int) (hn : n < 0) :
    RPNEvaluator.evaluate rt [.operand (.Integer n), .operator .Factorial] store =
      .returned (.Integer 1, store) := by
  have h := evaluate_Factorial rt store n (by omega)
  have hzero : n.toNat = 0 := by omega
  simpa [hzero] using h

/-- C23 on `-3 Factorial`, which returns Integer 1. -/
theorem C23_negative_factorial_witness :
    (-3 : Int) < 0 ∧
      RPNEvaluator.evaluate exampleRuntime
        [.operand (.Integer (-3)), .operator .Factorial] [] = .returned (.Integer 1, []) :=
  ⟨by decide, C23_negative_factorial exampleRuntime [] (-3) (by decide)⟩

/-- C24, the code on a non-negative operand: for every Integer n with 0 <= n < 2147483647,
`n Factorial` evaluates to the Integer n! = 1*2*...*n, and `0 Factorial` to Integer 1; for
n >= 2147483647 the `int` counter of the loop cannot pass n, its increment overflows and no
value is returned. -/
theorem C24_factorial (rt : Runtime) (store : Store) (n : Int) :
    (0 ≤ n → n < 2147483647 →
        RPNEvaluator.evaluate rt [.operand (.Integer n), .operator .Factorial] store =
          .returned (.Integer (n.toNat.factorial : Int), store)) ∧
      (2147483647 ≤ n →
        RPNEvaluator.evaluate rt [.operand (.Integer n), .operator .Factorial] store =
          .undefined) ∧
      RPNEvaluator.evaluate rt [.operand (.Integer 0), .operator .Factorial] store =
        .returned (.Integer 1, store) := by
  refine ⟨fun _ hn => evaluate_Factorial rt store n hn, ?_, ?_⟩
  · intro hn
    simp [RPNEvaluator.evaluate, evaluateLoop, OperatorKind.perform,
      OperatorKind.performOnStack, unlessShort, Operand.perform_factorial, castOne,
      Operand.asInteger, hn]
  · simpa using evaluate_Factorial rt store 0 (by omega)

/-- C24 on `5 Factorial`, which returns Integer 120, and on `2147483647 Factorial`, which
returns nothing. -/
theorem C24_factorial_witness :
    RPNEvaluator.evaluate exampleRuntime [.operand (.Integer 5), .operator .Factorial] [] =
        .returned (.Integer ((5 : Int).toNat.factorial : Int), []) ∧
      (5 : Int).toNat.factorial = 120 ∧
      RPNEvaluator.evaluate exampleRuntime
        [.operand (.Integer 2147483647), .operator .Factorial] [] = .undefined :=
  ⟨(C24_factorial exampleRuntime [] 5).1 (by decide) (by decide), by decide,
    (C24_factorial exampleRuntime [] 2147483647).2.1 (by decide)⟩

/-! ## Division by zero -/

/-- C25, the code on a zero divisor: of the four pairings only Integer by Integer 0 fails,
with the exception boost raises ("Integer Division by zero."). With a Real 0 divisor, or a
Real dividend and an Integer 0 divisor, nothing is thrown and `evaluate` returns the Real
the decimal-float division by zero produces from the dividend converted to Real. The test
`right == 0` of `Real::perform_division` compares the pointer: on no stack does the routine
throw "Cannot Divide by 0". -/
theorem C25_division_by_zero (rt : Runtime) (store : Store) :
    (∀ a : Int,
        RPNEvaluator.evaluate rt
          [.operand (.Integer a), .operand (.Integer 0), .operator .Division] store =
          .thrown "Integer Division by zero.") ∧
      (∀ x : Numeric,
        RPNEvaluator.evaluate rt
          [.operand x.toOperand, .operand (.Real 0), .operator .Division] store =
          .returned (.Real (rt.divide_by_zero (x.toReal rt)), store)) ∧
      (∀ r : Rat,
        RPNEvaluator.evaluate rt
          [.operand (.Real r), .operand (.Integer 0), .operator .Division] store =
          .returned (.Real (rt.divide_by_zero r), store)) ∧
      (∀ operandList : List Operand,
        Real.perform_division rt operandList ≠ .thrown "Cannot Divide by 0") := by
  refine ⟨?_, ?_, ?_, ?_⟩
  · intro a
    simp [RPNEvaluator.evaluate, evaluateLoop, OperatorKind.perform,
      OperatorKind.performOnStack, unlessShort, virtualCall, Integer.perform_division,
      castOrReal, Operand.asInteger, Integer.divide]
  · intro x
    cases x <;>
      simp [RPNEvaluator.evaluate, evaluateLoop, OperatorKind.perform,
        OperatorKind.performOnStack, unlessShort, virtualCall, Real.perform_division,
        realTwo, toRealValue, Real.divide, Numeric.toOperand, Numeric.toReal]
  · intro r
    simp [RPNEvaluator.evaluate, evaluateLoop, OperatorKind.perform,
      OperatorKind.performOnStack, unlessShort, virtualCall, Integer.perform_division,
      castOrReal, Operand.asInteger, toRealValue, Real.divide, Runtime.convert_zero]
  · intro operandList
    match operandList with
    | [] => simp [Real.perform_division, realTwo]
    | [_] => simp [Real.perform_division, realTwo]
    | right :: left :: rest =>
      cases right <;> cases left <;>
        simp [Real.perform_division, realTwo, toRealValue]

/-! ## Functions that stay in `Integer` -/

/-- C26, the code on Integer operands: `Max`, `Min` and `Abs` return the exact Integer for
operands of any magnitude. `Floor` and `Ceil` convert through `long double` to `int`: they
return the operand unchanged when it lies between -2147483648 and 2147483647, and return
nothing (the conversion is undefined) for every Integer outside that range. -/
theorem C26_integer_functions (rt : Runtime) (store : Store) :
    (∀ a b : Int,
        RPNEvaluator.evaluate rt
          [.operand (.Integer a), .operand (.Integer b), .function .Max] store =
          .returned (.Integer (max a b), store)) ∧
      (∀ a b : Int,
        RPNEvaluator.evaluate rt
          [.operand (.Integer a), .operand (.Integer b), .function .Min] store =
          .returned (.Integer (min a b), store)) ∧
      (∀ a : Int,
        RPNEvaluator.evaluate rt [.operand (.Integer a), .function .Abs] store =
          .returned (.Integer |a|, store)) ∧
      (∀ a : Int, -2147483648 ≤ a → a ≤ 2147483647 →
        RPNEvaluator.evaluate rt [.operand (.Integer a), .function .Floor] store =
            .returned (.Integer a, store) ∧
          RPNEvaluator.evaluate rt [.operand (.Integer a), .function .Ceil] store =
            .returned (.Integer a, store)) ∧
      (∀ a : Int, a < -2147483648 ∨ 2147483647 < a →
        RPNEvaluator.evaluate rt [.operand (.Integer a), .function .Floor] store =
            .undefined ∧
          RPNEvaluator.evaluate rt [.operand (.Integer a), .function .Ceil] store =
            .undefined) := by
  refine ⟨fun _ _ => rfl, fun _ _ => rfl, fun _ => rfl, ?_, ?_⟩
  · intro a hlo hhi
    constructor <;>
      simp [RPNEvaluator.evaluate, evaluateLoop, FunctionKind.perform,
        FunctionKind.number_of_args, unlessShort, virtualCall, Integer.perform_Floor,
        Integer.perform_Ceil, castOne, Operand.asInteger, toIntViaLongDouble, hlo, hhi]
  · intro a hout
    have hrange : ¬ (-2147483648 ≤ a ∧ a ≤ 2147483647) := by omega
    constructor <;>
      simp [RPNEvaluator.evaluate, evaluateLoop, FunctionKind.perform,
        FunctionKind.number_of_args, unlessShort, virtualCall, Integer.perform_Floor,
        Integer.perform_Ceil, castOne, Operand.asInteger, toIntViaLongDouble, hrange]

/-- C26 on `5 Floor`, which returns Integer 5, and on `2147483648 Floor`, which returns
nothing. -/
theorem C26_integer_functions_witness :
    RPNEvaluator.evaluate exampleRuntime [.operand (.Integer 5), .function .Floor] [] =
        .returned (.Integer 5, []) ∧
      RPNEvaluator.evaluate exampleRuntime
        [.operand (.Integer 2147483648), .function .Floor] [] = .undefined :=
  ⟨((C26_integer_functions exampleRuntime []).2.2.2.1 5 (by decide) (by decide)).1,
    ((C26_integer_functions exampleRuntime []).2.2.2.2 2147483648
      (Or.inr (by decide))).1⟩

/-! ## Transcendental functions on an `Integer` -/

/-- C27, the code on an Integer operand: for every Integer n and each of Sin, Cos, Tan,
Arcsin, Arctan, Exp, Ln, Lb, Sqrt, the routine reached by `n f` casts the operand to `Real`
with `dynamic_pointer_cast`, gets a null pointer and dereferences it. The operand is not
converted, no Real is pushed and `evaluate` returns nothing. -/
theorem C27_integer_transcendental (rt : Runtime) (store : Store)
    (f : TranscendentalFunction) (n : Int) :
    RPNEvaluator.evaluate rt [.operand (.Integer n), .function f.toFunction] store =
        .undefined ∧
      f.toFunction.perform rt [.Integer n] = .undefined := by
  cases f <;> exact ⟨rfl, rfl⟩

/-! ## The tie-break rule, operator by operator -/

theorem decide_lt_eq_not_le (a b : Nat) : decide (a < b) = !decide (b ≤ a) := by
  by_cases h : a < b
  · have hle : ¬ b ≤ a := by omega
    simp [h, hle]
  · have hle : b ≤ a := by omega
    simp [h, hle]

/-- Every operator but `Not` is converted by the test of `push_operation`: for `And`, which
is left-associative, the test of its lambda is the same test. -/
theorem popRule_eq_pushRule (op : OperatorKind) (hop : op ≠ .Not) :
    popRule op = pushRule op := by
  cases op
  case Not => exact absurd rfl hop
  case And =>
    funext top
    cases top with
    | operator k =>
      simp [popRule, precedenceRule, pushRule, Token.asOperator,
        OperatorKind.associativeType]
      exact decide_lt_eq_not_le _ _
    | _ =>
      simp [popRule, precedenceRule, pushRule, Token.asOperator,
        OperatorKind.associativeType]
  all_goals simp [popRule]

/-- C28, the code operator by operator. For every operator but `Not`, every output and every
pending stack, the converter moves to the output exactly the longest run of stack tops that
are operators passing the associativity test (left-associative and precedence(op) <=
precedence(top), or right-associative and precedence(op) < precedence(top)), then pushes
the operator; that test passes no top for a non-associative operator. `Not`, which is
non-associative, is converted by its own lambda and pops every operator top whose
precedence is not below its own: on a stack holding `Not` it pops that `Not`, and `Not Not
b` converts to `Not b Not`, which evaluates to the negation of b. -/
theorem C28_tie_break :
    (∀ (op : OperatorKind) (tl : TokenList) (st : List Token), op ≠ .Not →
        parseToken tl st (.operator op) =
          .returned (tl ++ st.takeWhile (pushRule op),
            .operator op :: st.dropWhile (pushRule op))) ∧
      (∀ (op : OperatorKind) (top : Token), op.associativeType = "None" →
        pushRule op top = false) ∧
      (∀ (tl : TokenList) (st : List Token),
        parseToken tl st (.operator .Not) =
          .returned (tl ++ st.takeWhile (precedenceRule .Not),
            .operator .Not :: st.dropWhile (precedenceRule .Not))) ∧
      (∀ top : OperatorKind,
        precedenceRule .Not (.operator top) =
          decide (OperatorKind.Not.precedence.toNat ≤ top.precedence.toNat)) ∧
      parseToken [] [.operator .Not] (.operator .Not) =
        .returned ([.operator .Not], [.operator .Not]) ∧
      (∀ b : Operand,
        Parser.parse [.operator .Not, .operator .Not, .operand b] =
          .returned [.operator .Not, .operand b, .operator .Not]) ∧
      (∀ (rt : Runtime) (store : Store) (b : Bool),
        RPNEvaluator.evaluate rt
          [.operator .Not, .operand (.Boolean b), .operator .Not] store =
          .returned (.Boolean (!b), store)) := by
  refine ⟨?_, ?_, ?_, ?_, rfl, fun _ => rfl, fun _ _ _ => rfl⟩
  · intro op tl st hop
    rw [parseToken_operator, popRule_eq_pushRule op hop]
  · intro op top hop
    cases h : top.asOperator with
    | none => simp [pushRule, h]
    | some k => simp [pushRule, h, hop]
  · intro tl st
    rw [parseToken_operator]
    rfl
  · intro top
    simp [precedenceRule, Token.asOperator]
    exact decide_lt_eq_not_le _ _

/-- C28 on `Addition` arriving over a stack holding `Multiplication`, which it pops, and on
`Negation`, whose test passes no top. -/
theorem C28_tie_break_witness :
    OperatorKind.Addition ≠ OperatorKind.Not ∧
      parseToken [] [.operator .Multiplication] (.operator .Addition) =
        .returned ([] ++ [Token.operator .Multiplication].takeWhile (pushRule .Addition),
          .operator .Addition ::
            [Token.operator .Multiplication].dropWhile (pushRule .Addition)) ∧
      OperatorKind.Negation.associativeType = "None" ∧
      pushRule .Negation (.operator .Power) = false :=
  ⟨by decide, C28_tie_break.1 .Addition [] [.operator .Multiplication] (by decide),
    by decide, C28_tie_break.2.1 .Negation (.operator .Power) (by decide)⟩

/-! ## Exponentiation by squaring on a `Real` exponent -/

/-- Halving a non-zero `Real` exponent never reaches zero: `fast_power` uses up any depth
of recursion. -/
theorem fast_power_undefined (base : Rat) :
    ∀ (depth : Nat) (exponent : Rat), exponent ≠ 0 →
      fast_power base depth exponent = .undefined := by
  intro depth
  induction depth with
  | zero => intro exponent _; rfl
  | succ n ih =>
    intro exponent hne
    have hhalf : exponent / 2 ≠ 0 := by
      intro h
      apply hne
      have := div_eq_zero_iff.mp h
      rcases this with h0 | h2
      · exact h0
      · norm_num at h2
    simp [fast_power, hne, ih (exponent / 2) hhalf]

/-- C29, the code on a whole exponent above 8: for every Real base b and every Real
exponent e that is a whole number greater than 8, `Real::perform_Power` calls
`fast_power`, which halves the exponent as a `Real` (9, 4.5, 2.25, ...) and so never meets
its base case: whatever depth of recursion is available is used up, no value is pushed and
`evaluate` returns nothing. -/
theorem C29_real_power (rt : Runtime) (store : Store) (b e : Rat)
    (hwhole : (e.floor : Rat) = e) (hbig : 8 < e) :
    (∀ depth : Nat, fast_power b depth e = .undefined) ∧
      Real.perform_Power rt [.Real e, .Real b] = .undefined ∧
      RPNEvaluator.evaluate rt
        [.operand (.Real b), .operand (.Real e), .operator .Power] store = .undefined := by
  have hne : e ≠ 0 := by
    intro h
    rw [h] at hbig
    norm_num at hbig
  have hfast : ∀ depth : Nat, fast_power b depth e = .undefined :=
    fun depth => fast_power_undefined b depth e hne
  have hperform : Real.perform_Power rt [.Real e, .Real b] = .undefined := by
    simp [Real.perform_Power, realTwo, toRealValue, hwhole, hbig, hfast]
  refine ⟨hfast, hperform, ?_⟩
  simp [RPNEvaluator.evaluate, evaluateLoop, OperatorKind.perform,
    OperatorKind.performOnStack, unlessShort, virtualCall, hperform]

/-- C29 on `2.0 9.0 Power`. -/
theorem C29_real_power_witness :
    (((9 : Rat).floor : Int) : Rat) = 9 ∧ (8 : Rat) < 9 ∧
      RPNEvaluator.evaluate exampleRuntime
        [.operand (.Real 2), .operand (.Real 9), .operator .Power] [] = .undefined :=
  ⟨by decide, by decide, (C29_real_power exampleRuntime [] 2 9 (by decide) (by decide)).2.2⟩

/-! ## The precedence of `Factorial` -/

/-- C30, the code on `a Factorial Power b`: `Factorial` inherits the precedence UNARY of
`UnaryOperator`, below POWER, and no operator class has the precedence POSTFIX. `Power`,
right-associative, pops only tops of higher precedence, so `Factorial` stays on the stack
under it and the converter returns `a b Power Factorial`; `3 Factorial Power 2` evaluates
to (3^2)! = 362880, not (3!)^2 = 36. -/
theorem C30_factorial_precedence (a b : Operand) :
    Parser.parse [.operand a, .operator .Factorial, .operator .Power, .operand b] =
        .returned [.operand a, .operand b, .operator .Power, .operator .Factorial] ∧
      OperatorKind.Factorial.precedence = .UNARY ∧
      OperatorKind.Factorial.precedence.toNat < OperatorKind.Power.precedence.toNat ∧
      (∀ op : OperatorKind, op.precedence ≠ .POSTFIX) ∧
      ∀ (rt : Runtime) (store : Store),
        (Parser.parse [.operand (.Integer 3), .operator .Factorial, .operator .Power,
            .operand (.Integer 2)]).bind
          (fun rpn => RPNEvaluator.evaluate rt rpn store) =
          .returned (.Integer 362880, store) := by
  refine ⟨rfl, rfl, by decide, ?_, fun _ _ => rfl⟩
  intro op
  cases op <;> decide
/-! ## Chains of prefix operators -/

/-- C31, the code on chains of prefix operators: `Negation Negation n` converts to `n
Negation Negation` and evaluates to n, but `Not Not b` converts to `Not b Not` and
evaluates to the negation of b, not to b. For prefix operators u1, u2 the chain `u1 u2 a`
converts to `a u2 u1` exactly when u2 is not `Not`; when u2 is `Not`, its lambda pops u1
into the output ahead of the operand and the result is `u1 a Not`. -/
theorem C31_double_prefix :
    (∀ (rt : Runtime) (store : Store) (b : Bool),
        Parser.parse [.operator .Not, .operator .Not, .operand (.Boolean b)] =
            .returned [.operator .Not, .operand (.Boolean b), .operator .Not] ∧
          (Parser.parse [.operator .Not, .operator .Not, .operand (.Boolean b)]).bind
            (fun rpn => RPNEvaluator.evaluate rt rpn store) =
            .returned (.Boolean (!b), store)) ∧
      (∀ (rt : Runtime) (store : Store) (n : Int),
        Parser.parse [.operator .Negation, .operator .Negation, .operand (.Integer n)] =
            .returned [.operand (.Integer n), .operator .Negation, .operator .Negation] ∧
          (Parser.parse
              [.operator .Negation, .operator .Negation, .operand (.Integer n)]).bind
            (fun rpn => RPNEvaluator.evaluate rt rpn store) =
            .returned (.Integer n, store)) ∧
      (∀ (u1 u2 : PrefixOperator) (a : Operand),
        Parser.parse [.operator u1.toOperator, .operator u2.toOperator, .operand a] =
          .returned
            (if u2 = .Not then [.operator u1.toOperator, .operand a, .operator u2.toOperator]
              else [.operand a, .operator u2.toOperator, .operator u1.toOperator])) := by
  refine ⟨fun _ _ _ => ⟨rfl, rfl⟩, ?_, ?_⟩
  · intro rt store n
    refine ⟨rfl, ?_⟩
    have hparse : Parser.parse
        [.operator .Negation, .operator .Negation, .operand (.Integer n)] =
        .returned [.operand (.Integer n), .operator .Negation, .operator .Negation] := rfl
    rw [hparse]
    simp [RPNEvaluator.evaluate, evaluateLoop, OperatorKind.perform,
      OperatorKind.performOnStack, unlessShort, virtualCall, Integer.perform_Negation,
      castOne, Operand.asInteger]
  · intro u1 u2 a
    cases u1 <;> cases u2 <;> rfl

/-! ## An argument separator with no left parenthesis below it -/

/-- An argument separator over pending operators and functions with no left parenthesis
among them empties the stack and reads the top of the empty stack. -/
theorem popToLeftParenthesisUnchecked_undefined (st : List Token) :
    ∀ tl : TokenList, (∀ t ∈ st, t.isPending = true) → st.count .LeftParenthesis = 0 →
      popToLeftParenthesisUnchecked tl st = .undefined := by
  induction st with
  | nil => intro tl _ _; rfl
  | cons top rest ih =>
    intro tl hst hcount
    have hrest : ∀ t ∈ rest, t.isPending = true := fun t ht => hst t (List.mem_cons_of_mem _ ht)
    have htop : top.isPending = true := hst top (List.mem_cons_self _ _)
    cases top with
    | operator k =>
      rw [popToLeftParenthesisUnchecked_operator]
      exact ih _ hrest (by simpa using hcount)
    | function f =>
      rw [popToLeftParenthesisUnchecked_function]
      exact ih _ hrest (by simpa using hcount)
    | LeftParenthesis => simp at hcount
    | _ => simp [Token.isPending] at htop

/-- C35, the code on an argument separator with no left parenthesis pending: the loop of
`push_operation` reads `operator_stack.top()` with no emptiness test. On `[separator]` and
on `[1, separator, 2]` the converter neither returns nor throws; the same holds for every
input whose tokens before the separator leave a stack without a left parenthesis. -/
theorem C35_separator (before after : TokenList) (tl : TokenList) (st : List Token)
    (hloop : parseLoop before [] [] = .returned (tl, st))
    (hcount : st.count .LeftParenthesis = 0) :
    Parser.parse (before ++ .ArgumentSeparator :: after) = .undefined ∧
      Parser.parse [.ArgumentSeparator] = .undefined ∧
      Parser.parse [.operand (.Integer 1), .ArgumentSeparator, .operand (.Integer 2)] =
        .undefined := by
  refine ⟨?_, rfl, rfl⟩
  obtain ⟨_, hst⟩ := parseLoop_keeps before [] tl [] st (by simp) (by simp) hloop
  simp [Parser.parse, parseLoop_append, hloop, parseToken_ArgumentSeparator,
    popToLeftParenthesisUnchecked_undefined st tl hst hcount]

/-- C35 on `1 + 2` followed by a separator: the separator pops `+` and then reads the
top of the empty stack. -/
theorem C35_separator_witness :
    parseLoop [.operand (.Integer 1), .operator .Addition, .operand (.Integer 2)] [] [] =
        .returned ([.operand (.Integer 1), .operand (.Integer 2)], [.operator .Addition]) ∧
      Parser.parse ([.operand (.Integer 1), .operator .Addition, .operand (.Integer 2)] ++
        .ArgumentSeparator :: [.operand (.Integer 3)]) = .undefined :=
  ⟨rfl, (C35_separator [.operand (.Integer 1), .operator .Addition, .operand (.Integer 2)]
    [.operand (.Integer 3)] [.operand (.Integer 1), .operand (.Integer 2)]
    [.operator .Addition] rfl rfl).1⟩

/-! ## Power with a negative exponent, and the function `Pow` -/

/-- What `Power` pushes for two `Integer` operands is the power by the exponent cut off
below at 0. -/
theorem power_branch_eq_pow (b e : Int) :
    (if e ≤ 8 then int_simple_power b e else int_fast_power b e) = b ^ e.toNat := by
  split
  · exact int_simple_power_eq_pow b e
  · exact int_fast_power_eq_pow b e.toNat e (natAbs_eq_toNat e (by omega))

/-- C36: for every Integer base b and every negative Integer exponent e, `b e Power`
raises no error and evaluates to Integer 1: `Power` on the two Integers takes the branch
e <= 8 and pushes `int_simple_power b e`, whose loop runs zero times and returns the
initial product 1. -/
theorem C36_negative_exponent (rt : Runtime) (store : Store) (b e : Int) (he : e < 0) :
    RPNEvaluator.evaluate rt
        [.operand (.Integer b), .operand (.Integer e), .operator .Power] store =
        .returned (.Integer 1, store) ∧
      (∀ below : List Operand,
        OperatorKind.Power.perform rt (.Integer e :: .Integer b :: below) store =
          .returned (.Integer (int_simple_power b e) :: below, store)) ∧
      int_simple_power b e = int_simple_power.loop b 0 1 ∧
      int_simple_power b e = 1 := by
  have hle : e ≤ 8 := by omega
  have hzero : e.toNat = 0 := by omega
  have hone : int_simple_power b e = 1 := by
    simp [int_simple_power, hzero, int_simple_power.loop]
  refine ⟨?_, ?_, ?_, hone⟩
  · simp [RPNEvaluator.evaluate, evaluateLoop, perform_Power_Integer, hle, hone]
  · intro below
    simp [perform_Power_Integer, hle]
  · simp [int_simple_power, hzero]

/-- C36 on `2 -3 Power`. -/
theorem C36_negative_exponent_witness :
    (-3 : Int) < 0 ∧
      RPNEvaluator.evaluate exampleRuntime
        [.operand (.Integer 2), .operand (.Integer (-3)), .operator .Power] [] =
        .returned (.Integer 1, []) :=
  ⟨by decide, (C36_negative_exponent exampleRuntime [] 2 (-3) (by decide)).1⟩

/-- Repeated multiplication in the decimal float is exact as long as every power met on
the way is a value the decimal float holds. -/
theorem simple_power_loop_exact (rt : Runtime) (base : Rat) :
    ∀ (count j : Nat), (∀ k, k ≤ j + count → Real.representable (base ^ k)) →
      simple_power.loop rt base count (base ^ j) = base ^ (j + count) := by
  intro count
  induction count with
  | zero => intro j _; rfl
  | succ n ih =>
    intro j h
    have hj : Real.representable (base ^ j) := h j (by omega)
    have hone : Real.representable base := by
      have := h 1 (by omega)
      rwa [pow_one] at this
    have hnext : Real.representable (base ^ j * base) := by
      have := h (j + 1) (by omega)
      rwa [pow_succ] at this
    rw [simple_power.loop, rt.mul_exact _ _ hj hone hnext, ← pow_succ,
      ih (j + 1) (fun k hk => h k (by omega))]
    congr 1
    omega

theorem simple_power_exact (rt : Runtime) (base : Rat) (n : Nat)
    (h : ∀ k, k ≤ n → Real.representable (base ^ k)) :
    simple_power rt base (n : Rat) = base ^ n := by
  have hceil : ((n : Rat)).ceil.toNat = n := by
    have : ((n : Rat)).ceil = (n : Int) := by
      have hcast : (n : Rat) = ((n : Int) : Rat) := by simp
      rw [hcast]
      simp [Rat.ceil]
    rw [this]
    simp
  have hloop := simple_power_loop_exact rt base n 0 (fun k hk => h k (by omega))
  simpa [simple_power, hceil] using hloop

theorem Rat.floor_natCast_eq (n : Nat) : (((n : Rat)).floor : Rat) = (n : Rat) := by
  have hcast : (n : Rat) = ((n : Int) : Rat) := by simp
  have : ((n : Rat)).floor = (n : Int) := by
    rw [hcast]
    simp [Rat.floor]
  rw [this]
  simp

/-- What `Pow` does to a `Real` exponent on top of a numeric base: the base is the entry
below, converted to Real. A fractional exponent goes to the power routine of the library,
a whole exponent of at most 8 to `simple_power`, and a whole exponent above 8 to
`fast_power`, which does not return. -/
theorem perform_Pow_Real (rt : Runtime) (x : Numeric) (e : Rat) (below : List Operand) :
    FunctionKind.Pow.perform rt (.Real e :: x.toOperand :: below) =
      if (e.floor : Rat) = e then
        if e > 8 then .undefined
        else .returned (.Real (simple_power rt (x.toReal rt) e) :: below)
      else .returned (.Real (rt.pow (x.toReal rt) e) :: below) := by
  have hlen : ¬ (below.length + 1 + 1 < 2) := by omega
  cases x <;>
    simp only [FunctionKind.perform, unlessShort, virtualCall, Real.perform_Power, realTwo,
      toRealValue, Numeric.toOperand, Numeric.toReal, List.length_cons, hlen, if_false,
      Outcome.bind_returned] <;>
    (by_cases hwhole : (e.floor : Rat) = e
     · by_cases hbig : e > 8
       · have hne : e ≠ 0 := by
           intro h
           rw [h] at hbig
           norm_num at hbig
         simp [hwhole, hbig, fast_power_undefined _ _ e hne]
       · simp [hwhole, hbig]
     · simp [hwhole])

/-- What `Pow` does to an `Integer` exponent on top of a `Real` base: the exponent is
converted to Real and only the threshold is tested. -/
theorem perform_Pow_Integer_over_Real (rt : Runtime) (b : Rat) (n : Int)
    (below : List Operand) :
    FunctionKind.Pow.perform rt (.Integer n :: .Real b :: below) =
      if rt.convert n > 8 then .undefined
      else .returned (.Real (simple_power rt b (rt.convert n)) :: below) := by
  have hlen : ¬ (below.length + 1 + 1 < 2) := by omega
  simp only [FunctionKind.perform, unlessShort, virtualCall, Integer.perform_Power,
    castOrReal, Operand.asInteger, toRealValue, realPowerByThreshold, List.length_cons, hlen,
    if_false, Outcome.bind_returned]
  by_cases hbig : rt.convert n > 8
  · have hne : rt.convert n ≠ 0 := by
      intro h
      rw [h] at hbig
      norm_num at hbig
    simp [hbig, fast_power_undefined _ _ _ hne]
  · simp [hbig]

/-- C37: the function `Pow` and the operator `Power` are the same operation. On every
value stack `Pow::perform` and `Power::perform` end the same way and leave the same stack
(both test the size against 2 and dispatch to `perform_Power` of the top operand), and
`x y Pow` evaluates as `x y Power` does. The entry pushed first is the base and the one
pushed second the exponent, whatever the classes of the two: on Integers b then e the
result is the Integer b to the power e (the exponent cut off below at 0); with a Real
among them both are converted to Real, a fractional exponent e gives the Real the power
routine of the library returns for base and e, in this order, and a whole exponent n of
at most 8 gives the Real product of n copies of the base, which is the exact power when
the decimal float holds every power up to it; a whole exponent above 8 makes neither
return (C29). -/
theorem C37_pow_is_power (rt : Runtime) (store : Store) :
    (∀ operandList : List Operand,
        FunctionKind.Pow.perform rt operandList =
          OperatorKind.Power.performOnStack rt store operandList) ∧
      (∀ operandList : List Operand,
        (FunctionKind.Pow.perform rt operandList).bind (fun s => .returned (s, store)) =
          OperatorKind.Power.perform rt operandList store) ∧
      (∀ x y : Operand,
        RPNEvaluator.evaluate rt [.operand x, .operand y, .function .Pow] store =
          RPNEvaluator.evaluate rt [.operand x, .operand y, .operator .Power] store) ∧
      (∀ (b e : Int) (below : List Operand),
        FunctionKind.Pow.perform rt (.Integer e :: .Integer b :: below) =
            .returned (.Integer (b ^ e.toNat) :: below) ∧
          OperatorKind.Power.perform rt (.Integer e :: .Integer b :: below) store =
            .returned (.Integer (b ^ e.toNat) :: below, store)) ∧
      (∀ (x : Numeric) (e : Rat) (below : List Operand), (e.floor : Rat) ≠ e →
        FunctionKind.Pow.perform rt (.Real e :: x.toOperand :: below) =
          .returned (.Real (rt.pow (x.toReal rt) e) :: below)) ∧
      (∀ (x : Numeric) (e : Rat) (below : List Operand), (e.floor : Rat) = e → e ≤ 8 →
        FunctionKind.Pow.perform rt (.Real e :: x.toOperand :: below) =
          .returned (.Real (simple_power rt (x.toReal rt) e) :: below)) ∧
      (∀ (b : Rat) (n : Int) (below : List Operand), rt.convert n ≤ 8 →
        FunctionKind.Pow.perform rt (.Integer n :: .Real b :: below) =
          .returned (.Real (simple_power rt b (rt.convert n)) :: below)) ∧
      (∀ (x : Numeric) (n : Nat) (below : List Operand), n ≤ 8 →
        (∀ k, k ≤ n → Real.representable (x.value ^ k)) →
        FunctionKind.Pow.perform rt (.Real n :: x.toOperand :: below) =
          .returned (.Real (x.value ^ n) :: below)) ∧
      (∀ (b : Rat) (n : Nat) (below : List Operand), n ≤ 8 →
        (∀ k, k ≤ n → Real.representable (b ^ k)) →
        FunctionKind.Pow.perform rt (.Integer n :: .Real b :: below) =
          .returned (.Real (b ^ n) :: below)) ∧
      (∀ (x : Numeric) (e : Rat) (below : List Operand), (e.floor : Rat) = e → 8 < e →
        FunctionKind.Pow.perform rt (.Real e :: x.toOperand :: below) = .undefined) ∧
      (∀ (b : Rat) (n : Int) (below : List Operand), 8 < rt.convert n →
        FunctionKind.Pow.perform rt (.Integer n :: .Real b :: below) = .undefined) := by
  refine ⟨fun _ => rfl, fun _ => rfl, ?_, ?_, ?_, ?_, ?_, ?_, ?_, ?_, ?_⟩
  · intro x y
    simp only [RPNEvaluator.evaluate, evaluateLoop, FunctionKind.number_of_args,
      List.length_cons, List.length_nil]
    have hlen : ¬ (0 + 1 + 1 < 2) := by omega
    simp only [hlen, if_false]
    have hsame : OperatorKind.Power.perform rt [y, x] store =
        (FunctionKind.Pow.perform rt [y, x]).bind (fun s => .returned (s, store)) := rfl
    rw [hsame]
    cases FunctionKind.Pow.perform rt [y, x] <;> rfl
  · intro b e below
    have hop := perform_Power_Integer rt b e below store
    rw [power_branch_eq_pow] at hop
    refine ⟨?_, hop⟩
    have hsame : OperatorKind.Power.perform rt (.Integer e :: .Integer b :: below) store =
        (FunctionKind.Pow.perform rt (.Integer e :: .Integer b :: below)).bind
          (fun s => .returned (s, store)) := rfl
    rw [hsame] at hop
    cases hpow : FunctionKind.Pow.perform rt (.Integer e :: .Integer b :: below) with
    | returned s =>
      rw [hpow] at hop
      simp only [Outcome.bind_returned, Outcome.returned.injEq, Prod.mk.injEq] at hop
      rw [hop.1]
    | thrown w => rw [hpow] at hop; simp at hop
    | undefined => rw [hpow] at hop; simp at hop
  · intro x e below hfrac
    rw [perform_Pow_Real, if_neg hfrac]
  · intro x e below hwhole hsmall
    rw [perform_Pow_Real, if_pos hwhole, if_neg (not_lt.mpr hsmall)]
  · intro b n below hsmall
    rw [perform_Pow_Integer_over_Real, if_neg (not_lt.mpr hsmall)]
  · intro x n below hn hpowers
    have hsmall : (n : Rat) ≤ 8 := by exact_mod_cast hn
    rw [perform_Pow_Real, if_pos (Rat.floor_natCast_eq n), if_neg (not_lt.mpr hsmall)]
    cases n with
    | zero =>
      simp [simple_power, simple_power.loop, Rat.ceil]
    | succ m =>
      have hx : Real.representable x.value := by
        have := hpowers 1 (by omega)
        rwa [pow_one] at this
      have hreal : x.toReal rt = x.value := by
        cases x with
        | Integer a => exact rt.convert_exact a hx
        | Real r => rfl
      rw [hreal, simple_power_exact rt x.value (m + 1) hpowers]
  · intro b n below hn hpowers
    have hconvert : rt.convert (n : Int) = (n : Rat) := by
      have := rt.convert_exact (n : Int)
        (Real.representable_intCast (n : Int) (by
          rw [abs_of_nonneg (by omega)]
          omega))
      simpa using this
    have hsmall : rt.convert (n : Int) ≤ 8 := by
      rw [hconvert]
      exact_mod_cast hn
    rw [perform_Pow_Integer_over_Real, if_neg (not_lt.mpr hsmall), hconvert,
      simple_power_exact rt b n hpowers]
  · intro x e below hwhole hbig
    rw [perform_Pow_Real, if_pos hwhole, if_pos hbig]
  · intro b n below hbig
    rw [perform_Pow_Integer_over_Real, if_pos hbig]

theorem Real.representable_two_pow (k : Nat) (hk : k ≤ 3) :
    Real.representable ((Numeric.Real 2).value ^ k) := by
  have h := Real.representable_intCast (2 ^ k) (by
    have : (2 : Int) ^ k ≤ 2 ^ 3 := pow_le_pow_right₀ (by norm_num) hk
    rw [abs_of_nonneg (by positivity)]
    omega)
  simpa [Numeric.value] using h

/-- C37 on the Reals 2 and 3, pushed in this order: `Pow` returns the Real 2^3. -/
theorem C37_pow_is_power_witness :
    (3 : Nat) ≤ 8 ∧
      FunctionKind.Pow.perform exampleRuntime
          [.Real ((3 : Nat) : Rat), (Numeric.Real 2).toOperand] =
        .returned [.Real ((Numeric.Real 2).value ^ 3)] :=
  ⟨by decide,
    (C37_pow_is_power exampleRuntime []).2.2.2.2.2.2.2.1 (.Real 2) 3 [] (by decide)
      Real.representable_two_pow⟩

/-! ## Integer division and modulus -/

theorem natAbs_tmod_eq (a b : Int) : (a.tmod b).natAbs = a.natAbs % b.natAbs := by
  rcases a with m | m <;> rcases b with n | n
  · rfl
  · rfl
  · show (-((m + 1) % n : Nat) : Int).natAbs = _
    rw [Int.natAbs_neg, Int.natAbs_ofNat]
    rfl
  · show (-((m + 1) % (n + 1) : Nat) : Int).natAbs = _
    rw [Int.natAbs_neg, Int.natAbs_ofNat]
    rfl

theorem tmod_nonpos (a b : Int) (ha : a ≤ 0) : a.tmod b ≤ 0 := by
  rcases a with m | m
  · have hm : m = 0 := by
      have : (m : Int) ≤ 0 := ha
      omega
    subst hm
    simp
  · rcases b with n | n
    · show (-((m + 1) % n : Nat) : Int) ≤ 0
      omega
    · show (-((m + 1) % (n + 1) : Nat) : Int) ≤ 0
      omega

theorem abs_tmod_lt (a b : Int) (hb : b ≠ 0) : |a.tmod b| < |b| := by
  rw [Int.abs_eq_natAbs, Int.abs_eq_natAbs, natAbs_tmod_eq]
  have hpos : 0 < b.natAbs := Int.natAbs_pos.mpr hb
  exact_mod_cast Nat.mod_lt _ hpos

theorem abs_tdiv_mul_le (a b : Int) : |a.tdiv b * b| ≤ |a| := by
  rw [Int.abs_eq_natAbs, Int.abs_eq_natAbs, Int.natAbs_mul, Int.natAbs_tdiv]
  exact_mod_cast Nat.div_mul_le_self a.natAbs b.natAbs

/-- C38: Integer division and modulus truncate and are consistent. For all Integers a and
b with b != 0, `a b Division` evaluates to the Integer quotient rounded toward zero (the
multiple of b it stands for is no larger than a in magnitude) and `a b Modulus` to the
Integer remainder, which carries the sign of a and is smaller than b in magnitude, and
quotient * b + remainder = a. -/
theorem C38_division_modulus (rt : Runtime) (store : Store) (a b : Int) (hb : b ≠ 0) :
    RPNEvaluator.evaluate rt
        [.operand (.Integer a), .operand (.Integer b), .operator .Division] store =
        .returned (.Integer (a.tdiv b), store) ∧
      RPNEvaluator.evaluate rt
        [.operand (.Integer a), .operand (.Integer b), .operator .Modulus] store =
        .returned (.Integer (a.tmod b), store) ∧
      a.tdiv b * b + a.tmod b = a ∧
      (0 ≤ a → 0 ≤ a.tmod b) ∧ (a ≤ 0 → a.tmod b ≤ 0) ∧
      |a.tmod b| < |b| ∧ |a.tdiv b * b| ≤ |a| := by
  have hsum : a.tdiv b * b + a.tmod b = a := by
    have := Int.tmod_add_tdiv a b
    linarith [mul_comm b (a.tdiv b)]
  refine ⟨?_, ?_, hsum, fun ha => Int.tmod_nonneg b ha, tmod_nonpos a b, abs_tmod_lt a b hb,
    abs_tdiv_mul_le a b⟩
  · simp [RPNEvaluator.evaluate, evaluateLoop, OperatorKind.perform,
      OperatorKind.performOnStack, unlessShort, virtualCall, Integer.perform_division,
      castOrReal, Operand.asInteger, Integer.divide, hb]
  · simp [RPNEvaluator.evaluate, evaluateLoop, OperatorKind.perform,
      OperatorKind.performOnStack, unlessShort, Operand.perform_Modulus, castTwo,
      Operand.asInteger, Integer.modulus, hb]

/-- C38 on -7 and 2: the quotient is -3 and the remainder -1. -/
theorem C38_division_modulus_witness :
    (2 : Int) ≠ 0 ∧
      RPNEvaluator.evaluate exampleRuntime
        [.operand (.Integer (-7)), .operand (.Integer 2), .operator .Division] [] =
        .returned (.Integer ((-7 : Int).tdiv 2), []) ∧
      (-7 : Int).tdiv 2 = -3 ∧ (-7 : Int).tmod 2 = -1 :=
  ⟨by decide, (C38_division_modulus exampleRuntime [] (-7) 2 (by decide)).1, by decide,
    by decide⟩

/-! ## Logical operators on Booleans -/

/-- C39: on Boolean operands the logical operators follow the standard truth tables and
return a Boolean. For all Booleans a, b: And is a && b, Or is a || b, Xor is a != b, Nand
is !(a && b), Nor is !(a || b), Xnor is a == b, and Not is !a; `a b Xnor` evaluates as `a
b Equality` does and `a b Xor` as `a b Inequality` does. -/
theorem C39_boolean_logic (rt : Runtime) (store : Store) (a b : Bool) :
    (∀ op : LogicalOperator,
        RPNEvaluator.evaluate rt
          [.operand (.Boolean a), .operand (.Boolean b), .operator op.toOperator] store =
          .returned (.Boolean (op.apply a b), store)) ∧
      LogicalOperator.And.apply a b = (a && b) ∧
      LogicalOperator.Or.apply a b = (a || b) ∧
      LogicalOperator.Xor.apply a b = (a != b) ∧
      LogicalOperator.Nand.apply a b = !(a && b) ∧
      LogicalOperator.Nor.apply a b = !(a || b) ∧
      LogicalOperator.Xnor.apply a b = (a == b) ∧
      RPNEvaluator.evaluate rt [.operand (.Boolean a), .operator .Not] store =
        .returned (.Boolean (!a), store) ∧
      RPNEvaluator.evaluate rt
          [.operand (.Boolean a), .operand (.Boolean b), .operator .Xnor] store =
        RPNEvaluator.evaluate rt
          [.operand (.Boolean a), .operand (.Boolean b), .operator .Equality] store ∧
      RPNEvaluator.evaluate rt
          [.operand (.Boolean a), .operand (.Boolean b), .operator .Xor] store =
        RPNEvaluator.evaluate rt
          [.operand (.Boolean a), .operand (.Boolean b), .operator .Inequality] store := by
  refine ⟨?_, rfl, rfl, ?_, rfl, rfl, ?_, rfl, ?_, ?_⟩
  · intro op
    cases op <;> rfl
  · cases a <;> cases b <;> rfl
  · cases a <;> cases b <;> rfl
  · cases a <;> cases b <;> rfl
  · cases a <;> cases b <;> rfl

/-! ## Depth of recursion of `int_fast_power` -/

theorem size_half (n : Nat) (hn : n ≠ 0) : Nat.size n = Nat.size (n / 2) + 1 := by
  apply le_antisymm
  · rw [Nat.size_le]
    have := Nat.lt_size_self (n / 2)
    rw [pow_succ]
    omega
  · rw [Nat.succ_le_iff, Nat.lt_size]
    by_cases h : n / 2 = 0
    · rw [h]; simp; omega
    · have hk : 0 < Nat.size (n / 2) := Nat.size_pos.mpr (Nat.pos_of_ne_zero h)
      have := (@Nat.lt_size (Nat.size (n / 2) - 1) (n / 2)).mp (by omega)
      have h2 : 2 ^ Nat.size (n / 2) = 2 * 2 ^ (Nat.size (n / 2) - 1) := by
        rw [← pow_succ']
        congr 1
        omega
      omega

/-- With `depth` nested calls available, `int_fast_power` returns exactly when `depth`
is at least the bit length of the magnitude of the exponent. -/
theorem int_fast_power_within (base : Int) :
    ∀ (n depth : Nat) (exponent : Int), exponent.natAbs = n →
      int_fast_power.within base depth exponent =
        if Nat.size n ≤ depth then some (base ^ n) else none := by
  intro n
  induction n using Nat.strong_induction_on with
  | _ n ih =>
    intro depth exponent hn
    by_cases h0 : exponent = 0
    · subst h0
      simp at hn
      subst hn
      cases depth <;> simp [int_fast_power.within]
    · have hpos : n ≠ 0 := by
        rw [← hn]; exact Int.natAbs_ne_zero.mpr h0
      have hsize := size_half n hpos
      cases depth with
      | zero =>
        have : ¬ (Nat.size n ≤ 0) := by omega
        simp [int_fast_power.within, h0, this]
      | succ d =>
        have hhalf : (exponent.tdiv 2).natAbs = n / 2 := by
          rw [Int.natAbs_tdiv, hn]; rfl
        have hrec := ih (n / 2) (by omega) d (exponent.tdiv 2) hhalf
        have hstep := int_fast_power_eq_pow base n exponent hn
        rw [int_fast_power] at hstep
        simp only [h0, if_false] at hstep
        rw [int_fast_power_eq_pow base (n / 2) (exponent.tdiv 2) hhalf] at hstep
        simp only [int_fast_power.within, h0, if_false, hrec]
        by_cases hd : Nat.size (n / 2) ≤ d
        · have hd' : Nat.size n ≤ d + 1 := by omega
          simp only [hd, hd', if_true, Option.map_some']
          exact congrArg some hstep
        · have hd' : ¬ (Nat.size n ≤ d + 1) := by omega
          simp [hd, hd']

/-- C40: `int_fast_power` terminates for every Integer exponent, negative ones included.
The exponent is halved with truncation toward zero, so its magnitude strictly decreases
until it is 0; the recursion needs as many nested calls as the magnitude has bits (the
call returns with that many available and with any larger number, and with no smaller
one), and the value returned is b to the power |e|. -/
theorem C40_fast_power_terminates (b e : Int) :
    int_fast_power.within b (Nat.size e.natAbs) e = some (int_fast_power b e) ∧
      (∀ depth : Nat, Nat.size e.natAbs ≤ depth →
        int_fast_power.within b depth e = some (int_fast_power b e)) ∧
      (∀ depth : Nat, depth < Nat.size e.natAbs → int_fast_power.within b depth e = none) ∧
      e.natAbs < 2 ^ Nat.size e.natAbs ∧
      (e ≠ 0 → (e.tdiv 2).natAbs < e.natAbs) ∧
      int_fast_power b e = b ^ e.natAbs ∧
      (e < 0 → int_fast_power b e = b ^ (-e).toNat) := by
  have hvalue := int_fast_power_eq_pow b e.natAbs e rfl
  have hwithin := fun depth => int_fast_power_within b e.natAbs depth e rfl
  refine ⟨?_, ?_, ?_, Nat.lt_size_self _, ?_, hvalue, ?_⟩
  · rw [hwithin, hvalue]
    simp
  · intro depth hdepth
    rw [hwithin, hvalue]
    simp [hdepth]
  · intro depth hdepth
    rw [hwithin]
    have : ¬ (Nat.size e.natAbs ≤ depth) := by omega
    simp [this]
  · intro he
    rw [Int.natAbs_tdiv]
    have hpos : 0 < e.natAbs := Int.natAbs_pos.mpr he
    show e.natAbs / 2 < e.natAbs
    omega
  · intro he
    rw [hvalue]
    congr 1
    omega

/-- C40 on the exponent -5, whose magnitude has 3 bits: 3 nested calls are enough, 2 are
not, and the value is 2^5. -/
theorem C40_fast_power_terminates_witness :
    Nat.size (-5 : Int).natAbs ≤ 3 ∧
      int_fast_power.within 2 3 (-5) = some (int_fast_power 2 (-5)) ∧
      2 < Nat.size (-5 : Int).natAbs ∧ int_fast_power.within 2 2 (-5) = none ∧
      (-5 : Int) ≠ 0 ∧ ((-5 : Int).tdiv 2).natAbs < (-5 : Int).natAbs ∧
      (-5 : Int) < 0 ∧ int_fast_power 2 (-5) = 2 ^ (-(-5 : Int)).toNat :=
  ⟨Nat.size_le.mpr (by decide),
    (C40_fast_power_terminates 2 (-5)).2.1 3 (Nat.size_le.mpr (by decide)),
    Nat.lt_size.mpr (by decide),
    (C40_fast_power_terminates 2 (-5)).2.2.1 2 (Nat.lt_size.mpr (by decide)), by decide,
    (C40_fast_power_terminates 2 (-5)).2.2.2.2.1 (by decide), by decide,
    (C40_fast_power_terminates 2 (-5)).2.2.2.2.2.2 (by decide)⟩

/-! ## Balanced parentheses -/

theorem pendingLeft_ArgumentSeparator (d : Nat) (rest : List Token) :
    pendingLeft d (.ArgumentSeparator :: rest) = pendingLeft d rest := by
  cases d <;> rfl

theorem pendingLeft_other (d : Nat) (u : UnknownToken) (rest : List Token) :
    pendingLeft d (.other u :: rest) = pendingLeft d rest := by
  cases d <;> rfl

theorem cons_mem_inits (t : Token) (ts start : List Token) (h : start ∈ ts.inits) :
    t :: start ∈ (t :: ts).inits := by
  rw [List.inits_cons]
  exact List.mem_cons_of_mem _ (List.mem_map_of_mem _ h)

/-- The scan of the parentheses from `d` open ones, when no prefix closes more than `d`
plus what it opens: it ends with what was opened and not closed. -/
theorem pendingLeft_of_prefixes (ts : List Token) :
    ∀ d : Nat,
      (∀ start ∈ ts.inits,
        start.count .RightParenthesis ≤ d + start.count .LeftParenthesis) →
      pendingLeft d ts =
        some (d + ts.count .LeftParenthesis - ts.count .RightParenthesis) := by
  induction ts with
  | nil => intro d _; simp [pendingLeft]
  | cons t ts ih =>
    intro d h
    have htail : ∀ start ∈ ts.inits,
        (t :: start).count .RightParenthesis ≤ d + (t :: start).count .LeftParenthesis :=
      fun start hs => h (t :: start) (cons_mem_inits t ts start hs)
    cases t with
    | LeftParenthesis =>
      rw [pendingLeft_LeftParenthesis, ih (d + 1)]
      · congr 1
        simp
        omega
      · intro start hs
        have := htail start hs
        simp at this
        omega
    | RightParenthesis =>
      have hfirst := htail [] (by simp)
      simp at hfirst
      obtain ⟨d', rfl⟩ : ∃ d', d = d' + 1 := ⟨d - 1, by omega⟩
      show pendingLeft d' ts = _
      rw [ih d']
      · have := htail ts (by simp)
        simp at this
        congr 1
        simp
        omega
      · intro start hs
        have := htail start hs
        simp at this
        omega
    | operand o =>
      rw [pendingLeft_operand, ih d]
      · simp
      · intro start hs
        simpa using htail start hs
    | operator k =>
      rw [pendingLeft_operator, ih d]
      · simp
      · intro start hs
        simpa using htail start hs
    | function f =>
      rw [pendingLeft_function, ih d]
      · simp
      · intro start hs
        simpa using htail start hs
    | ArgumentSeparator =>
      rw [pendingLeft_ArgumentSeparator, ih d]
      · simp
      · intro start hs
        simpa using htail start hs
    | other u =>
      rw [pendingLeft_other, ih d]
      · simp
      · intro start hs
        simpa using htail start hs

/-- C32: `Parser::parse` returns a sequence, and raises no error, on every token
sequence that consists only of operands, operators of the catalogue, functions and
parentheses (no argument separator) and whose parentheses are balanced: every prefix has
at least as many left as right parentheses and the totals are equal. -/
theorem C32_parse_succeeds (infixTokens : TokenList)
    (htokens : ∀ t ∈ infixTokens, t.isExpressionToken = true)
    (hbalanced : balancedParentheses infixTokens) :
    ∃ out, Parser.parse infixTokens = .returned out := by
  obtain ⟨hstart, htotal⟩ := hbalanced
  have hscan : pendingLeft 0 infixTokens = some 0 := by
    rw [pendingLeft_of_prefixes infixTokens 0 (fun start hs => by
      have := hstart start hs
      omega)]
    congr 1
    omega
  obtain ⟨_, hsome⟩ :=
    parseLoop_pendingLeft infixTokens [] [] htokens (by simp) (by simp)
  obtain ⟨tl', st', hloop, _, hst', hc⟩ := hsome 0 (by simpa using hscan)
  obtain ⟨out, hout⟩ := (drainStack_count st' tl' hst').1 hc
  exact ⟨out, by simp [Parser.parse, hloop, hout]⟩

/-- C32 on `( 1 + 2 ) * 3`. -/
theorem C32_parse_succeeds_witness :
    balancedParentheses [.LeftParenthesis, .operand (.Integer 1), .operator .Addition,
        .operand (.Integer 2), .RightParenthesis, .operator .Multiplication,
        .operand (.Integer 3)] ∧
      ∃ out, Parser.parse [.LeftParenthesis, .operand (.Integer 1), .operator .Addition,
        .operand (.Integer 2), .RightParenthesis, .operator .Multiplication,
        .operand (.Integer 3)] = .returned out :=
  ⟨by decide,
    C32_parse_succeeds [.LeftParenthesis, .operand (.Integer 1), .operator .Addition,
      .operand (.Integer 2), .RightParenthesis, .operator .Multiplication,
      .operand (.Integer 3)] (by decide) (by decide)⟩

/-! ## What the converter moves: nothing lost, nothing duplicated -/

/-- A right parenthesis moves tokens from the stack to the output and drops one left
parenthesis: a filter that rejects the left parenthesis sees the same tokens before and
after. -/
theorem evalRightParenthesis_filter (p : Token → Bool) (hp : p .LeftParenthesis = false)
    (tok : Token) (st : List Token) :
    ∀ (tl tl' : TokenList) (st' : List Token), (∀ t ∈ st, t.isPending = true) →
      evalRightParenthesis tl st tok = .returned (tl', st') →
      (tl' ++ st').filter p = (tl ++ st).filter p := by
  induction st with
  | nil => intro tl tl' st' _ h; simp [evalRightParenthesis_nil] at h
  | cons top rest ih =>
    intro tl tl' st' hst h
    have hrest : ∀ t ∈ rest, t.isPending = true := fun t ht => hst t (List.mem_cons_of_mem _ ht)
    have htop : top.isPending = true := hst top (List.mem_cons_self _ _)
    cases top with
    | operator k =>
      rw [evalRightParenthesis_operator] at h
      rw [ih _ _ _ hrest h]
      simp
    | function f =>
      rw [evalRightParenthesis_function] at h
      rw [ih _ _ _ hrest h]
      simp
    | LeftParenthesis =>
      cases rest with
      | nil =>
        simp [evalRightParenthesis, popToLeftParenthesis_LeftParenthesis] at h
        obtain ⟨rfl, rfl⟩ := h
        simp [hp]
      | cons next rest' =>
        have hnext : next.isPending = true := hrest next (List.mem_cons_self _ _)
        cases next with
        | function f =>
          rw [evalRightParenthesis_call] at h
          simp only [Outcome.returned.injEq, Prod.mk.injEq] at h
          obtain ⟨rfl, rfl⟩ := h
          simp [List.filter_cons, hp]
        | operator k =>
          rw [evalRightParenthesis_LeftParenthesis tl (.operator k :: rest') _
            (isFunction_operator k)] at h
          simp only [Outcome.returned.injEq, Prod.mk.injEq] at h
          obtain ⟨rfl, rfl⟩ := h
          simp [List.filter_cons, hp]
        | LeftParenthesis =>
          have hno : noFunctionOnTop (.LeftParenthesis :: rest') := by
            show isFunction .LeftParenthesis = false
            rfl
          rw [evalRightParenthesis_LeftParenthesis tl (.LeftParenthesis :: rest') _ hno] at h
          simp only [Outcome.returned.injEq, Prod.mk.injEq] at h
          obtain ⟨rfl, rfl⟩ := h
          simp [List.filter_cons, hp]
        | _ => simp [Token.isPending] at hnext
    | _ => simp [Token.isPending] at htop

/-- An argument separator only moves tokens from the stack to the output. -/
theorem popToLeftParenthesisUnchecked_append (st : List Token) :
    ∀ (tl tl' : TokenList) (st' : List Token),
      popToLeftParenthesisUnchecked tl st = .returned (tl', st') → tl' ++ st' = tl ++ st := by
  induction st with
  | nil => intro tl tl' st' h; simp [popToLeftParenthesisUnchecked] at h
  | cons top rest ih =>
    intro tl tl' st' h
    rw [popToLeftParenthesisUnchecked] at h
    split at h
    · rw [ih _ _ _ h]
      simp
    · simp only [Outcome.returned.injEq, Prod.mk.injEq] at h
      obtain ⟨rfl, rfl⟩ := h
      rfl

/-- The final loop returns the output followed by the stack, top first. -/
theorem drainStack_eq (st : List Token) :
    ∀ (tl out : TokenList), drainStack tl st = .returned out → out = tl ++ st := by
  induction st with
  | nil =>
    intro tl out h
    simp only [drainStack_nil, Outcome.returned.injEq] at h
    simp [h]
  | cons top rest ih =>
    intro tl out h
    rw [drainStack] at h
    split at h
    · simp at h
    · rw [ih _ _ h]
      simp

/-- One input token: the executable tokens of output and stack afterwards are those
before together with the token itself, when it is executable. -/
theorem parseToken_perm (tok : Token) (tl tl' : TokenList) (st st' : List Token)
    (hst : ∀ t ∈ st, t.isPending = true)
    (h : parseToken tl st tok = .returned (tl', st')) :
    ((tl' ++ st').filter Token.isExecutable).Perm
      ((tl ++ st ++ [tok]).filter Token.isExecutable) := by
  cases tok with
  | operand o =>
    rw [parseToken_operand] at h
    simp only [Outcome.returned.injEq, Prod.mk.injEq] at h
    obtain ⟨rfl, rfl⟩ := h
    simp only [List.filter_append]
    rw [List.append_assoc, List.append_assoc]
    exact List.Perm.append_left _ List.perm_append_comm
  | operator op =>
    rw [parseToken_operator] at h
    simp only [Outcome.returned.injEq, Prod.mk.injEq] at h
    obtain ⟨rfl, rfl⟩ := h
    have hsplit : st = st.takeWhile (popRule op) ++ st.dropWhile (popRule op) :=
      (List.takeWhile_append_dropWhile _ _).symm
    have hperm : (tl ++ st.takeWhile (popRule op) ++
          Token.operator op :: st.dropWhile (popRule op)).Perm
        (tl ++ (st.takeWhile (popRule op) ++ st.dropWhile (popRule op)) ++
          [Token.operator op]) := by
      rw [List.append_assoc, List.append_assoc, List.append_assoc]
      refine List.Perm.append_left _ (List.Perm.append_left _ ?_)
      exact List.perm_append_singleton _ _ |>.symm
    rw [← hsplit] at hperm
    exact hperm.filter _
  | function f =>
    rw [parseToken_function] at h
    simp only [Outcome.returned.injEq, Prod.mk.injEq] at h
    obtain ⟨rfl, rfl⟩ := h
    have hperm : (tl ++ Token.function f :: st).Perm (tl ++ st ++ [Token.function f]) := by
      rw [List.append_assoc]
      exact List.Perm.append_left _ (List.perm_append_singleton _ _).symm
    exact hperm.filter _
  | LeftParenthesis =>
    rw [parseToken_LeftParenthesis] at h
    simp only [Outcome.returned.injEq, Prod.mk.injEq] at h
    obtain ⟨rfl, rfl⟩ := h
    simp [List.filter_cons, Token.isExecutable]
  | RightParenthesis =>
    rw [parseToken_RightParenthesis] at h
    rw [evalRightParenthesis_filter Token.isExecutable rfl _ st tl tl' st' hst h]
    simp [List.filter_cons, Token.isExecutable]
  | ArgumentSeparator =>
    rw [parseToken_ArgumentSeparator] at h
    rw [popToLeftParenthesisUnchecked_append st tl tl' st' h]
    simp [List.filter_cons, Token.isExecutable]
  | other u =>
    rw [parseToken_other] at h
    simp at h

theorem parseLoop_perm (ts : List Token) :
    ∀ (tl tl' : TokenList) (st st' : List Token),
      (∀ t ∈ tl, t.isExecutable = true) → (∀ t ∈ st, t.isPending = true) →
      parseLoop ts tl st = .returned (tl', st') →
      ((tl' ++ st').filter Token.isExecutable).Perm
        ((tl ++ st ++ ts).filter Token.isExecutable) := by
  induction ts with
  | nil =>
    intro tl tl' st st' _ _ h
    simp only [parseLoop_nil, Outcome.returned.injEq, Prod.mk.injEq] at h
    obtain ⟨rfl, rfl⟩ := h
    simp
  | cons tok rest ih =>
    intro tl tl' st st' htl hst h
    rw [parseLoop_cons] at h
    cases hstep : parseToken tl st tok with
    | returned s =>
      rw [hstep] at h
      obtain ⟨h1, h2⟩ := parseToken_keeps tok tl s.1 st s.2 htl hst hstep
      have hrest := ih _ _ _ _ h1 h2 h
      have hone := parseToken_perm tok tl s.1 st s.2 hst hstep
      refine hrest.trans ?_
      have : tl ++ st ++ tok :: rest = (tl ++ st ++ [tok]) ++ rest := by simp
      rw [this, List.filter_append, List.filter_append (tl ++ st ++ [tok]) rest]
      exact List.Perm.append_right _ hone
    | thrown w => rw [hstep] at h; simp at h
    | undefined => rw [hstep] at h; simp at h

/-- A sequence the loop of the converter accepts holds no token from outside the
catalogue: each token is executable or structural, never both. -/
theorem parseLoop_catalogued (ts : List Token) :
    ∀ (tl tl' : TokenList) (st st' : List Token),
      parseLoop ts tl st = .returned (tl', st') →
      ∀ t ∈ ts, t.isExecutable = !t.isStructural := by
  induction ts with
  | nil => intro _ _ _ _ _ t ht; simp at ht
  | cons tok rest ih =>
    intro tl tl' st st' h t ht
    rw [parseLoop_cons] at h
    cases hstep : parseToken tl st tok with
    | returned s =>
      rw [hstep] at h
      rcases List.mem_cons.mp ht with rfl | ht
      · cases t with
        | other u => rw [parseToken_other] at hstep; simp at hstep
        | _ => rfl
      · exact ih _ _ _ _ h t ht
    | thrown w => rw [hstep] at h; simp at h
    | undefined => rw [hstep] at h; simp at h

theorem length_filter_add_countP (ts : List Token)
    (h : ∀ t ∈ ts, t.isExecutable = !t.isStructural) :
    (ts.filter Token.isExecutable).length + ts.countP Token.isStructural = ts.length := by
  induction ts with
  | nil => rfl
  | cons t rest ih =>
    have hrest := ih (fun t ht => h t (List.mem_cons_of_mem _ ht))
    have ht := h t (List.mem_cons_self _ _)
    cases hs : t.isStructural with
    | true =>
      rw [hs] at ht
      simp [List.filter_cons, List.countP_cons, ht, hs]
      omega
    | false =>
      rw [hs] at ht
      simp [List.filter_cons, List.countP_cons, ht, hs]
      omega

/-- What `Parser::parse` returns, in terms of its loop: the output and the stack of the
loop, and both hold only what they may. -/
theorem parse_returned (infixTokens out : TokenList)
    (h : Parser.parse infixTokens = .returned out) :
    ∃ tl st, parseLoop infixTokens [] [] = .returned (tl, st) ∧ out = tl ++ st ∧
      (∀ t ∈ tl, t.isExecutable = true) ∧ (∀ t ∈ st, t.isPending = true) ∧
      ∀ t ∈ out, t.isExecutable = true := by
  unfold Parser.parse at h
  cases hloop : parseLoop infixTokens [] [] with
  | returned s =>
    rw [hloop] at h
    obtain ⟨h1, h2⟩ := parseLoop_keeps infixTokens [] s.1 [] s.2 (by simp) (by simp) hloop
    exact ⟨s.1, s.2, rfl, drainStack_eq s.2 s.1 out h, h1, h2,
      drainStack_keeps s.2 s.1 out h1 h2 h⟩
  | thrown w => rw [hloop] at h; simp at h
  | undefined => rw [hloop] at h; simp at h

/-- C33: whenever `Parser::parse` succeeds, its output is a permutation of the input
with the parentheses and argument separators removed: every operand, operator and
function token occurs in the output exactly as many times as in the input, and the
length of the output is the length of the input minus the number of structural tokens. -/
theorem C33_permutation (infixTokens out : TokenList)
    (h : Parser.parse infixTokens = .returned out) :
    out.Perm (infixTokens.filter Token.isExecutable) ∧
      (∀ t : Token, t.isExecutable = true → out.count t = infixTokens.count t) ∧
      (∀ t ∈ infixTokens, t.isExecutable = !t.isStructural) ∧
      out.length = infixTokens.length - infixTokens.countP Token.isStructural := by
  obtain ⟨tl, st, hloop, hout, htl, hst, hexec⟩ := parse_returned infixTokens out h
  have hperm := parseLoop_perm infixTokens [] tl [] st (by simp) (by simp) hloop
  simp only [List.nil_append] at hperm
  rw [← hout, List.filter_eq_self.mpr hexec] at hperm
  have hcat := parseLoop_catalogued infixTokens [] tl [] st hloop
  refine ⟨hperm, ?_, hcat, ?_⟩
  · intro t ht
    rw [hperm.count_eq, List.count_filter ht]
  · have := length_filter_add_countP infixTokens hcat
    rw [← hperm.length_eq] at this
    omega

/-- C33 on `Max(1+2, 3*4)`: ten tokens, three of them structural, seven in the output. -/
theorem C33_permutation_witness :
    Parser.parse [.function .Max, .LeftParenthesis, .operand (.Integer 1),
        .operator .Addition, .operand (.Integer 2), .ArgumentSeparator,
        .operand (.Integer 3), .operator .Multiplication, .operand (.Integer 4),
        .RightParenthesis] =
      .returned [.operand (.Integer 1), .operand (.Integer 2), .operator .Addition,
        .operand (.Integer 3), .operand (.Integer 4), .operator .Multiplication,
        .function .Max] ∧
      [Token.operand (.Integer 1), .operand (.Integer 2), .operator .Addition,
        .operand (.Integer 3), .operand (.Integer 4), .operator .Multiplication,
        .function .Max].length =
        [Token.function .Max, .LeftParenthesis, .operand (.Integer 1),
          .operator .Addition, .operand (.Integer 2), .ArgumentSeparator,
          .operand (.Integer 3), .operator .Multiplication, .operand (.Integer 4),
          .RightParenthesis].length -
        [Token.function .Max, .LeftParenthesis, .operand (.Integer 1),
          .operator .Addition, .operand (.Integer 2), .ArgumentSeparator,
          .operand (.Integer 3), .operator .Multiplication, .operand (.Integer 4),
          .RightParenthesis].countP Token.isStructural :=
  ⟨by decide,
    (C33_permutation
      [.function .Max, .LeftParenthesis, .operand (.Integer 1), .operator .Addition,
        .operand (.Integer 2), .ArgumentSeparator, .operand (.Integer 3),
        .operator .Multiplication, .operand (.Integer 4), .RightParenthesis]
      [.operand (.Integer 1), .operand (.Integer 2), .operator .Addition,
        .operand (.Integer 3), .operand (.Integer 4), .operator .Multiplication,
        .function .Max]
      (by decide)).2.2.2⟩

/-! ## The order of the operands -/

theorem filter_isOperand_of_pending (st : List Token) (hst : ∀ t ∈ st, t.isPending = true) :
    st.filter Token.isOperand = [] := by
  rw [List.filter_eq_nil_iff]
  intro t ht
  have := hst t ht
  cases t <;> simp [Token.isPending, Token.isOperand] at this ⊢

/-- One input token: the operands of the output afterwards are those before, followed by
the token itself when it is an operand. -/
theorem parseToken_operands (tok : Token) (tl tl' : TokenList) (st st' : List Token)
    (htl : ∀ t ∈ tl, t.isExecutable = true) (hst : ∀ t ∈ st, t.isPending = true)
    (h : parseToken tl st tok = .returned (tl', st')) :
    tl'.filter Token.isOperand = tl.filter Token.isOperand ++ [tok].filter Token.isOperand := by
  obtain ⟨_, hst'⟩ := parseToken_keeps tok tl tl' st st' htl hst h
  have hnone := filter_isOperand_of_pending st hst
  have hnone' := filter_isOperand_of_pending st' hst'
  have hboth : (tl' ++ st').filter Token.isOperand =
      (tl ++ st).filter Token.isOperand ++ [tok].filter Token.isOperand := by
    cases tok with
    | operand o =>
      rw [parseToken_operand] at h
      simp only [Outcome.returned.injEq, Prod.mk.injEq] at h
      obtain ⟨rfl, rfl⟩ := h
      simp [List.filter_append, List.filter_cons, Token.isOperand, hnone]
    | operator op =>
      rw [parseToken_operator] at h
      simp only [Outcome.returned.injEq, Prod.mk.injEq] at h
      obtain ⟨rfl, rfl⟩ := h
      have hsplit : st.filter Token.isOperand =
          (st.takeWhile (popRule op)).filter Token.isOperand ++
            (st.dropWhile (popRule op)).filter Token.isOperand := by
        rw [← List.filter_append, List.takeWhile_append_dropWhile]
      simp [List.filter_append, List.filter_cons, Token.isOperand, hsplit]
    | function f =>
      rw [parseToken_function] at h
      simp only [Outcome.returned.injEq, Prod.mk.injEq] at h
      obtain ⟨rfl, rfl⟩ := h
      simp [List.filter_append, List.filter_cons, Token.isOperand]
    | LeftParenthesis =>
      rw [parseToken_LeftParenthesis] at h
      simp only [Outcome.returned.injEq, Prod.mk.injEq] at h
      obtain ⟨rfl, rfl⟩ := h
      simp [List.filter_append, List.filter_cons, Token.isOperand]
    | RightParenthesis =>
      rw [parseToken_RightParenthesis] at h
      rw [evalRightParenthesis_filter Token.isOperand rfl _ st tl tl' st' hst h]
      simp [List.filter_cons, Token.isOperand]
    | ArgumentSeparator =>
      rw [parseToken_ArgumentSeparator] at h
      rw [popToLeftParenthesisUnchecked_append st tl tl' st' h]
      simp [List.filter_cons, Token.isOperand]
    | other u =>
      rw [parseToken_other] at h
      simp at h
  simpa [List.filter_append, hnone, hnone'] using hboth

theorem parseLoop_operands (ts : List Token) :
    ∀ (tl tl' : TokenList) (st st' : List Token),
      (∀ t ∈ tl, t.isExecutable = true) → (∀ t ∈ st, t.isPending = true) →
      parseLoop ts tl st = .returned (tl', st') →
      tl'.filter Token.isOperand = tl.filter Token.isOperand ++ ts.filter Token.isOperand := by
  induction ts with
  | nil =>
    intro tl tl' st st' _ _ h
    simp only [parseLoop_nil, Outcome.returned.injEq, Prod.mk.injEq] at h
    obtain ⟨rfl, rfl⟩ := h
    simp
  | cons tok rest ih =>
    intro tl tl' st st' htl hst h
    rw [parseLoop_cons] at h
    cases hstep : parseToken tl st tok with
    | returned s =>
      rw [hstep] at h
      obtain ⟨h1, h2⟩ := parseToken_keeps tok tl s.1 st s.2 htl hst hstep
      rw [ih _ _ _ _ h1 h2 h, parseToken_operands tok tl s.1 st s.2 htl hst hstep]
      have : tok :: rest = [tok] ++ rest := rfl
      rw [this, List.filter_append, List.append_assoc]
    | thrown w => rw [hstep] at h; simp at h
    | undefined => rw [hstep] at h; simp at h

/-- C34: whenever `Parser::parse` succeeds, the operand tokens appear in the output in
the same relative order as in the input: the output filtered to operands equals the input
filtered to operands. -/
theorem C34_operand_order (infixTokens out : TokenList)
    (h : Parser.parse infixTokens = .returned out) :
    out.filter Token.isOperand = infixTokens.filter Token.isOperand := by
  obtain ⟨tl, st, hloop, hout, _, hst, _⟩ := parse_returned infixTokens out h
  have hops := parseLoop_operands infixTokens [] tl [] st (by simp) (by simp) hloop
  rw [hout, List.filter_append, filter_isOperand_of_pending st hst, hops]
  simp

/-- C34 on `1 + 2 * 3`, whose output is `1 2 3 * +`. -/
theorem C34_operand_order_witness :
    Parser.parse [.operand (.Integer 1), .operator .Addition, .operand (.Integer 2),
        .operator .Multiplication, .operand (.Integer 3)] =
      .returned [.operand (.Integer 1), .operand (.Integer 2), .operand (.Integer 3),
        .operator .Multiplication, .operator .Addition] ∧
      [Token.operand (.Integer 1), .operand (.Integer 2), .operand (.Integer 3),
          .operator .Multiplication, .operator .Addition].filter Token.isOperand =
        [Token.operand (.Integer 1), .operator .Addition, .operand (.Integer 2),
          .operator .Multiplication, .operand (.Integer 3)].filter Token.isOperand :=
  ⟨by decide,
    C34_operand_order
      [.operand (.Integer 1), .operator .Addition, .operand (.Integer 2),
        .operator .Multiplication, .operand (.Integer 3)]
      [.operand (.Integer 1), .operand (.Integer 2), .operand (.Integer 3),
        .operator .Multiplication, .operator .Addition]
      (by decide)⟩

end RPN
